import Mathlib

/-!
# Order desk: order lifecycle and operator protocol

A shallow embedding of the order handling code of the storefront:

* `routes/mainRoutes.js`: `POST /checkout`, `POST /api/add-message`;
* `routes/adminRoutes.js`: `POST /update-order-status`, `/send-message`,
  `/archive-order/:id`, `/delete-archived-order/:id`;
* `adminBot.js`: `updateOrderStatus`, `updateOrderArchiveStatus`, the
  `callback_query` listener, the `onText` listeners and the `message` listener.

The `Order` collection is a list of documents; a query acts on the first
document that matches its filter.  The collection is reliable: a query never
throws, so a `catch` block is entered only through a `throw` of the handler
itself.  The one exception is the `message` listener of the bot, whose model
takes the outcome of its two store calls as a parameter (`StoreFault`).
Handlers are modelled after their middleware (`isAuth`, `verifyToken`) has let
the request through.  Clock readings (`new Date()`), random bytes and the
identifier of a new document are inputs of the handler that uses them.
-/

namespace OrderDesk

/-! ## Strings -/

/-- The characters removed by `String.prototype.trim` (and skipped by
`parseInt`): the white space and line terminator code points of ECMAScript. -/
def isJsWhitespace (c : Char) : Bool :=
  let n := c.toNat
  n == 0x09 || n == 0x0A || n == 0x0B || n == 0x0C || n == 0x0D || n == 0x20 ||
  n == 0xA0 || n == 0x1680 || (0x2000 ≤ n && n ≤ 0x200A) || n == 0x2028 ||
  n == 0x2029 || n == 0x202F || n == 0x205F || n == 0x3000 || n == 0xFEFF

/-- The characters of a string with leading and trailing white space removed. -/
def trimChars (l : List Char) : List Char :=
  ((l.dropWhile isJsWhitespace).reverse.dropWhile isJsWhitespace).reverse

/-- The method `s.trim()`. -/
def trim (s : String) : String := ⟨trimChars s.data⟩

/-- Truthiness of a value that is `undefined` or a string: `!x` is false
exactly when `x` is a non-empty string. -/
def truthy : Option String → Bool
  | none => false
  | some s => s != ""

/-- The character class `[a-fA-F0-9]`. -/
def isHex (c : Char) : Bool :=
  let n := c.toNat
  (48 ≤ n && n ≤ 57) || (97 ≤ n && n ≤ 102) || (65 ≤ n && n ≤ 70)

/-- The pattern `[a-fA-F0-9]{64}` matched against a whole list of characters. -/
def hex64 (l : List Char) : Bool := l.length == 64 && l.all isHex

/-- The test `txIdPattern.test(s)` for
`/^(0x[a-fA-F0-9]{64}|[a-fA-F0-9]{64})$/`. -/
def txIdPattern (s : String) : Bool :=
  (s.data.take 2 == ['0', 'x'] && hex64 (s.data.drop 2)) || hex64 s.data

/-- Value of a digit in the given radix (10 or 16), if it is one. -/
def digitValue (radix : Nat) (c : Char) : Option Nat :=
  let n := c.toNat
  let v : Option Nat :=
    if 48 ≤ n && n ≤ 57 then some (n - 48)
    else if 97 ≤ n && n ≤ 122 then some (n - 87)
    else if 65 ≤ n && n ≤ 90 then some (n - 55)
    else none
  v.bind fun d => if d < radix then some d else none

/-- The function `parseInt(s)` on a string; `none` is `NaN`.  White space is
skipped, a sign is read, a prefix `0x` or `0X` selects radix 16, and the
longest run of digits is read.  The result is the exact integer, where
JavaScript yields the nearest double: above 2^53 the two differ (and a very
long run of digits gives `Infinity`).  The rounding keeps the sign, which is
what the guard of the checkout tests; the quantity the checkout stores is
exact here only up to 2^53. -/
def parseInt (s : String) : Option Int :=
  let l := s.data.dropWhile isJsWhitespace
  let signed : Bool × List Char :=
    match l with
    | '-' :: r => (true, r)
    | '+' :: r => (false, r)
    | _ => (false, l)
  let based : Nat × List Char :=
    match signed.2 with
    | '0' :: 'x' :: r => (16, r)
    | '0' :: 'X' :: r => (16, r)
    | r => (10, r)
  let ds := (based.2.takeWhile fun c => (digitValue based.1 c).isSome).filterMap (digitValue based.1)
  if ds.isEmpty then none
  else
    let v : Nat := ds.foldl (fun acc d => acc * based.1 + d) 0
    some (if signed.1 then - (v : Int) else (v : Int))

/-- ASCII lower-casing of one character: the case folding of a regular
expression with flag `i` (without flag `u`) on ASCII letters. -/
def asciiLower (c : Char) : Char :=
  if 65 ≤ c.toNat && c.toNat ≤ 90 then Char.ofNat (c.toNat + 32) else c

/-- ASCII upper-casing of one character. -/
def asciiUpper (c : Char) : Char :=
  if 97 ≤ c.toNat && c.toNat ≤ 122 then Char.ofNat (c.toNat - 32) else c

/-- The method `s.toUpperCase()` on the strings the code applies it to: the
hexadecimal rendering of random bytes and an order number matched by
`EM-[A-Z0-9]+`, both ASCII. -/
def toUpperCase (s : String) : String := ⟨s.data.map asciiUpper⟩

/-- Splitting of a list of characters at every occurrence of `sep`. -/
def splitChars (sep : Char) : List Char → List (List Char)
  | [] => [[]]
  | c :: cs =>
    if c = sep then [] :: splitChars sep cs
    else
      match splitChars sep cs with
      | [] => [[c]]
      | p :: ps => (c :: p) :: ps

/-- The method `data.split(':')`. -/
def splitColon (s : String) : List String :=
  (splitChars ':' s.data).map String.mk

/-- The method `text.startsWith('/')`. -/
def startsWithSlash (s : String) : Bool :=
  match s.data with
  | '/' :: _ => true
  | _ => false

/-! ## Data model -/

/-- An `ObjectId` of the document store. -/
abbrev ObjectId := Nat

/-- The functions of the `bson`/`mongoose` library the handlers use on
identifiers: the cast of a request string to an `ObjectId` (the check
`mongoose.Types.ObjectId.isValid(s)` succeeds exactly when the cast does) and
the rendering `id.toString()`. -/
structure Lib where
  castId : String → Option ObjectId
  idToString : ObjectId → String

/-- The check `mongoose.Types.ObjectId.isValid(x)` on a request field. -/
def Lib.isValid (lib : Lib) : Option String → Bool
  | none => false
  | some s => (lib.castId s).isSome

/-- An entry of the thread of an order. -/
structure Message where
  sender : String
  text : String
  timestamp : Nat
deriving DecidableEq, Repr

/-- A document of the `Order` collection. -/
structure Order where
  _id : ObjectId
  orderNumber : String
  productName : String
  quantity : Int
  paymentInfo : String
  messages : List Message
  status : String
  isArchived : Bool
  hasUnreadUserMessage : Bool
  transactionId : String
  createdAt : Nat
deriving DecidableEq, Repr

/-- A document of the `Product` collection, with `availableCryptos`
populated down to the identifiers the checkout reads. -/
structure Product where
  _id : ObjectId
  name : String
  inStock : Bool
  availableCryptos : List ObjectId
deriving DecidableEq, Repr

/-- The mutable state the handlers share: the `Order` collection and the
object `replyIntent` of `adminBot.js`, keyed by chat id. -/
structure State where
  orders : List Order
  replyIntent : Int → Option String

/-- The environment of the bot: `process.env.ADMIN_CHAT_ID` (the empty string
when unset) and whether the module variable `bot` holds a started bot.  The
listeners are registered only when it does. -/
structure Config where
  adminChatId : String
  botStarted : Bool

/-! ## Store primitives -/

/-- The query `Order.findOne(filter)`: the first matching document. -/
def findOne (p : Order → Bool) (os : List Order) : Option Order := os.find? p

/-- The collection after an update of the first document matching `p`. -/
def updateFirst (p : Order → Bool) (f : Order → Order) : List Order → List Order
  | [] => []
  | o :: os => if p o then f o :: os else o :: updateFirst p f os

/-- The query `Order.findOneAndUpdate(filter, update, { new: true })`: the
updated document (if one matched) and the collection afterwards. -/
def findOneAndUpdate (p : Order → Bool) (f : Order → Order) (os : List Order) :
    Option Order × List Order :=
  ((os.find? p).map f, updateFirst p f os)

/-- The query `Order.findOneAndDelete(filter)`: the deleted document (if one
matched) and the collection afterwards. -/
def findOneAndDelete (p : Order → Bool) (os : List Order) : Option Order × List Order :=
  (os.find? p, os.eraseP p)

/-- The filter `{ _id: id }`. -/
def byId (id : ObjectId) (o : Order) : Bool := o._id == id

/-- The filter `{ orderNumber: n }`. -/
def byNumber (n : String) (o : Order) : Bool := o.orderNumber == n

/-- The update `{ $set: { status: newStatus } }`. -/
def setStatus (newStatus : String) (o : Order) : Order := { o with status := newStatus }

/-- The update `{ $set: { isArchived: b } }`. -/
def setArchived (b : Bool) (o : Order) : Order := { o with isArchived := b }

/-- The update `{ $push: { messages: m }, $set: { hasUnreadUserMessage: unread } }`. -/
def pushMessage (m : Message) (unread : Bool) (o : Order) : Order :=
  { o with messages := o.messages ++ [m], hasUnreadUserMessage := unread }

/-! ## Messages to the operator -/

/-- The texts the bot sends, one constructor for each template of
`adminBot.js`, carrying the values the template interpolates. -/
inductive Reply
  /-- The text "... numaralı sipariş bulunamadı." of `updateOrderStatus`,
  `updateOrderArchiveStatus` and of the button `view`. -/
  | orderNotFound (orderNumber : String)
  /-- The text "... numaralı siparişin durumu ... olarak güncellendi." -/
  | statusUpdated (orderNumber newStatus : String)
  /-- The text "... numaralı sipariş başarıyla arşivlendi / arşivden çıkarıldı." -/
  | archiveUpdated (orderNumber : String) (isArchived : Bool)
  /-- The order detail with its thread. -/
  | orderView (order : Order)
  /-- The text "... numaralı siparişe yanıt yazıyorsunuz. Mesajınızı şimdi gönderin." -/
  | replyPrompt (orderNumber : String)
  /-- The text "Bilinmeyen bir işlem butonu tıklandı." -/
  | unknownButton
  /-- The list of commands sent for `/baslat` and `/yardim`. -/
  | help
  /-- The text "... bulunamadı." of `/goruntule`. -/
  | viewNotFound (orderNumber : String)
  /-- The text "Yanıt boş olamaz. İptal edildi." -/
  | emptyReply
  /-- The text "Yanıt için ... bulunamadı. İptal edildi." -/
  | replyTargetNotFound (orderNumber : String)
  /-- The text "... yanıtınız gönderildi." -/
  | replySent (orderNumber : String)
  /-- The text "Hata: " followed by the message of the caught error. -/
  | replyError (message : String)
  /-- The text "Anlaşılmayan komut/mesaj. /yardim yazın." -/
  | unrecognized
deriving DecidableEq, Repr

/-- One button of an inline keyboard. -/
structure Button where
  text : String
  callback_data : String
deriving DecidableEq, Repr

/-- What the process sends to Telegram. -/
inductive Outgoing
  /-- The call `bot.answerCallbackQuery(id, { text })`. -/
  | answerCallbackQuery (text : Option String)
  /-- The call `bot.sendMessage(chatId, text)` of a listener. -/
  | sendMessage (chatId : Int) (reply : Reply)
  /-- The notification of a new order, with its keyboard. -/
  | newOrderNotification (chat : String) (order : Order) (keyboard : List (List Button))
  /-- The notification of a new customer message, with its keyboard. -/
  | newUserMessageNotification (chat : String) (order : Order) (userMessageText : String)
      (keyboard : List (List Button))
deriving DecidableEq, Repr

/-- The function `sendNewOrderNotification(order)`. -/
def sendNewOrderNotification (cfg : Config) (order : Order) : List Outgoing :=
  if !cfg.botStarted || cfg.adminChatId == "" then []
  else
    [.newOrderNotification cfg.adminChatId order
      [[⟨"✅ Onayla", "confirm:" ++ order.orderNumber⟩,
        ⟨"❌ İptal Et", "cancel:" ++ order.orderNumber⟩],
       [⟨"📄 Mesajları Gör", "view:" ++ order.orderNumber⟩,
        ⟨"📁 Arşivle", "archive:" ++ order.orderNumber⟩]]]

/-- The function `sendNewUserMessageNotification(order, userMessageText)`. -/
def sendNewUserMessageNotification (cfg : Config) (order : Order)
    (userMessageText : String) : List Outgoing :=
  if !cfg.botStarted || cfg.adminChatId == "" then []
  else
    [.newUserMessageNotification cfg.adminChatId order userMessageText
      [[⟨"💬 Yanıtla", "reply_init:" ++ order.orderNumber⟩,
        ⟨"📄 Mesajları Gör", "view:" ++ order.orderNumber⟩],
       [⟨"✅ Onayla", "confirm:" ++ order.orderNumber⟩,
        ⟨"❌ İptal Et", "cancel:" ++ order.orderNumber⟩],
       [⟨"📁 Arşivle", "archive:" ++ order.orderNumber⟩]]]

/-! ## Customer routes (`routes/mainRoutes.js`) -/

/-- What a route handler answers. -/
inductive Response
  /-- The answer `res.status(status).json({ success, message })`. -/
  | json (status : Nat) (success : Bool) (message : String)
  /-- The answer `res.json({ success: true, orderNumber })` of the checkout. -/
  | checkoutOk (orderNumber : String)
  /-- The answer `res.json({ success: true, messages })` of add-message. -/
  | messagesOk (messages : List Message)
  /-- A flash of kind `success`, then the redirect to the dashboard. -/
  | flashSuccess (message : String)
  /-- A flash of kind `error`, then the redirect to the dashboard. -/
  | flashError (message : String)
deriving DecidableEq, Repr

/-- The outcome of a route handler. -/
structure RouteResult where
  state : State
  response : Response
  outbox : List Outgoing

/-- The body of `POST /checkout`. -/
structure CheckoutBody where
  productId : Option String
  quantity : Option String
  paymentInfo : Option String
  note : Option String
  selectedCryptoId : Option String
  transactionId : Option String
deriving DecidableEq, Repr

/-- One result of `crypto.randomBytes(4)`; each byte is taken modulo 256. -/
structure Draw where
  b0 : Nat
  b1 : Nat
  b2 : Nat
  b3 : Nat
deriving DecidableEq, Repr

/-- The lower-case hexadecimal digit of a value below 16. -/
def hexDigit (n : Nat) : Char :=
  if n < 10 then Char.ofNat (48 + n) else Char.ofNat (87 + n)

/-- The two hexadecimal digits of a byte. -/
def hexByte (b : Nat) : List Char := [hexDigit (b % 256 / 16), hexDigit (b % 256 % 16)]

/-- The rendering `buffer.toString('hex')` of the four bytes. -/
def Draw.toHex (d : Draw) : String :=
  ⟨hexByte d.b0 ++ hexByte d.b1 ++ hexByte d.b2 ++ hexByte d.b3⟩

/-- The candidate `'EM-' + crypto.randomBytes(4).toString('hex').toUpperCase()`. -/
def Draw.orderNumber (d : Draw) : String := "EM-" ++ toUpperCase d.toHex

/-- The loop `while (!isUnique)` of the checkout over the successive random
draws: the first candidate that no order of the collection carries.  The
result is `none` when every draw of the list collides, that is when the loop
has not finished within these draws. -/
def allocateOrderNumber (os : List Order) : List Draw → Option String
  | [] => none
  | d :: ds =>
    match findOne (byNumber d.orderNumber) os with
    | none => some d.orderNumber
    | some _ => allocateOrderNumber os ds

/-- The message of the 400 answer of the checkout. -/
def checkoutErrMsg (transactionId : Option String) : String :=
  match transactionId with
  | some t =>
    if t != "" && !txIdPattern (trim t) then "Geçersiz Transaction ID formatı."
    else "Geçersiz sipariş bilgisi. Tüm alanlar doldurulmalıdır."
  | none => "Geçersiz sipariş bilgisi. Tüm alanlar doldurulmalıdır."

/-- The message of the error the driver raises when a document with the same
`_id` is already stored; its wording belongs to the driver. -/
def duplicateKeyMessage : String := "E11000 duplicate key error"

/-- The handler of `POST /checkout`.  `catalog` is the `Product` collection,
`draws` the successive results of `crypto.randomBytes(4)`, `newId` the
identifier given to the new document and `now` the clock.  The result is
`none` when the allocation loop does not finish within `draws`.  Saving fails
when `newId` is already taken (the store keeps `_id` unique); the fields the
handler sets are assumed to pass the schema of `models/Order.js`. -/
def checkout (lib : Lib) (cfg : Config) (catalog : List Product)
    (draws : List Draw) (newId : ObjectId) (now : Nat) (st : State) (body : CheckoutBody) :
    Option RouteResult :=
  let reject : Option RouteResult :=
    some ⟨st, .json 400 false (checkoutErrMsg body.transactionId), []⟩
  match body.productId, body.quantity.bind parseInt, body.paymentInfo,
      body.selectedCryptoId, body.transactionId with
  | some productId, some numQuantity, some paymentInfo, some selectedCryptoId,
      some transactionId =>
    match lib.castId productId with
    | none => reject
    | some pid =>
      if productId == "" || decide (numQuantity ≤ 0) || paymentInfo == "" ||
          selectedCryptoId == "" || transactionId == "" || trim transactionId == "" ||
          !txIdPattern (trim transactionId) then reject
      else
        match catalog.find? fun p => p._id == pid with
        | none => some ⟨st, .json 404 false "Ürün bulunamadı.", []⟩
        | some product =>
          if !product.inStock then some ⟨st, .json 400 false "Bu ürün stokta yok.", []⟩
          else if !(product.availableCryptos.any fun c => lib.idToString c == selectedCryptoId) then
            some ⟨st, .json 400 false "Bu ödeme yöntemi bu ürün için geçerli değil.", []⟩
          else
            let initialMessages : List Message :=
              match body.note with
              | some note => if note != "" && trim note != "" then [⟨"user", note, now⟩] else []
              | none => []
            match allocateOrderNumber st.orders draws with
            | none => none
            | some orderNumber =>
              let newOrder : Order :=
                { _id := newId
                  orderNumber := orderNumber
                  productName := product.name
                  quantity := numQuantity
                  paymentInfo := paymentInfo
                  messages := initialMessages
                  status := "Beklemede"
                  isArchived := false
                  hasUnreadUserMessage := decide (initialMessages.length > 0)
                  transactionId := trim transactionId
                  createdAt := now }
              if st.orders.any (byId newId) then
                some ⟨st, .json 500 false duplicateKeyMessage, []⟩
              else
                some ⟨{ st with orders := st.orders ++ [newOrder] }, .checkoutOk orderNumber,
                  sendNewOrderNotification cfg newOrder⟩
  | _, _, _, _, _ => reject

/-- The handler of `POST /api/add-message`. -/
def addMessage (lib : Lib) (cfg : Config) (now : Nat) (st : State)
    (orderId userMessage : Option String) : RouteResult :=
  let fail (message : String) : RouteResult :=
    ⟨st, .json 400 false ("Mesaj gönderilemedi: " ++ message), []⟩
  match orderId, userMessage with
  | some orderId, some userMessage =>
    if orderId == "" || userMessage == "" || trim userMessage == "" then
      fail "Eksik bilgi veya boş mesaj."
    else
      match lib.castId orderId with
      | none => fail "Geçersiz Sipariş ID."
      | some id =>
        let message : Message := ⟨"user", trim userMessage, now⟩
        match findOneAndUpdate (byId id) (pushMessage message true) st.orders with
        | (none, os) => ⟨{ st with orders := os }, .json 404 false "Sipariş bulunamadı.", []⟩
        | (some updatedOrder, os) =>
          ⟨{ st with orders := os }, .messagesOk updatedOrder.messages,
            sendNewUserMessageNotification cfg updatedOrder userMessage⟩
  | _, _ => fail "Eksik bilgi veya boş mesaj."

/-! ## Operator routes (`routes/adminRoutes.js`) -/

/-- The handler of `POST /admin/update-order-status`.  The helper
`cleanErrorMessage` leaves the messages thrown here as they are (none holds
the text it replaces). -/
def updateOrderStatusRoute (lib : Lib) (st : State) (orderId newStatus : Option String) :
    RouteResult :=
  let fail (message : String) : RouteResult :=
    ⟨st, .flashError ("Durum güncellenemedi: " ++ message), []⟩
  match orderId.bind lib.castId with
  | none => fail "Geçersiz Sipariş ID."
  | some id =>
    match newStatus with
    | none => fail "Geçersiz durum bilgisi."
    | some newStatus =>
      if !(["Beklemede", "Tamamlandı", "İptal"].contains newStatus) then
        fail "Geçersiz durum bilgisi."
      else
        match findOneAndUpdate (byId id) (setStatus newStatus) st.orders with
        | (none, os) =>
          ⟨{ st with orders := os },
            .flashError ("Durum güncellenemedi: " ++ "Güncellenecek sipariş bulunamadı."), []⟩
        | (some updatedOrder, os) =>
          let displayStatus :=
            if newStatus == "Tamamlandı" then "Ödeme Onaylandı"
            else if newStatus == "İptal" then "İptal Edildi"
            else newStatus
          ⟨{ st with orders := os },
            .flashSuccess ("Sipariş #" ++ updatedOrder.orderNumber ++ " durumu \"" ++
              displayStatus ++ "\" olarak güncellendi."), []⟩

/-- The handler of `POST /admin/send-message`. -/
def sendMessageRoute (lib : Lib) (now : Nat) (st : State) (orderId adminReply : Option String) :
    RouteResult :=
  let fail (message : String) : RouteResult :=
    ⟨st, .flashError ("Mesaj gönderilemedi: " ++ message), []⟩
  match orderId, adminReply with
  | some orderId, some adminReply =>
    if orderId == "" || adminReply == "" || trim adminReply == "" then
      fail "Eksik bilgi veya boş mesaj."
    else
      match lib.castId orderId with
      | none => fail "Geçersiz Sipariş ID."
      | some id =>
        let message : Message := ⟨"admin", trim adminReply, now⟩
        match findOneAndUpdate (byId id) (pushMessage message false) st.orders with
        | (none, os) =>
          ⟨{ st with orders := os },
            .flashError ("Mesaj gönderilemedi: " ++ "Mesaj gönderilecek sipariş bulunamadı."), []⟩
        | (some updatedOrder, os) =>
          ⟨{ st with orders := os },
            .flashSuccess ("Sipariş #" ++ updatedOrder.orderNumber ++ " için mesaj gönderildi."), []⟩
  | _, _ => fail "Eksik bilgi veya boş mesaj."

/-- The handler of `POST /admin/archive-order/:id`. -/
def archiveOrderRoute (lib : Lib) (st : State) (orderId : String) : RouteResult :=
  match lib.castId orderId with
  | none => ⟨st, .flashError ("Sipariş arşivlenemedi: " ++ "Geçersiz Sipariş ID."), []⟩
  | some id =>
    match findOneAndUpdate (byId id) (setArchived true) st.orders with
    | (none, os) =>
      ⟨{ st with orders := os },
        .flashError ("Sipariş arşivlenemedi: " ++ "Arşivlenecek sipariş bulunamadı."), []⟩
    | (some updatedOrder, os) =>
      ⟨{ st with orders := os },
        .flashSuccess ("Sipariş #" ++ updatedOrder.orderNumber ++ " arşivlendi."), []⟩

/-- The handler of `POST /admin/delete-archived-order/:id`; the filter of the
deletion is `{ _id: orderId, isArchived: true }`. -/
def deleteArchivedOrderRoute (lib : Lib) (st : State) (orderId : String) : RouteResult :=
  match lib.castId orderId with
  | none => ⟨st, .flashError ("Arşivlenmiş sipariş silinemedi: " ++ "Geçersiz Sipariş ID."), []⟩
  | some id =>
    match findOneAndDelete (fun o => byId id o && o.isArchived) st.orders with
    | (none, os) =>
      ⟨{ st with orders := os },
        .flashError ("Arşivlenmiş sipariş silinemedi: " ++
          "Silinecek arşivlenmiş sipariş bulunamadı veya sipariş arşivlenmemiş."), []⟩
    | (some deletedOrder, os) =>
      ⟨{ st with orders := os },
        .flashSuccess ("Arşivlenmiş Sipariş #" ++ deletedOrder.orderNumber ++
          " kalıcı olarak silindi."), []⟩

/-! ## The operator bot (`adminBot.js`) -/

/-- The outcome of a listener of the bot. -/
structure BotResult where
  state : State
  outbox : List Outgoing

/-- The outcome of `updateOrderStatus` and `updateOrderArchiveStatus`: the
state, the boolean they return and what they send. -/
structure UpdateResult where
  state : State
  ok : Bool
  outbox : List Outgoing

/-- The function `updateOrderStatus(chatId, orderNumber, newStatus)`. -/
def updateOrderStatus (cfg : Config) (st : State) (chatId : Int)
    (orderNumber newStatus : String) : UpdateResult :=
  if !cfg.botStarted then ⟨st, false, []⟩
  else
    match findOneAndUpdate (byNumber orderNumber) (setStatus newStatus) st.orders with
    | (none, os) => ⟨{ st with orders := os }, false, [.sendMessage chatId (.orderNotFound orderNumber)]⟩
    | (some _, os) =>
      ⟨{ st with orders := os }, true, [.sendMessage chatId (.statusUpdated orderNumber newStatus)]⟩

/-- The function `updateOrderArchiveStatus(chatId, orderNumber, isArchived)`. -/
def updateOrderArchiveStatus (cfg : Config) (st : State) (chatId : Int)
    (orderNumber : String) (isArchived : Bool) : UpdateResult :=
  if !cfg.botStarted then ⟨st, false, []⟩
  else
    match findOneAndUpdate (byNumber orderNumber) (setArchived isArchived) st.orders with
    | (none, os) => ⟨{ st with orders := os }, false, [.sendMessage chatId (.orderNotFound orderNumber)]⟩
    | (some _, os) =>
      ⟨{ st with orders := os }, true, [.sendMessage chatId (.archiveUpdated orderNumber isArchived)]⟩

/-- The assignment `replyIntent[chatId] = orderNumber`. -/
def armReply (st : State) (chatId : Int) (orderNumber : String) : State :=
  { st with replyIntent := fun c => if c = chatId then some orderNumber else st.replyIntent c }

/-- The statement `delete replyIntent[chatId]`. -/
def clearReply (st : State) (chatId : Int) : State :=
  { st with replyIntent := fun c => if c = chatId then none else st.replyIntent c }

/-- The listener of `callback_query`, for a click in chat `chatId` with payload
`data`. -/
def onCallbackQuery (cfg : Config) (st : State) (chatId : Int) (data : String) : BotResult :=
  if toString chatId != cfg.adminChatId then ⟨st, [.answerCallbackQuery none]⟩
  else
    let parts := splitColon data
    let action := parts.headD ""
    match parts.get? 1 with
    | none => ⟨st, [.answerCallbackQuery (some "Hata: Sipariş Numarası bulunamadı.")]⟩
    | some orderNumber =>
      if orderNumber == "" then
        ⟨st, [.answerCallbackQuery (some "Hata: Sipariş Numarası bulunamadı.")]⟩
      else
        let ack := Outgoing.answerCallbackQuery none
        if action == "confirm" then
          let r := updateOrderStatus cfg st chatId orderNumber "Tamamlandı"
          ⟨r.state, ack :: r.outbox⟩
        else if action == "cancel" then
          let r := updateOrderStatus cfg st chatId orderNumber "İptal"
          ⟨r.state, ack :: r.outbox⟩
        else if action == "archive" then
          let r := updateOrderArchiveStatus cfg st chatId orderNumber true
          ⟨r.state, ack :: r.outbox⟩
        else if action == "view" then
          match findOne (byNumber orderNumber) st.orders with
          | none => ⟨st, [ack, .sendMessage chatId (.orderNotFound orderNumber)]⟩
          | some order => ⟨st, [ack, .sendMessage chatId (.orderView order)]⟩
        else if action == "reply_init" then
          ⟨armReply st chatId orderNumber, [ack, .sendMessage chatId (.replyPrompt orderNumber)]⟩
        else ⟨st, [ack, .sendMessage chatId .unknownButton]⟩

/-- The character class `[A-Z0-9]` under flag `i`. -/
def isAlnumAnyCase (c : Char) : Bool :=
  let n := c.toNat
  (48 ≤ n && n ≤ 57) || (97 ≤ n && n ≤ 122) || (65 ≤ n && n ≤ 90)

/-- The match of `/^\/verb (EM-[A-Z0-9]+)$/i` against `text`, for a lower-case
`verb`: the first capture group, if the pattern matches. -/
def matchOrderCommand (verb : String) (text : String) : Option String :=
  let pre := '/' :: (verb.data ++ [' '])
  let rest := text.data.drop pre.length
  if (text.data.take pre.length).map asciiLower == pre &&
      (rest.take 3).map asciiLower == ['e', 'm', '-'] &&
      !(rest.drop 3).isEmpty && (rest.drop 3).all isAlnumAnyCase then some ⟨rest⟩
  else none

/-- The listeners registered with `bot.onText` that have a body: `/baslat` and
`/yardim` answer with the help text, `/goruntule <number>` answers with the
order or with a not-found text.  The other twelve registrations of the file
(`/onayla`, `/iptal`, `/arsivle`, `/arsivdenkaldir`, `/arsivlisil`, `/yanitla`,
`/mesajgonder`, `/yanitiptal`, `/bekleyenler`, `/okunmamislar`, `/son`, `/ara`)
have an empty body: they read and change nothing and send nothing. -/
def onText (cfg : Config) (st : State) (chatId : Int) (text : String) : List Outgoing :=
  let helpOut : List Outgoing :=
    if (text == "/baslat" || text == "/yardim") && toString chatId == cfg.adminChatId then
      [.sendMessage chatId .help]
    else []
  let viewOut : List Outgoing :=
    match matchOrderCommand "goruntule" text with
    | none => []
    | some captured =>
      if toString chatId != cfg.adminChatId then []
      else
        let orderNumber := toUpperCase captured
        match findOne (byNumber orderNumber) st.orders with
        | none => [.sendMessage chatId (.viewNotFound orderNumber)]
        | some order => [.sendMessage chatId (.orderView order)]
  helpOut ++ viewOut

/-- The verbs of the pattern the `message` listener tests. -/
def knownVerbs : List String :=
  ["baslat", "yardim", "goruntule", "yanitla", "onayla", "iptal", "arsivle", "arsivdenkaldir",
   "arsivlisil", "mesajgonder", "yanitiptal", "bekleyenler", "okunmamislar", "son", "ara"]

/-- The test of `/^\/(baslat|yardim|...|son|ara)/i` on `text`: a slash followed
by one of the verbs, in any case, as a prefix. -/
def knownCommandPrefix (text : String) : Bool :=
  match text.data with
  | '/' :: rest => knownVerbs.any fun v => (rest.take v.length).map asciiLower == v.data
  | _ => false

/-- What the two store calls of the reply branch of the `message` listener do:
both succeed, `Order.findOne` throws, `Order.findByIdAndUpdate` throws, or the
update finds no document (it returns `null`). -/
inductive StoreFault
  | none
  | findThrows (message : String)
  | updateThrows (message : String)
  | updateMisses
deriving DecidableEq, Repr

/-- The message of the error thrown by `Order.findOne`, if it throws. -/
def StoreFault.onFind : StoreFault → Option String
  | .findThrows message => some message
  | _ => Option.none

/-- The message of the error thrown by `Order.findByIdAndUpdate`, or by the
statement `if (!updatedOrder) throw new Error(...)` after it, if any. -/
def StoreFault.onUpdate : StoreFault → Option String
  | .updateThrows message => some message
  | .updateMisses => some "Sipariş güncellenemedi."
  | _ => Option.none

/-- The listener of `message`, for a message in chat `chatId`; `text` is
`msg.text` (`none` when the message has no text). -/
def onMessage (cfg : Config) (fault : StoreFault) (now : Nat) (st : State) (chatId : Int)
    (text : Option String) : BotResult :=
  match text with
  | none => ⟨st, []⟩
  | some text =>
    if toString chatId != cfg.adminChatId || text == "" then ⟨st, []⟩
    else if truthy (st.replyIntent chatId) && !startsWithSlash text then
      let orderNumber := (st.replyIntent chatId).getD ""
      let adminReplyText := trim text
      let st1 := clearReply st chatId
      if adminReplyText == "" then ⟨st1, [.sendMessage chatId .emptyReply]⟩
      else
        match fault.onFind with
        | some message => ⟨st1, [.sendMessage chatId (.replyError message)]⟩
        | none =>
          match findOne (byNumber orderNumber) st1.orders with
          | none => ⟨st1, [.sendMessage chatId (.replyTargetNotFound orderNumber)]⟩
          | some order =>
            match fault.onUpdate with
            | some message => ⟨st1, [.sendMessage chatId (.replyError message)]⟩
            | none =>
              let message : Message := ⟨"admin", adminReplyText, now⟩
              match findOneAndUpdate (byId order._id) (pushMessage message false) st1.orders with
              | (none, os) =>
                ⟨{ st1 with orders := os },
                  [.sendMessage chatId (.replyError "Sipariş güncellenemedi.")]⟩
              | (some _, os) =>
                ⟨{ st1 with orders := os }, [.sendMessage chatId (.replySent orderNumber)]⟩
    else if !knownCommandPrefix text then ⟨st, [.sendMessage chatId .unrecognized]⟩
    else ⟨st, []⟩

/-- A text message reaching the bot: the `message` listener and the `onText`
listeners all receive it. -/
def onTextMessage (cfg : Config) (fault : StoreFault) (now : Nat) (st : State) (chatId : Int)
    (text : Option String) : BotResult :=
  let r := onMessage cfg fault now st chatId text
  ⟨r.state, r.outbox ++ (match text with | some t => onText cfg st chatId t | none => [])⟩

/-! ## Steps -/

/-- The operations on orders: one constructor for each handler, with the
inputs of the handler. -/
inductive Op
  | checkout (catalog : List Product) (draws : List Draw) (newId : ObjectId) (now : Nat)
      (body : CheckoutBody)
  | addMessage (now : Nat) (orderId userMessage : Option String)
  | updateOrderStatusRoute (orderId newStatus : Option String)
  | sendMessageRoute (now : Nat) (orderId adminReply : Option String)
  | archiveOrderRoute (orderId : String)
  | deleteArchivedOrderRoute (orderId : String)
  | updateOrderStatus (chatId : Int) (orderNumber newStatus : String)
  | updateOrderArchiveStatus (chatId : Int) (orderNumber : String) (isArchived : Bool)
  | callbackQuery (chatId : Int) (data : String)
  | textMessage (fault : StoreFault) (now : Nat) (chatId : Int) (text : Option String)

/-- The state after an operation; `none` when the checkout does not finish
within its draws. -/
def step (lib : Lib) (cfg : Config) (st : State) : Op → Option State
  | .checkout catalog draws newId now body =>
    (checkout lib cfg catalog draws newId now st body).map (·.state)
  | .addMessage now orderId userMessage => some (addMessage lib cfg now st orderId userMessage).state
  | .updateOrderStatusRoute orderId newStatus =>
    some (updateOrderStatusRoute lib st orderId newStatus).state
  | .sendMessageRoute now orderId adminReply =>
    some (sendMessageRoute lib now st orderId adminReply).state
  | .archiveOrderRoute orderId => some (archiveOrderRoute lib st orderId).state
  | .deleteArchivedOrderRoute orderId => some (deleteArchivedOrderRoute lib st orderId).state
  | .updateOrderStatus chatId orderNumber newStatus =>
    some (updateOrderStatus cfg st chatId orderNumber newStatus).state
  | .updateOrderArchiveStatus chatId orderNumber isArchived =>
    some (updateOrderArchiveStatus cfg st chatId orderNumber isArchived).state
  | .callbackQuery chatId data => some (onCallbackQuery cfg st chatId data).state
  | .textMessage fault now chatId text => some (onTextMessage cfg fault now st chatId text).state

/-- The state of a fresh deployment: no order, no armed reply. -/
def State.init : State := ⟨[], fun _ => none⟩

/-- The states reached from a fresh deployment by operations. -/
inductive Reachable (lib : Lib) (cfg : Config) : State → Prop
  | init : Reachable lib cfg State.init
  | step {st st' : State} (op : Op) : Reachable lib cfg st → step lib cfg st op = some st' →
      Reachable lib cfg st'

/-- The document `o'` is a later version of the document `o`: same identity,
same purchase snapshot, and the thread of `o` is a prefix of the thread of
`o'`. -/
def Evolves (o o' : Order) : Prop :=
  o'._id = o._id ∧ o'.orderNumber = o.orderNumber ∧ o'.productName = o.productName ∧
  o'.quantity = o.quantity ∧ o'.paymentInfo = o.paymentInfo ∧
  o'.transactionId = o.transactionId ∧ o'.createdAt = o.createdAt ∧
  o.messages <+: o'.messages

/-- The unread flag of a document agrees with its thread: it is set exactly
when the thread is not empty and ends with a message of the customer. -/
def UnreadInv (o : Order) : Prop :=
  o.hasUnreadUserMessage = true ↔ ∃ m, o.messages.getLast? = some m ∧ m.sender = "user"

/-- The updates the handlers apply to a stored document: a new status, a new
archive flag, or a pushed message together with the unread flag that fits its
sender. -/
inductive IsUpdate : (Order → Order) → Prop
  | status (s : String) : IsUpdate (setStatus s)
  | archived (b : Bool) : IsUpdate (setArchived b)
  | push (m : Message) (u : Bool) : u = (m.sender == "user") → IsUpdate (pushMessage m u)

/-- How the collection `os'` after a step relates to the collection `os`
before it. -/
inductive StoreChange (os os' : List Order) : Prop
  | same : os' = os → StoreChange os os'
  | update (p : Order → Bool) (f : Order → Order) : IsUpdate f → os' = updateFirst p f os →
      StoreChange os os'
  | delete (id : ObjectId) : os' = os.eraseP (fun o => byId id o && o.isArchived) →
      StoreChange os os'
  | insert (o : Order) : (∀ x ∈ os, x._id ≠ o._id) → UnreadInv o → os' = os ++ [o] →
      StoreChange os os'

/-- How the collection `os'` after a step of a handler other than the checkout
relates to the collection `os` before it: no document is added. -/
inductive StoreEdit (os os' : List Order) : Prop
  | same : os' = os → StoreEdit os os'
  | update (p : Order → Bool) (f : Order → Order) : IsUpdate f → os' = updateFirst p f os →
      StoreEdit os os'
  | delete (id : ObjectId) : os' = os.eraseP (fun o => byId id o && o.isArchived) →
      StoreEdit os os'

/-- Whether an answer reports success. -/
def Response.ok : Response → Bool
  | .json _ success _ => success
  | .checkoutOk _ => true
  | .messagesOk _ => true
  | .flashSuccess _ => true
  | .flashError _ => false

/-- The scenario of several customer appends to one order: `addMessage` is
called once for every entry (clock, text) of the list, in order. -/
def addMessages (lib : Lib) (cfg : Config) (orderId : String) : State → List (Nat × String) → State
  | st, [] => st
  | st, (now, userMessage) :: rest =>
    addMessages lib cfg orderId (addMessage lib cfg now st (some orderId) (some userMessage)).state
      rest

/-! ## The command patterns without a body, and the buttons -/

/-- The character class `[A-Z0-9]` without flag `i`. -/
def isUpperAlnum (c : Char) : Bool :=
  let n := c.toNat
  (48 ≤ n && n ≤ 57) || (65 ≤ n && n ≤ 90)

/-- The match of `/^\/verb (EM-[A-Z0-9]+) (.+)/s` against `text`, the pattern
registered for `/yanitla` and `/mesajgonder`: the two capture groups, if the
pattern matches.  The pattern has flag `s` only, so it is case-sensitive; the
first group is the longest run of `[A-Z0-9]` after `EM-`, which a space must
follow, and the second group is the whole non-empty rest of the text. -/
def matchOrderTextCommand (verb : String) (text : String) : Option (String × String) :=
  let pre := '/' :: (verb.data ++ [' ', 'E', 'M', '-'])
  let rest := text.data.drop pre.length
  let number := rest.takeWhile isUpperAlnum
  if text.data.take pre.length == pre && !number.isEmpty then
    match rest.drop number.length with
    | ' ' :: body =>
      if body.isEmpty then none else some (⟨'E' :: 'M' :: '-' :: number⟩, ⟨body⟩)
    | _ => none
  else none

/-- The buttons of the inline keyboard of a notification, row after row. -/
def Outgoing.buttons : Outgoing → List Button
  | .newOrderNotification _ _ keyboard => keyboard.flatten
  | .newUserMessageNotification _ _ _ keyboard => keyboard.flatten
  | _ => []

/-- The `callback_data` of every button that `sendNewOrderNotification(order)`
and `sendNewUserMessageNotification(order, userMessageText)` attach. -/
def notificationPayloads (cfg : Config) (order : Order) (userMessageText : String) :
    List String :=
  (((sendNewOrderNotification cfg order).flatMap Outgoing.buttons) ++
    ((sendNewUserMessageNotification cfg order userMessageText).flatMap Outgoing.buttons)).map
    (·.callback_data)

/-! ## Sample data -/

/-- A stand-in for the identifier functions of the library on three request
strings, for the examples. -/
def sampleLib : Lib :=
  ⟨fun s => if s = "id1" then some 1 else if s = "id2" then some 2 else if s = "p1" then some 7
            else none,
   fun n => if n = 1 then "id1" else if n = 2 then "id2" else if n = 7 then "p1" else "c9"⟩

/-- A configuration with a started bot for the operator chat 42. -/
def sampleCfg : Config := ⟨"42", true⟩

/-- An archived order with an empty thread. -/
def sampleArchived : Order :=
  { _id := 1, orderNumber := "EM-0000000A", productName := "tea", quantity := 2,
    paymentInfo := "BTC", messages := [], status := "Beklemede", isArchived := true,
    hasUnreadUserMessage := false, transactionId := "", createdAt := 0 }

/-- A pending order, not archived, with one unread customer message. -/
def samplePending : Order :=
  { _id := 2, orderNumber := "EM-0000000B", productName := "tea", quantity := 1,
    paymentInfo := "BTC", messages := [⟨"user", "where is my item?", 5⟩], status := "Beklemede",
    isArchived := false, hasUnreadUserMessage := true, transactionId := "", createdAt := 1 }

/-- A store holding the two sample orders, with no armed reply. -/
def sampleState : State := ⟨[sampleArchived, samplePending], fun _ => none⟩

/-- A catalog with one product in stock, payable with the crypto `c9`. -/
def sampleCatalog : List Product := [⟨7, "tea", true, [9]⟩]

/-- A valid checkout body: quantity 2, a transaction id of 64 hex digits and a
customer note. -/
def sampleBody : CheckoutBody :=
  { productId := some "p1", quantity := some "2", paymentInfo := some "BTC",
    note := some "where is my item?", selectedCryptoId := some "c9",
    transactionId := some ⟨List.replicate 64 'a'⟩ }

/-- The order the sample checkout stores, for the draw `de ad be ef`, the new
identifier 1 and the clock 5. -/
def sampleCreated : Order :=
  { _id := 1, orderNumber := "EM-DEADBEEF", productName := "tea", quantity := 2,
    paymentInfo := "BTC", messages := [⟨"user", "where is my item?", 5⟩], status := "Beklemede",
    isArchived := false, hasUnreadUserMessage := true,
    transactionId := ⟨List.replicate 64 'a'⟩, createdAt := 5 }

/-! ## Lemmas on the store primitives -/

theorem Evolves.refl (o : Order) : Evolves o o := by
  simp [Evolves]

theorem IsUpdate.update_evolves {f : Order → Order} (hf : IsUpdate f) (o : Order) : Evolves o (f o) := by
  cases hf <;> simp [Evolves, setStatus, setArchived, pushMessage]

theorem IsUpdate.update_unreadInv {f : Order → Order} (hf : IsUpdate f) {o : Order} (h : UnreadInv o) :
    UnreadInv (f o) := by
  cases hf with
  | status s => exact h
  | archived b => exact h
  | push m u hu =>
    subst hu
    simp [UnreadInv, pushMessage]

theorem updateFirst_of_find_none {p : Order → Bool} (f : Order → Order) {os : List Order}
    (h : os.find? p = none) : updateFirst p f os = os := by
  induction os with
  | nil => rfl
  | cons o os ih =>
    by_cases hp : p o = true
    · simp [List.find?, hp] at h
    · simp only [List.find?, hp] at h
      simp [updateFirst, hp, ih h]

theorem updateFirst_split {p : Order → Bool} (f : Order → Order) {os : List Order} {o : Order}
    (h : os.find? p = some o) :
    ∃ l₁ l₂, os = l₁ ++ o :: l₂ ∧ (∀ x ∈ l₁, p x = false) ∧ p o = true ∧
      updateFirst p f os = l₁ ++ f o :: l₂ := by
  induction os with
  | nil => simp at h
  | cons a os ih =>
    by_cases hp : p a = true
    · simp only [List.find?, hp, Option.some.injEq] at h
      subst h
      exact ⟨[], os, rfl, by simp, hp, by simp [updateFirst, hp]⟩
    · simp only [List.find?, hp] at h
      obtain ⟨l₁, l₂, h1, h2, h3, h4⟩ := ih h
      refine ⟨a :: l₁, l₂, by simp [h1], ?_, h3, by simp [updateFirst, hp, h4]⟩
      intro x hx
      rcases List.mem_cons.mp hx with rfl | hx
      · simpa using hp
      · exact h2 x hx

theorem mem_updateFirst {p : Order → Bool} {f : Order → Order} {os : List Order} {o' : Order}
    (h : o' ∈ updateFirst p f os) : ∃ o ∈ os, o' = o ∨ o' = f o := by
  induction os with
  | nil => simp [updateFirst] at h
  | cons a os ih =>
    by_cases hp : p a = true
    · rw [updateFirst, if_pos hp] at h
      rcases List.mem_cons.mp h with rfl | h
      · exact ⟨a, by simp, Or.inr rfl⟩
      · exact ⟨o', by simp [h], Or.inl rfl⟩
    · rw [updateFirst, if_neg hp] at h
      rcases List.mem_cons.mp h with rfl | h
      · exact ⟨o', by simp, Or.inl rfl⟩
      · obtain ⟨o, ho, h'⟩ := ih h
        exact ⟨o, by simp [ho], h'⟩

theorem updateFirst_survivor (p : Order → Bool) (f : Order → Order) {os : List Order} {o : Order}
    (h : o ∈ os) : ∃ o' ∈ updateFirst p f os, o' = o ∨ o' = f o := by
  induction os with
  | nil => simp at h
  | cons a os ih =>
    by_cases hp : p a = true
    · rcases List.mem_cons.mp h with rfl | h
      · exact ⟨f o, by simp [updateFirst, hp], Or.inr rfl⟩
      · exact ⟨o, by simp [updateFirst, hp, h], Or.inl rfl⟩
    · rcases List.mem_cons.mp h with rfl | h
      · exact ⟨o, by simp [updateFirst, hp], Or.inl rfl⟩
      · obtain ⟨o', ho', h'⟩ := ih h
        exact ⟨o', by simp [updateFirst, hp, ho'], h'⟩

theorem updateFirst_map_id {p : Order → Bool} {f : Order → Order} (hf : ∀ o, (f o)._id = o._id)
    (os : List Order) : (updateFirst p f os).map (·._id) = os.map (·._id) := by
  induction os with
  | nil => rfl
  | cons a os ih =>
    by_cases hp : p a = true
    · simp [updateFirst, hp, hf]
    · simp [updateFirst, hp, ih]

theorem state_with_orders (st : State) : ({ st with orders := st.orders } : State) = st := rfl

/-! ## Every handler changes the collection in one of four ways -/

theorem findOneAndUpdate_eq {p : Order → Bool} {f : Order → Order} {os os' : List Order}
    {x : Option Order} (h : findOneAndUpdate p f os = (x, os')) :
    os' = updateFirst p f os ∧ x = (os.find? p).map f := by
  simp only [findOneAndUpdate, Prod.mk.injEq] at h
  exact ⟨h.2.symm, h.1.symm⟩

theorem findOneAndDelete_eq {p : Order → Bool} {os os' : List Order}
    {x : Option Order} (h : findOneAndDelete p os = (x, os')) :
    os' = os.eraseP p ∧ x = os.find? p := by
  simp only [findOneAndDelete, Prod.mk.injEq] at h
  exact ⟨h.2.symm, h.1.symm⟩

theorem checkout_change {lib : Lib} {cfg : Config} {catalog : List Product} {draws : List Draw}
    {newId : ObjectId} {now : Nat} {st : State} {body : CheckoutBody} {r : RouteResult}
    (h : checkout lib cfg catalog draws newId now st body = some r) :
    StoreChange st.orders r.state.orders := by
  unfold checkout at h
  simp only at h
  split at h
  · split at h
    · cases h; exact .same rfl
    · split at h
      · cases h; exact .same rfl
      · split at h
        · cases h; exact .same rfl
        · split at h
          · cases h; exact .same rfl
          · split at h
            · cases h; exact .same rfl
            · split at h
              · cases h
              · split at h
                · cases h; exact .same rfl
                · rename_i hfresh
                  cases h
                  refine .insert _ ?_ ?_ rfl
                  · intro x hx hxe
                    apply hfresh
                    simp only [List.any_eq_true]
                    exact ⟨x, hx, by simpa [byId] using hxe⟩
                  · simp only [UnreadInv]
                    split
                    · split <;> simp
                    · simp
  · cases h; exact .same rfl

theorem addMessage_change (lib : Lib) (cfg : Config) (now : Nat) (st : State)
    (orderId userMessage : Option String) :
    StoreChange st.orders (addMessage lib cfg now st orderId userMessage).state.orders := by
  unfold addMessage
  simp only
  split
  · split
    · exact .same rfl
    · split
      · exact .same rfl
      · rename_i id _
        split
        · rename_i h
          obtain ⟨rfl, -⟩ := findOneAndUpdate_eq h
          exact .update _ _ (.push _ _ rfl) rfl
        · rename_i h
          obtain ⟨rfl, -⟩ := findOneAndUpdate_eq h
          exact .update _ _ (.push _ _ rfl) rfl
  · exact .same rfl

theorem updateOrderStatusRoute_change (lib : Lib) (st : State) (orderId newStatus : Option String) :
    StoreChange st.orders (updateOrderStatusRoute lib st orderId newStatus).state.orders := by
  unfold updateOrderStatusRoute
  simp only
  split
  · exact .same rfl
  · split
    · exact .same rfl
    · split
      · exact .same rfl
      · split <;> rename_i h <;> obtain ⟨rfl, -⟩ := findOneAndUpdate_eq h <;>
          exact .update _ _ (.status _) rfl

theorem sendMessageRoute_change (lib : Lib) (now : Nat) (st : State)
    (orderId adminReply : Option String) :
    StoreChange st.orders (sendMessageRoute lib now st orderId adminReply).state.orders := by
  unfold sendMessageRoute
  simp only
  split
  · split
    · exact .same rfl
    · split
      · exact .same rfl
      · split <;> rename_i h <;> obtain ⟨rfl, -⟩ := findOneAndUpdate_eq h <;>
          exact .update _ _ (.push _ _ rfl) rfl
  · exact .same rfl

theorem archiveOrderRoute_change (lib : Lib) (st : State) (orderId : String) :
    StoreChange st.orders (archiveOrderRoute lib st orderId).state.orders := by
  unfold archiveOrderRoute
  split
  · exact .same rfl
  · split <;> rename_i h <;> obtain ⟨rfl, -⟩ := findOneAndUpdate_eq h <;>
      exact .update _ _ (.archived _) rfl

theorem deleteArchivedOrderRoute_change (lib : Lib) (st : State) (orderId : String) :
    StoreChange st.orders (deleteArchivedOrderRoute lib st orderId).state.orders := by
  unfold deleteArchivedOrderRoute
  split
  · exact .same rfl
  · split <;> rename_i h <;> obtain ⟨rfl, -⟩ := findOneAndDelete_eq h <;>
      exact .delete _ rfl

theorem updateOrderStatus_change (cfg : Config) (st : State) (chatId : Int)
    (orderNumber newStatus : String) :
    StoreChange st.orders (updateOrderStatus cfg st chatId orderNumber newStatus).state.orders := by
  unfold updateOrderStatus
  split
  · exact .same rfl
  · split <;> rename_i h <;> obtain ⟨rfl, -⟩ := findOneAndUpdate_eq h <;>
      exact .update _ _ (.status _) rfl

theorem updateOrderArchiveStatus_change (cfg : Config) (st : State) (chatId : Int)
    (orderNumber : String) (isArchived : Bool) :
    StoreChange st.orders
      (updateOrderArchiveStatus cfg st chatId orderNumber isArchived).state.orders := by
  unfold updateOrderArchiveStatus
  split
  · exact .same rfl
  · split <;> rename_i h <;> obtain ⟨rfl, -⟩ := findOneAndUpdate_eq h <;>
      exact .update _ _ (.archived _) rfl

theorem onCallbackQuery_change (cfg : Config) (st : State) (chatId : Int) (data : String) :
    StoreChange st.orders (onCallbackQuery cfg st chatId data).state.orders := by
  unfold onCallbackQuery
  simp only
  split
  · exact .same rfl
  · split
    · exact .same rfl
    · split
      · exact .same rfl
      · split
        · exact updateOrderStatus_change ..
        · split
          · exact updateOrderStatus_change ..
          · split
            · exact updateOrderArchiveStatus_change ..
            · split
              · split <;> exact .same rfl
              · split
                · exact .same rfl
                · exact .same rfl

theorem onMessage_change (cfg : Config) (fault : StoreFault) (now : Nat) (st : State)
    (chatId : Int) (text : Option String) :
    StoreChange st.orders (onMessage cfg fault now st chatId text).state.orders := by
  unfold onMessage
  split
  · exact .same rfl
  · split
    · exact .same rfl
    · split
      · simp only
        split
        · exact .same rfl
        · split
          · exact .same rfl
          · split
            · exact .same rfl
            · split
              · exact .same rfl
              · split <;> rename_i h <;> obtain ⟨rfl, -⟩ := findOneAndUpdate_eq h <;>
                  exact .update _ _ (.push _ _ rfl) rfl
      · split <;> exact .same rfl

theorem step_change {lib : Lib} {cfg : Config} {st st' : State} {op : Op}
    (h : step lib cfg st op = some st') : StoreChange st.orders st'.orders := by
  cases op with
  | checkout catalog draws newId now body =>
    simp only [step, Option.map_eq_some'] at h
    obtain ⟨r, hr, rfl⟩ := h
    exact checkout_change hr
  | addMessage now orderId userMessage =>
    simp only [step, Option.some.injEq] at h; subst h; exact addMessage_change ..
  | updateOrderStatusRoute orderId newStatus =>
    simp only [step, Option.some.injEq] at h; subst h; exact updateOrderStatusRoute_change ..
  | sendMessageRoute now orderId adminReply =>
    simp only [step, Option.some.injEq] at h; subst h; exact sendMessageRoute_change ..
  | archiveOrderRoute orderId =>
    simp only [step, Option.some.injEq] at h; subst h; exact archiveOrderRoute_change ..
  | deleteArchivedOrderRoute orderId =>
    simp only [step, Option.some.injEq] at h; subst h; exact deleteArchivedOrderRoute_change ..
  | updateOrderStatus chatId orderNumber newStatus =>
    simp only [step, Option.some.injEq] at h; subst h; exact updateOrderStatus_change ..
  | updateOrderArchiveStatus chatId orderNumber isArchived =>
    simp only [step, Option.some.injEq] at h; subst h; exact updateOrderArchiveStatus_change ..
  | callbackQuery chatId data =>
    simp only [step, Option.some.injEq] at h; subst h; exact onCallbackQuery_change ..
  | textMessage fault now chatId text =>
    simp only [step, Option.some.injEq] at h; subst h
    exact onMessage_change ..

/-! ## What a change of the collection keeps -/

theorem StoreChange.survives {os os' : List Order} (h : StoreChange os os') {o : Order}
    (ho : o ∈ os) : (∃ o' ∈ os', Evolves o o') ∨ o.isArchived = true := by
  cases h with
  | same h => subst h; exact .inl ⟨o, ho, Evolves.refl o⟩
  | update p f hf h =>
    subst h
    obtain ⟨o', ho', h'⟩ := updateFirst_survivor p f ho
    rcases h' with rfl | rfl
    · exact .inl ⟨_, ho', Evolves.refl _⟩
    · exact .inl ⟨_, ho', hf.update_evolves o⟩
  | delete id h =>
    subst h
    by_cases ha : o.isArchived = true
    · exact .inr ha
    · refine .inl ⟨o, ?_, Evolves.refl o⟩
      rw [List.mem_eraseP_of_neg]
      · exact ho
      · simp [ha]
  | insert n _ _ h =>
    subst h
    exact .inl ⟨o, by simp [ho], Evolves.refl o⟩

theorem StoreChange.origin {os os' : List Order} (h : StoreChange os os') {o' : Order}
    (ho' : o' ∈ os') : (∃ o ∈ os, Evolves o o') ∨ ∀ o ∈ os, o._id ≠ o'._id := by
  cases h with
  | same h => subst h; exact .inl ⟨o', ho', Evolves.refl o'⟩
  | update p f hf h =>
    subst h
    obtain ⟨o, ho, h'⟩ := mem_updateFirst ho'
    rcases h' with rfl | rfl
    · exact .inl ⟨_, ho, Evolves.refl _⟩
    · exact .inl ⟨_, ho, hf.update_evolves o⟩
  | delete id h =>
    subst h
    exact .inl ⟨o', List.mem_of_mem_eraseP ho', Evolves.refl o'⟩
  | insert n hn _ h =>
    subst h
    rcases List.mem_append.mp ho' with h1 | h1
    · exact .inl ⟨o', h1, Evolves.refl o'⟩
    · simp only [List.mem_singleton] at h1
      subst h1
      exact .inr hn

/-! ## C1: only archived orders are deleted -/

/-- C1. Over the steps of every order operation (checkout, status update,
archive and unarchive, customer and operator append, delete-archived, every
bot callback and every bot text message): an order present before a step and
absent after it was archived before the step, and an order that is not
archived is still in the store after the step. -/
theorem C1_only_archived_orders_are_removed (lib : Lib) (cfg : Config) (st st' : State) (op : Op)
    (o : Order) (hstep : step lib cfg st op = some st') (ho : o ∈ st.orders) :
    ((∀ o' ∈ st'.orders, o'._id ≠ o._id) → o.isArchived = true) ∧
    (o.isArchived = false → ∃ o' ∈ st'.orders, o'._id = o._id) := by
  have hs := (step_change hstep).survives ho
  constructor
  · intro habs
    rcases hs with ⟨o', ho', he⟩ | ha
    · exact absurd he.1 (habs o' ho')
    · exact ha
  · intro hna
    rcases hs with ⟨o', ho', he⟩ | ha
    · exact ⟨o', ho', he.1⟩
    · rw [hna] at ha; cases ha

/-- C1, on the sample store: the archived order 1 is deleted by
delete-archived, and the theorem applies to it. -/
theorem C1_only_archived_orders_are_removed_witness :
    (step sampleLib sampleCfg sampleState (.deleteArchivedOrderRoute "id1")
        = some ⟨[samplePending], sampleState.replyIntent⟩ ∧
      sampleArchived ∈ sampleState.orders) ∧
    (((∀ o' ∈ [samplePending], o'._id ≠ sampleArchived._id) → sampleArchived.isArchived = true) ∧
      (sampleArchived.isArchived = false → ∃ o' ∈ [samplePending], o'._id = sampleArchived._id)) :=
  ⟨⟨rfl, by decide⟩,
    C1_only_archived_orders_are_removed sampleLib sampleCfg sampleState
      ⟨[samplePending], sampleState.replyIntent⟩ (.deleteArchivedOrderRoute "id1") sampleArchived
      rfl (by decide)⟩

/-! ## C2: delete-archived -/

/-- C2. For every store and every valid order id, delete-archived succeeds
exactly when an order with that id exists and is archived; on success the
first such order is removed and the rest of the store is as before; on
failure the store is unchanged and the answer is one and the same error,
whether the order is absent or present and not archived. -/
theorem C2_delete_archived (lib : Lib) (st : State) (orderId : String) (id : ObjectId)
    (hid : lib.castId orderId = some id) :
    ((deleteArchivedOrderRoute lib st orderId).response.ok = true ↔
      ∃ o ∈ st.orders, o._id = id ∧ o.isArchived = true) ∧
    ((deleteArchivedOrderRoute lib st orderId).response.ok = true →
      ∃ l₁ o l₂, st.orders = l₁ ++ o :: l₂ ∧ o._id = id ∧ o.isArchived = true ∧
        (∀ x ∈ l₁, ¬ (x._id = id ∧ x.isArchived = true)) ∧
        (deleteArchivedOrderRoute lib st orderId).state.orders = l₁ ++ l₂ ∧
        (deleteArchivedOrderRoute lib st orderId).state.replyIntent = st.replyIntent) ∧
    ((deleteArchivedOrderRoute lib st orderId).response.ok = false →
      (deleteArchivedOrderRoute lib st orderId).state = st ∧
      (deleteArchivedOrderRoute lib st orderId).response =
        .flashError ("Arşivlenmiş sipariş silinemedi: " ++
          "Silinecek arşivlenmiş sipariş bulunamadı veya sipariş arşivlenmemiş.")) := by
  unfold deleteArchivedOrderRoute findOneAndDelete
  simp only [hid]
  cases hfind : st.orders.find? (fun o => byId id o && o.isArchived) with
  | none =>
    have hall := List.find?_eq_none.mp hfind
    have hnone : ¬ ∃ o ∈ st.orders, o._id = id ∧ o.isArchived = true := by
      rintro ⟨o, ho, h1, h2⟩
      exact hall o ho (by simp [byId, h1, h2])
    have herase : st.orders.eraseP (fun o => byId id o && o.isArchived) = st.orders :=
      List.eraseP_of_forall_not hall
    simp [Response.ok, hnone, herase]
  | some d =>
    have hd := List.find?_some hfind
    have hmem := List.mem_of_find?_eq_some hfind
    simp only [Bool.and_eq_true, byId, beq_iff_eq] at hd
    have hex : ∃ o ∈ st.orders, o._id = id ∧ o.isArchived = true := ⟨d, hmem, hd⟩
    obtain ⟨a, l₁, l₂, h1, h2, h3, h4⟩ :=
      List.exists_of_eraseP hmem (p := fun o => byId id o && o.isArchived) (by simp [byId, hd])
    simp only [Bool.and_eq_true, byId, beq_iff_eq] at h1 h2
    simp only [Response.ok, hex, true_iff, forall_true_left, iff_true, true_and, Bool.true_eq_false,
      false_implies, and_true]
    exact ⟨l₁, a, l₂, h3, h2.1, h2.2, h1, h4⟩

/-- C2, on the sample store: the archived order 1 is deleted, and the pending
order 2 is refused with the not-found error. -/
theorem C2_delete_archived_witness :
    sampleLib.castId "id2" = some 2 ∧
    ((deleteArchivedOrderRoute sampleLib sampleState "id2").response.ok = false →
      (deleteArchivedOrderRoute sampleLib sampleState "id2").state = sampleState ∧
      (deleteArchivedOrderRoute sampleLib sampleState "id2").response =
        .flashError ("Arşivlenmiş sipariş silinemedi: " ++
          "Silinecek arşivlenmiş sipariş bulunamadı veya sipariş arşivlenmemiş.")) ∧
    (deleteArchivedOrderRoute sampleLib sampleState "id1").state.orders = [samplePending] :=
  ⟨rfl, (C2_delete_archived sampleLib sampleState "id2" 2 rfl).2.2, rfl⟩

/-! ## The append handlers, case by case -/

theorem trim_ne_empty {s : String} (h : trim s ≠ "") : s ≠ "" := by
  rintro rfl
  exact h rfl

theorem find_byId_split {id : ObjectId} {os : List Order} {o : Order}
    (h : os.find? (byId id) = some o) (f : Order → Order) :
    ∃ l₁ l₂, os = l₁ ++ o :: l₂ ∧ (∀ x ∈ l₁, x._id ≠ id) ∧ o._id = id ∧
      updateFirst (byId id) f os = l₁ ++ f o :: l₂ := by
  obtain ⟨l₁, l₂, h1, h2, h3, h4⟩ := updateFirst_split f h
  refine ⟨l₁, l₂, h1, ?_, by simpa [byId] using h3, h4⟩
  intro x hx
  simpa [byId] using h2 x hx

theorem addMessage_eq (lib : Lib) (cfg : Config) (now : Nat) (st : State) {oid txt : String}
    {id : ObjectId} (hid : lib.castId oid = some id) (hoid : oid ≠ "") (htxt : trim txt ≠ "") :
    addMessage lib cfg now st (some oid) (some txt) =
      match st.orders.find? (byId id) with
      | none => ⟨st, .json 404 false "Sipariş bulunamadı.", []⟩
      | some o =>
        ⟨{ st with
            orders := updateFirst (byId id) (pushMessage ⟨"user", trim txt, now⟩ true) st.orders },
          .messagesOk (o.messages ++ [⟨"user", trim txt, now⟩]),
          sendNewUserMessageNotification cfg (pushMessage ⟨"user", trim txt, now⟩ true o) txt⟩ := by
  have htxt' := trim_ne_empty htxt
  unfold addMessage findOneAndUpdate
  simp only [hid, beq_iff_eq, hoid, htxt, htxt', Bool.or_self, Bool.false_eq_true, if_false,
    decide_False]
  cases hfind : st.orders.find? (byId id) with
  | none => simp [updateFirst_of_find_none _ hfind, hoid, htxt, htxt']
  | some o => simp [pushMessage, hoid, htxt, htxt']

theorem addMessage_ok_inv {lib : Lib} {cfg : Config} {now : Nat} {st : State}
    {orderId userMessage : Option String}
    (h : (addMessage lib cfg now st orderId userMessage).response.ok = true) :
    ∃ oid txt id o, orderId = some oid ∧ userMessage = some txt ∧ lib.castId oid = some id ∧
      oid ≠ "" ∧ trim txt ≠ "" ∧ st.orders.find? (byId id) = some o := by
  unfold addMessage findOneAndUpdate at h
  simp only at h
  split at h
  · rename_i oid txt
    split at h
    · simp [Response.ok] at h
    · rename_i hne
      simp only [Bool.or_eq_true, beq_iff_eq, not_or] at hne
      split at h
      · simp [Response.ok] at h
      · rename_i id hid
        cases hfind : st.orders.find? (byId id) with
        | none => simp [hfind, Response.ok] at h
        | some o => exact ⟨oid, txt, id, o, rfl, rfl, hid, hne.1.1, hne.2, hfind⟩
  · simp [Response.ok] at h

theorem sendMessageRoute_eq (lib : Lib) (now : Nat) (st : State) {oid txt : String}
    {id : ObjectId} (hid : lib.castId oid = some id) (hoid : oid ≠ "") (htxt : trim txt ≠ "") :
    sendMessageRoute lib now st (some oid) (some txt) =
      match st.orders.find? (byId id) with
      | none =>
        ⟨st, .flashError ("Mesaj gönderilemedi: " ++ "Mesaj gönderilecek sipariş bulunamadı."), []⟩
      | some o =>
        ⟨{ st with
            orders := updateFirst (byId id) (pushMessage ⟨"admin", trim txt, now⟩ false) st.orders },
          .flashSuccess ("Sipariş #" ++ o.orderNumber ++ " için mesaj gönderildi."), []⟩ := by
  have htxt' := trim_ne_empty htxt
  unfold sendMessageRoute findOneAndUpdate
  simp only [hid, beq_iff_eq, hoid, htxt, htxt', Bool.or_self, Bool.false_eq_true, if_false,
    decide_False]
  cases hfind : st.orders.find? (byId id) with
  | none => simp [updateFirst_of_find_none _ hfind, hoid, htxt, htxt']
  | some o => simp [pushMessage, hoid, htxt, htxt']

theorem sendMessageRoute_ok_inv {lib : Lib} {now : Nat} {st : State}
    {orderId adminReply : Option String}
    (h : (sendMessageRoute lib now st orderId adminReply).response.ok = true) :
    ∃ oid txt id o, orderId = some oid ∧ adminReply = some txt ∧ lib.castId oid = some id ∧
      oid ≠ "" ∧ trim txt ≠ "" ∧ st.orders.find? (byId id) = some o := by
  unfold sendMessageRoute findOneAndUpdate at h
  simp only at h
  split at h
  · rename_i oid txt
    split at h
    · simp [Response.ok] at h
    · rename_i hne
      simp only [Bool.or_eq_true, beq_iff_eq, not_or] at hne
      split at h
      · simp [Response.ok] at h
      · rename_i id hid
        cases hfind : st.orders.find? (byId id) with
        | none => simp [hfind, Response.ok] at h
        | some o => exact ⟨oid, txt, id, o, rfl, rfl, hid, hne.1.1, hne.2, hfind⟩
  · simp [Response.ok] at h

theorem find_byId_of_find {p : Order → Bool} {os : List Order} {o : Order}
    (h : os.find? p = some o) : ∃ o', os.find? (byId o._id) = some o' := by
  have hmem := List.mem_of_find?_eq_some h
  have : (os.find? (byId o._id)).isSome = true :=
    List.find?_isSome.mpr ⟨o, hmem, by simp [byId]⟩
  exact Option.isSome_iff_exists.mp this

theorem truthy_iff {x : Option String} : truthy x = true ↔ ∃ n, x = some n ∧ n ≠ "" := by
  cases x <;> simp [truthy]

theorem onMessage_reply_eq (cfg : Config) (fault : StoreFault) (now : Nat) (st : State)
    (chatId : Int) {text n : String} (hchat : toString chatId = cfg.adminChatId)
    (harm : st.replyIntent chatId = some n) (hn : n ≠ "") (hslash : startsWithSlash text = false)
    (htxt : trim text ≠ "") (hf : fault.onFind = none) (hu : fault.onUpdate = none) :
    onMessage cfg fault now st chatId (some text) =
      match st.orders.find? (byNumber n) with
      | none => ⟨clearReply st chatId, [.sendMessage chatId (.replyTargetNotFound n)]⟩
      | some o =>
        ⟨{ clearReply st chatId with
            orders := updateFirst (byId o._id) (pushMessage ⟨"admin", trim text, now⟩ false) st.orders },
          [.sendMessage chatId (.replySent n)]⟩ := by
  have htxt' := trim_ne_empty htxt
  unfold onMessage findOneAndUpdate findOne
  simp only [hchat, bne_self_eq_false, beq_iff_eq, htxt', decide_False, Bool.or_self,
    Bool.false_eq_true, if_false, harm, truthy, bne_iff_ne, ne_eq, hn, not_false_eq_true,
    decide_True, hslash, Bool.not_false, Bool.and_self, if_true, htxt, hf, hu, Option.getD_some,
    clearReply]
  cases hfind : st.orders.find? (byNumber n) with
  | none => simp [hn, htxt']
  | some o =>
    obtain ⟨o', ho'⟩ := find_byId_of_find hfind
    simp [ho', hn, htxt']

theorem onMessage_replySent_inv {cfg : Config} {fault : StoreFault} {now : Nat} {st : State}
    {chatId : Int} {text : Option String} {n : String}
    (h : (onMessage cfg fault now st chatId text).outbox = [.sendMessage chatId (.replySent n)]) :
    ∃ txt o, text = some txt ∧ toString chatId = cfg.adminChatId ∧
      st.replyIntent chatId = some n ∧ n ≠ "" ∧ startsWithSlash txt = false ∧ trim txt ≠ "" ∧
      fault.onFind = none ∧ fault.onUpdate = none ∧ st.orders.find? (byNumber n) = some o := by
  unfold onMessage at h
  split at h
  · simp at h
  · rename_i txt
    split at h
    · simp at h
    · rename_i hadmin
      split at h
      · rename_i harmed
        simp only at h
        split at h
        · simp at h
        · rename_i htrim
          split at h
          · simp at h
          · rename_i hf
            split at h
            · simp at h
            · rename_i o hfind
              split at h
              · simp at h
              · rename_i hu
                simp only [Bool.and_eq_true, truthy_iff, Bool.not_eq_true'] at harmed
                obtain ⟨⟨m, hm, hmne⟩, hslash⟩ := harmed
                simp only [hm, Option.getD_some] at h hfind
                have hmn : m = n := by
                  split at h <;> simp at h
                  exact h
                subst hmn
                simp only [Bool.or_eq_true, bne_iff_ne, ne_eq, beq_iff_eq, not_or,
                  Decidable.not_not] at hadmin
                exact ⟨txt, o, rfl, hadmin.1, hm, hmne, hslash, by simpa using htrim, hf, hu, hfind⟩
      · split at h <;> simp at h

/-! ## C3: the unread flag follows the last sender -/

theorem StoreChange.change_unreadInv {os os' : List Order} (h : StoreChange os os')
    (hinv : ∀ o ∈ os, UnreadInv o) : ∀ o' ∈ os', UnreadInv o' := by
  intro o' ho'
  cases h with
  | same h => subst h; exact hinv o' ho'
  | update p f hf h =>
    subst h
    obtain ⟨o, ho, h'⟩ := mem_updateFirst ho'
    rcases h' with rfl | rfl
    · exact hinv _ ho
    · exact hf.update_unreadInv (hinv o ho)
  | delete id h =>
    subst h
    exact hinv o' (List.mem_of_mem_eraseP ho')
  | insert n _ hn h =>
    subst h
    rcases List.mem_append.mp ho' with h1 | h1
    · exact hinv o' h1
    · simp only [List.mem_singleton] at h1
      subst h1
      exact hn

theorem Reachable.reachable_unreadInv {lib : Lib} {cfg : Config} {st : State} (h : Reachable lib cfg st) :
    ∀ o ∈ st.orders, UnreadInv o := by
  induction h with
  | init => intro o ho; simp [State.init] at ho
  | step op _ hstep ih => exact (step_change hstep).change_unreadInv ih

/-- C3. In every state reached from a fresh deployment by the operations
(checkout, customer add-message, operator send-message, reply through the
reply-intent slot, status update, archive, and the others), the flag
`hasUnreadUserMessage` of every order is set exactly when its thread is not
empty and ends with a customer message.  Every successful customer append
(add-message) sets the flag, and every successful operator append
(send-message, reply through the slot) clears it, each adding one message of
that sender at the end of the thread. -/
theorem C3_unread_flag_follows_last_sender (lib : Lib) (cfg : Config) (st : State)
    (hreach : Reachable lib cfg st) :
    (∀ o ∈ st.orders, (o.hasUnreadUserMessage = true ↔
      ∃ m, o.messages.getLast? = some m ∧ m.sender = "user")) ∧
    (∀ now orderId userMessage,
      (addMessage lib cfg now st orderId userMessage).response.ok = true →
      ∃ l₁ o l₂ m, st.orders = l₁ ++ o :: l₂ ∧ m.sender = "user" ∧
        (addMessage lib cfg now st orderId userMessage).state.orders =
          l₁ ++ { o with messages := o.messages ++ [m], hasUnreadUserMessage := true } :: l₂) ∧
    (∀ now orderId adminReply,
      (sendMessageRoute lib now st orderId adminReply).response.ok = true →
      ∃ l₁ o l₂ m, st.orders = l₁ ++ o :: l₂ ∧ m.sender = "admin" ∧
        (sendMessageRoute lib now st orderId adminReply).state.orders =
          l₁ ++ { o with messages := o.messages ++ [m], hasUnreadUserMessage := false } :: l₂) ∧
    (∀ fault now chatId text n,
      (onMessage cfg fault now st chatId text).outbox = [.sendMessage chatId (.replySent n)] →
      ∃ l₁ o l₂ m, st.orders = l₁ ++ o :: l₂ ∧ m.sender = "admin" ∧
        (onMessage cfg fault now st chatId text).state.orders =
          l₁ ++ { o with messages := o.messages ++ [m], hasUnreadUserMessage := false } :: l₂) := by
  refine ⟨hreach.reachable_unreadInv, ?_, ?_, ?_⟩
  · intro now orderId userMessage hok
    obtain ⟨oid, txt, id, o, rfl, rfl, hid, hoid, htxt, hfind⟩ := addMessage_ok_inv hok
    obtain ⟨l₁, l₂, h1, -, -, h4⟩ := find_byId_split hfind (pushMessage ⟨"user", trim txt, now⟩ true)
    rw [addMessage_eq lib cfg now st hid hoid htxt, hfind]
    exact ⟨l₁, o, l₂, ⟨"user", trim txt, now⟩, h1, rfl, h4⟩
  · intro now orderId adminReply hok
    obtain ⟨oid, txt, id, o, rfl, rfl, hid, hoid, htxt, hfind⟩ := sendMessageRoute_ok_inv hok
    obtain ⟨l₁, l₂, h1, -, -, h4⟩ := find_byId_split hfind (pushMessage ⟨"admin", trim txt, now⟩ false)
    rw [sendMessageRoute_eq lib now st hid hoid htxt, hfind]
    exact ⟨l₁, o, l₂, ⟨"admin", trim txt, now⟩, h1, rfl, h4⟩
  · intro fault now chatId text n hsent
    obtain ⟨txt, o, rfl, hchat, harm, hn, hslash, htxt, hf, hu, hfind⟩ := onMessage_replySent_inv hsent
    obtain ⟨o', ho'⟩ := find_byId_of_find hfind
    obtain ⟨l₁, l₂, h1, -, -, h4⟩ := find_byId_split ho' (pushMessage ⟨"admin", trim txt, now⟩ false)
    rw [onMessage_reply_eq cfg fault now st chatId hchat harm hn hslash htxt hf hu, hfind]
    exact ⟨l₁, o', l₂, ⟨"admin", trim txt, now⟩, h1, rfl, h4⟩

/-- C3, on the state reached by the sample checkout: its order carries a
customer note and an unread flag. -/
theorem C3_unread_flag_follows_last_sender_witness :
    Reachable sampleLib sampleCfg ⟨[sampleCreated], fun _ => none⟩ ∧
    (sampleCreated.hasUnreadUserMessage = true ↔
      ∃ m, sampleCreated.messages.getLast? = some m ∧ m.sender = "user") :=
  ⟨.step (.checkout sampleCatalog [⟨0xDE, 0xAD, 0xBE, 0xEF⟩] 1 5 sampleBody) .init rfl,
    (C3_unread_flag_follows_last_sender sampleLib sampleCfg ⟨[sampleCreated], fun _ => none⟩
      (.step (.checkout sampleCatalog [⟨0xDE, 0xAD, 0xBE, 0xEF⟩] 1 5 sampleBody) .init rfl)).1
      sampleCreated (by simp)⟩

/-! ## C4: N customer messages, then one operator message -/

theorem find_updateFirst_byId (id : ObjectId) (f : Order → Order) (hf : ∀ o, (f o)._id = o._id)
    (os : List Order) :
    (updateFirst (byId id) f os).find? (byId id) = (os.find? (byId id)).map f := by
  induction os with
  | nil => rfl
  | cons a os ih =>
    by_cases hp : byId id a = true
    · have : byId id (f a) = true := by simpa [byId, hf] using hp
      simp [updateFirst, hp, List.find?, this]
    · have : ¬ byId id (f a) = true := by simpa [byId, hf] using hp
      simp [updateFirst, hp, List.find?, ih]

theorem addMessages_find (lib : Lib) (cfg : Config) {oid : String} {id : ObjectId}
    (hid : lib.castId oid = some id) (hoid : oid ≠ "") (msgs : List (Nat × String))
    (hmsgs : ∀ m ∈ msgs, trim m.2 ≠ "") (st : State) (o : Order)
    (hfind : st.orders.find? (byId id) = some o) :
    ∃ o', (addMessages lib cfg oid st msgs).orders.find? (byId id) = some o' ∧
      o'.messages = o.messages ++ msgs.map (fun m => ⟨"user", trim m.2, m.1⟩) ∧
      o'.orderNumber = o.orderNumber := by
  induction msgs generalizing st o with
  | nil => exact ⟨o, hfind, by simp, rfl⟩
  | cons m rest ih =>
    obtain ⟨now, txt⟩ := m
    have htxt : trim txt ≠ "" := hmsgs (now, txt) (by simp)
    have hrest : ∀ m ∈ rest, trim m.2 ≠ "" := fun m hm => hmsgs m (by simp [hm])
    have hstep : (addMessage lib cfg now st (some oid) (some txt)).state.orders.find? (byId id)
        = some (pushMessage ⟨"user", trim txt, now⟩ true o) := by
      rw [addMessage_eq lib cfg now st hid hoid htxt, hfind]
      simp only
      rw [find_updateFirst_byId id (pushMessage _ _) (fun _ => rfl), hfind]
      rfl
    obtain ⟨o', h1, h2, h3⟩ := ih hrest _ _ hstep
    refine ⟨o', h1, ?_, ?_⟩
    · simp [h2, pushMessage]
    · simp [h3, pushMessage]

/-- C4. For every existing order (the document found under a valid id) and
every list of N customer texts that are not empty after trimming, N calls of
add-message followed by one call of send-message with a text that is not
empty after trimming succeed, and leave the order with
`hasUnreadUserMessage = false` and with the original thread followed by the N
customer messages and then the operator message, in that order; the thread has
length N + 1 when it was empty at the start. -/
theorem C4_customer_messages_then_operator_reply (lib : Lib) (cfg : Config) (st : State)
    (oid : String) (id : ObjectId) (o : Order) (msgs : List (Nat × String)) (now : Nat)
    (reply : String) (hid : lib.castId oid = some id) (hoid : oid ≠ "")
    (hfind : st.orders.find? (byId id) = some o) (hmsgs : ∀ m ∈ msgs, trim m.2 ≠ "")
    (hreply : trim reply ≠ "") :
    (sendMessageRoute lib now (addMessages lib cfg oid st msgs) (some oid) (some reply)).response.ok
      = true ∧
    ∃ o', (sendMessageRoute lib now (addMessages lib cfg oid st msgs) (some oid)
        (some reply)).state.orders.find? (byId id) = some o' ∧
      o'.hasUnreadUserMessage = false ∧
      o'.messages = o.messages ++ msgs.map (fun m => ⟨"user", trim m.2, m.1⟩) ++
        [⟨"admin", trim reply, now⟩] ∧
      (o.messages = [] → o'.messages.length = msgs.length + 1) := by
  obtain ⟨o₁, h1, h2, -⟩ := addMessages_find lib cfg hid hoid msgs hmsgs st o hfind
  rw [sendMessageRoute_eq lib now _ hid hoid hreply, h1]
  refine ⟨rfl, pushMessage ⟨"admin", trim reply, now⟩ false o₁, ?_, rfl, ?_, ?_⟩
  · simp only
    rw [find_updateFirst_byId id (pushMessage _ _) (fun _ => rfl), h1]
    rfl
  · simp [pushMessage, h2]
  · intro hnil
    simp [pushMessage, h2, hnil]

/-- C4, on the sample store: two customer messages and a reply on the archived
order, whose thread is empty at the start. -/
theorem C4_customer_messages_then_operator_reply_witness :
    (sampleLib.castId "id1" = some 1 ∧ "id1" ≠ "" ∧
      sampleState.orders.find? (byId 1) = some sampleArchived ∧
      (∀ m ∈ [(6, " hello "), (7, "anyone?")], trim m.2 ≠ "") ∧ trim "shipped" ≠ "") ∧
    ((sendMessageRoute sampleLib 8
        (addMessages sampleLib sampleCfg "id1" sampleState [(6, " hello "), (7, "anyone?")])
        (some "id1") (some "shipped")).response.ok = true ∧
      ∃ o', (sendMessageRoute sampleLib 8
          (addMessages sampleLib sampleCfg "id1" sampleState [(6, " hello "), (7, "anyone?")])
          (some "id1") (some "shipped")).state.orders.find? (byId 1) = some o' ∧
        o'.hasUnreadUserMessage = false ∧
        o'.messages = sampleArchived.messages ++
          [(6, " hello "), (7, "anyone?")].map (fun m => ⟨"user", trim m.2, m.1⟩) ++
          [⟨"admin", trim "shipped", 8⟩] ∧
        (sampleArchived.messages = [] → o'.messages.length = [(6, " hello "), (7, "anyone?")].length + 1)) :=
  ⟨⟨rfl, by decide, rfl, by decide, by decide⟩,
    C4_customer_messages_then_operator_reply sampleLib sampleCfg sampleState "id1" 1 sampleArchived
      [(6, " hello "), (7, "anyone?")] 8 "shipped" rfl (by decide) rfl (by decide) (by decide)⟩

/-! ## C5: the thread is append-only -/

theorem StoreChange.change_nodup_ids {os os' : List Order} (h : StoreChange os os')
    (hnd : (os.map (·._id)).Nodup) : (os'.map (·._id)).Nodup := by
  cases h with
  | same h => subst h; exact hnd
  | update p f hf h =>
    subst h
    rw [updateFirst_map_id (fun o => (hf.update_evolves o).1)]
    exact hnd
  | delete id h =>
    subst h
    exact hnd.sublist ((List.eraseP_sublist _).map _)
  | insert n hn _ h =>
    subst h
    rw [List.map_append, List.nodup_append]
    refine ⟨hnd, by simp, ?_⟩
    intro i hi hi'
    simp only [List.map_cons, List.map_nil, List.mem_singleton] at hi'
    obtain ⟨x, hx, rfl⟩ := List.mem_map.mp hi
    exact hn x hx hi'

theorem Reachable.reachable_nodup_ids {lib : Lib} {cfg : Config} {st : State} (h : Reachable lib cfg st) :
    (st.orders.map (·._id)).Nodup := by
  induction h with
  | init => simp [State.init]
  | step op _ hstep ih => exact (step_change hstep).change_nodup_ids ih

theorem StoreChange.change_evolves {os os' : List Order} (h : StoreChange os os')
    (hnd : (os.map (·._id)).Nodup) {o o' : Order} (ho : o ∈ os) (ho' : o' ∈ os')
    (hid : o'._id = o._id) : Evolves o o' := by
  rcases h.origin ho' with ⟨o₀, ho₀, he⟩ | hnew
  · have : o₀ = o := List.inj_on_of_nodup_map hnd ho₀ ho (he.1.symm.trans hid)
    subst this
    exact he
  · exact absurd hid.symm (hnew o ho)

/-- C5. The thread is append-only.  In a store whose documents have distinct
identifiers, for every operation and every order that still exists after it,
the messages the order had before the operation are a prefix of the messages
it has afterwards; so no message is edited, reordered or removed and the
thread does not get shorter. -/
theorem C5_thread_is_append_only (lib : Lib) (cfg : Config) (st st' : State) (op : Op)
    (o o' : Order) (hstep : step lib cfg st op = some st')
    (hnd : (st.orders.map (·._id)).Nodup) (ho : o ∈ st.orders) (ho' : o' ∈ st'.orders)
    (hid : o'._id = o._id) :
    o.messages <+: o'.messages ∧ o.messages.length ≤ o'.messages.length := by
  have he := (step_change hstep).change_evolves hnd ho ho' hid
  exact ⟨he.2.2.2.2.2.2.2, he.2.2.2.2.2.2.2.length_le⟩

/-- C5, on the sample store: a customer message on the pending order extends
its thread of one message to two. -/
theorem C5_thread_is_append_only_witness :
    (step sampleLib sampleCfg sampleState (.addMessage 9 (some "id2") (some "still waiting"))
        = some ⟨[sampleArchived, pushMessage ⟨"user", "still waiting", 9⟩ true samplePending],
            sampleState.replyIntent⟩ ∧
      (sampleState.orders.map (·._id)).Nodup ∧ samplePending ∈ sampleState.orders ∧
      pushMessage ⟨"user", "still waiting", 9⟩ true samplePending ∈
        [sampleArchived, pushMessage ⟨"user", "still waiting", 9⟩ true samplePending] ∧
      (pushMessage ⟨"user", "still waiting", 9⟩ true samplePending)._id = samplePending._id) ∧
    (samplePending.messages <+: (pushMessage ⟨"user", "still waiting", 9⟩ true samplePending).messages ∧
      samplePending.messages.length ≤
        (pushMessage ⟨"user", "still waiting", 9⟩ true samplePending).messages.length) :=
  ⟨⟨rfl, by decide, by decide, by decide, rfl⟩,
    C5_thread_is_append_only sampleLib sampleCfg sampleState
      ⟨[sampleArchived, pushMessage ⟨"user", "still waiting", 9⟩ true samplePending],
        sampleState.replyIntent⟩
      (.addMessage 9 (some "id2") (some "still waiting")) samplePending
      (pushMessage ⟨"user", "still waiting", 9⟩ true samplePending) rfl (by decide) (by decide)
      (by decide) rfl⟩

/-! ## C6: empty and white-space texts are refused -/

theorem trim_eq_empty_of_whitespace {text : String}
    (h : ∀ c ∈ text.data, isJsWhitespace c = true) : trim text = "" := by
  have h1 : text.data.dropWhile isJsWhitespace = [] := List.dropWhile_eq_nil_iff.mpr h
  have h2 : trimChars text.data = [] := by simp [trimChars, h1]
  simp only [trim, h2]

/-- C6. For every message text that is empty or made of white space only, both
append paths refuse it with the validation error "Eksik bilgi veya boş mesaj."
(customer add-message with status 400, operator send-message with an error
flash) and leave the whole state, hence the thread and the unread flag of the
target order, unchanged. -/
theorem C6_blank_text_is_rejected (lib : Lib) (cfg : Config) (now : Nat) (st : State)
    (orderId : Option String) (text : String)
    (hblank : ∀ c ∈ text.data, isJsWhitespace c = true) :
    ((addMessage lib cfg now st orderId (some text)).state = st ∧
      (addMessage lib cfg now st orderId (some text)).response =
        .json 400 false ("Mesaj gönderilemedi: " ++ "Eksik bilgi veya boş mesaj.") ∧
      (addMessage lib cfg now st orderId (some text)).response.ok = false) ∧
    ((sendMessageRoute lib now st orderId (some text)).state = st ∧
      (sendMessageRoute lib now st orderId (some text)).response =
        .flashError ("Mesaj gönderilemedi: " ++ "Eksik bilgi veya boş mesaj.") ∧
      (sendMessageRoute lib now st orderId (some text)).response.ok = false) := by
  have htrim := trim_eq_empty_of_whitespace hblank
  cases orderId with
  | none => simp [addMessage, sendMessageRoute, Response.ok]
  | some oid => simp [addMessage, sendMessageRoute, Response.ok, htrim]

/-- C6, on the sample store, for a text of a space, a tab, a no-break space and
a line feed. -/
theorem C6_blank_text_is_rejected_witness :
    (∀ c ∈ (" \t\u00a0\n" : String).data, isJsWhitespace c = true) ∧
    (((addMessage sampleLib sampleCfg 9 sampleState (some "id2") (some " \t\u00a0\n")).state
        = sampleState ∧
      (addMessage sampleLib sampleCfg 9 sampleState (some "id2") (some " \t\u00a0\n")).response =
        .json 400 false ("Mesaj gönderilemedi: " ++ "Eksik bilgi veya boş mesaj.") ∧
      (addMessage sampleLib sampleCfg 9 sampleState (some "id2")
        (some " \t\u00a0\n")).response.ok = false) ∧
    ((sendMessageRoute sampleLib 9 sampleState (some "id2") (some " \t\u00a0\n")).state
        = sampleState ∧
      (sendMessageRoute sampleLib 9 sampleState (some "id2") (some " \t\u00a0\n")).response =
        .flashError ("Mesaj gönderilemedi: " ++ "Eksik bilgi veya boş mesaj.") ∧
      (sendMessageRoute sampleLib 9 sampleState (some "id2")
        (some " \t\u00a0\n")).response.ok = false)) :=
  ⟨by decide,
    C6_blank_text_is_rejected sampleLib sampleCfg 9 sampleState (some "id2") " \t\u00a0\n"
      (by decide)⟩

/-! ## C7: status updates are unrestricted -/

/-- C7. For every existing order (the document found under a valid id),
whatever its current status, and every requested `newStatus`,
update-order-status succeeds exactly when `newStatus` is one of "Beklemede",
"Tamamlandı" and "İptal"; on success the order is replaced by itself with
`status = newStatus` and the rest of the store is as before; on failure the
state is unchanged. -/
theorem C7_status_update_is_unrestricted (lib : Lib) (st : State) (oid : String) (id : ObjectId)
    (o : Order) (newStatus : Option String) (hid : lib.castId oid = some id)
    (hfind : st.orders.find? (byId id) = some o) :
    ((updateOrderStatusRoute lib st (some oid) newStatus).response.ok = true ↔
      ∃ s, newStatus = some s ∧ (s = "Beklemede" ∨ s = "Tamamlandı" ∨ s = "İptal")) ∧
    ((updateOrderStatusRoute lib st (some oid) newStatus).response.ok = true →
      ∃ s l₁ l₂, newStatus = some s ∧ st.orders = l₁ ++ o :: l₂ ∧
        (updateOrderStatusRoute lib st (some oid) newStatus).state.orders =
          l₁ ++ { o with status := s } :: l₂ ∧
        (updateOrderStatusRoute lib st (some oid) newStatus).state.replyIntent = st.replyIntent) ∧
    ((updateOrderStatusRoute lib st (some oid) newStatus).response.ok = false →
      (updateOrderStatusRoute lib st (some oid) newStatus).state = st) := by
  have hbind : (some oid).bind lib.castId = some id := by simp [hid]
  unfold updateOrderStatusRoute findOneAndUpdate
  simp only [hbind]
  cases newStatus with
  | none => simp [Response.ok]
  | some s =>
    by_cases hs : s = "Beklemede" ∨ s = "Tamamlandı" ∨ s = "İptal"
    · obtain ⟨l₁, l₂, h1, -, -, h4⟩ := find_byId_split hfind (setStatus s)
      have hc : ["Beklemede", "Tamamlandı", "İptal"].contains s = true := by
        rcases hs with rfl | rfl | rfl <;> decide
      simp only [hc, Bool.not_true, Bool.false_eq_true, if_false, hfind, Option.map_some',
        Response.ok, Option.some.injEq, exists_eq_left', hs, forall_true_left, true_and,
        Bool.true_eq_false, false_implies, and_true]
      exact ⟨s, l₁, l₂, rfl, h1, h4⟩
    · have hc : ["Beklemede", "Tamamlandı", "İptal"].contains s = false := by
        simp only [not_or] at hs
        have h1 : (s == "Beklemede") = false := by simp [hs.1]
        have h2 : (s == "Tamamlandı") = false := by simp [hs.2.1]
        have h3 : (s == "İptal") = false := by simp [hs.2.2]
        simp [List.contains, List.elem, h1, h2, h3]
      simp [hc, Response.ok, hs]

/-- C7, on the sample store: the pending order is set back to "Beklemede" from
any request naming one of the three values, here "İptal". -/
theorem C7_status_update_is_unrestricted_witness :
    (sampleLib.castId "id2" = some 2 ∧ sampleState.orders.find? (byId 2) = some samplePending) ∧
    ((updateOrderStatusRoute sampleLib sampleState (some "id2") (some "İptal")).response.ok = true ↔
      ∃ s, some "İptal" = some s ∧ (s = "Beklemede" ∨ s = "Tamamlandı" ∨ s = "İptal")) :=
  ⟨⟨rfl, rfl⟩,
    (C7_status_update_is_unrestricted sampleLib sampleState "id2" 2 samplePending (some "İptal")
      rfl rfl).1⟩

/-! ## C8: archiving is idempotent -/

theorem find_updateFirst (p : Order → Bool) (f : Order → Order) (hp : ∀ o, p (f o) = p o)
    (os : List Order) : (updateFirst p f os).find? p = (os.find? p).map f := by
  induction os with
  | nil => rfl
  | cons a os ih =>
    by_cases ha : p a = true
    · simp [updateFirst, ha, List.find?, hp]
    · simp [updateFirst, ha, List.find?, ih]

theorem updateFirst_idem (p : Order → Bool) (f : Order → Order) (hp : ∀ o, p (f o) = p o)
    (hf : ∀ o, f (f o) = f o) (os : List Order) :
    updateFirst p f (updateFirst p f os) = updateFirst p f os := by
  induction os with
  | nil => rfl
  | cons a os ih =>
    by_cases ha : p a = true
    · simp [updateFirst, ha, hp, hf]
    · simp [updateFirst, ha, ih]

theorem archiveOrderRoute_eq (lib : Lib) (st : State) {oid : String} {id : ObjectId}
    (hid : lib.castId oid = some id) :
    archiveOrderRoute lib st oid =
      match st.orders.find? (byId id) with
      | none =>
        ⟨st, .flashError ("Sipariş arşivlenemedi: " ++ "Arşivlenecek sipariş bulunamadı."), []⟩
      | some o =>
        ⟨{ st with orders := updateFirst (byId id) (setArchived true) st.orders },
          .flashSuccess ("Sipariş #" ++ o.orderNumber ++ " arşivlendi."), []⟩ := by
  unfold archiveOrderRoute findOneAndUpdate
  simp only [hid]
  cases hfind : st.orders.find? (byId id) with
  | none => simp [updateFirst_of_find_none _ hfind]
  | some o => simp [setArchived]

theorem updateOrderArchiveStatus_eq (cfg : Config) (st : State) (chatId : Int) (n : String)
    (b : Bool) (hbot : cfg.botStarted = true) :
    updateOrderArchiveStatus cfg st chatId n b =
      match st.orders.find? (byNumber n) with
      | none => ⟨st, false, [.sendMessage chatId (.orderNotFound n)]⟩
      | some _ =>
        ⟨{ st with orders := updateFirst (byNumber n) (setArchived b) st.orders }, true,
          [.sendMessage chatId (.archiveUpdated n b)]⟩ := by
  unfold updateOrderArchiveStatus findOneAndUpdate
  simp only [hbot, Bool.not_true, Bool.false_eq_true, if_false]
  cases hfind : st.orders.find? (byNumber n) with
  | none => simp [updateFirst_of_find_none _ hfind]
  | some o => simp

theorem updateOrderStatus_eq (cfg : Config) (st : State) (chatId : Int) (n s : String)
    (hbot : cfg.botStarted = true) :
    updateOrderStatus cfg st chatId n s =
      match st.orders.find? (byNumber n) with
      | none => ⟨st, false, [.sendMessage chatId (.orderNotFound n)]⟩
      | some _ =>
        ⟨{ st with orders := updateFirst (byNumber n) (setStatus s) st.orders }, true,
          [.sendMessage chatId (.statusUpdated n s)]⟩ := by
  unfold updateOrderStatus findOneAndUpdate
  simp only [hbot, Bool.not_true, Bool.false_eq_true, if_false]
  cases hfind : st.orders.find? (byNumber n) with
  | none => simp [updateFirst_of_find_none _ hfind]
  | some o => simp

/-- C8. Archiving is idempotent.  For every existing order, the archive-order
route called twice with its id succeeds both times and the state after the
second call is the state after the first; the same holds for
`updateOrderArchiveStatus(chatId, orderNumber, true)` of the bot (when the
bot is started) called twice with the number of an existing order. -/
theorem C8_archiving_is_idempotent (lib : Lib) (cfg : Config) (st : State) (oid : String)
    (id : ObjectId) (o : Order) (chatId : Int) (n : String) (o₂ : Order)
    (hid : lib.castId oid = some id) (hfind : st.orders.find? (byId id) = some o)
    (hbot : cfg.botStarted = true) (hfind₂ : st.orders.find? (byNumber n) = some o₂) :
    ((archiveOrderRoute lib st oid).response.ok = true ∧
      (archiveOrderRoute lib (archiveOrderRoute lib st oid).state oid).response.ok = true ∧
      (archiveOrderRoute lib (archiveOrderRoute lib st oid).state oid).state =
        (archiveOrderRoute lib st oid).state ∧
      (archiveOrderRoute lib st oid).state.orders.find? (byId id) =
        some { o with isArchived := true }) ∧
    ((updateOrderArchiveStatus cfg st chatId n true).ok = true ∧
      (updateOrderArchiveStatus cfg (updateOrderArchiveStatus cfg st chatId n true).state chatId n
        true).ok = true ∧
      (updateOrderArchiveStatus cfg (updateOrderArchiveStatus cfg st chatId n true).state chatId n
        true).state = (updateOrderArchiveStatus cfg st chatId n true).state ∧
      (updateOrderArchiveStatus cfg st chatId n true).state.orders.find? (byNumber n) =
        some { o₂ with isArchived := true }) := by
  constructor
  · have h1 : archiveOrderRoute lib st oid =
        ⟨{ st with orders := updateFirst (byId id) (setArchived true) st.orders },
          .flashSuccess ("Sipariş #" ++ o.orderNumber ++ " arşivlendi."), []⟩ := by
      rw [archiveOrderRoute_eq lib st hid, hfind]
    have hf : (updateFirst (byId id) (setArchived true) st.orders).find? (byId id) =
        some (setArchived true o) := by
      rw [find_updateFirst (byId id) (setArchived true) (fun _ => rfl), hfind]; rfl
    have hi := updateFirst_idem (byId id) (setArchived true) (fun _ => rfl) (fun _ => rfl) st.orders
    rw [h1]
    simp only
    rw [archiveOrderRoute_eq lib _ hid]
    simp [hf, hi, Response.ok, setArchived]
  · have h1 : updateOrderArchiveStatus cfg st chatId n true =
        ⟨{ st with orders := updateFirst (byNumber n) (setArchived true) st.orders }, true,
          [.sendMessage chatId (.archiveUpdated n true)]⟩ := by
      rw [updateOrderArchiveStatus_eq cfg st chatId n true hbot, hfind₂]
    have hf : (updateFirst (byNumber n) (setArchived true) st.orders).find? (byNumber n) =
        some (setArchived true o₂) := by
      rw [find_updateFirst (byNumber n) (setArchived true) (fun _ => rfl), hfind₂]; rfl
    have hi :=
      updateFirst_idem (byNumber n) (setArchived true) (fun _ => rfl) (fun _ => rfl) st.orders
    rw [h1]
    simp only
    rw [updateOrderArchiveStatus_eq cfg _ chatId n true hbot]
    simp [hf, hi, Response.ok, setArchived]

/-- C8, on the sample store: the pending order 2, number EM-0000000B, archived
twice by the route and by the bot. -/
theorem C8_archiving_is_idempotent_witness :
    (sampleLib.castId "id2" = some 2 ∧ sampleState.orders.find? (byId 2) = some samplePending ∧
      sampleCfg.botStarted = true ∧
      sampleState.orders.find? (byNumber "EM-0000000B") = some samplePending) ∧
    ((archiveOrderRoute sampleLib sampleState "id2").response.ok = true ∧
      (archiveOrderRoute sampleLib (archiveOrderRoute sampleLib sampleState "id2").state
        "id2").response.ok = true ∧
      (archiveOrderRoute sampleLib (archiveOrderRoute sampleLib sampleState "id2").state
        "id2").state = (archiveOrderRoute sampleLib sampleState "id2").state ∧
      (archiveOrderRoute sampleLib sampleState "id2").state.orders.find? (byId 2) =
        some { samplePending with isArchived := true }) :=
  ⟨⟨rfl, rfl, rfl, rfl⟩,
    (C8_archiving_is_idempotent sampleLib sampleCfg sampleState "id2" 2 samplePending 42
      "EM-0000000B" samplePending rfl rfl rfl rfl).1⟩

/-! ## C9: the allocated order number -/

theorem hexDigit_upper_mem :
    ∀ n < 16, asciiUpper (hexDigit n) ∈ ("0123456789ABCDEF" : String).data := by
  decide

theorem hexByte_upper_mem (b : Nat) :
    ∀ c ∈ (hexByte b).map asciiUpper, c ∈ ("0123456789ABCDEF" : String).data := by
  have h1 : b % 256 / 16 < 16 := by omega
  have h2 : b % 256 % 16 < 16 := by omega
  intro c hc
  simp only [hexByte, List.map_cons, List.map_nil, List.mem_cons, List.mem_singleton,
    List.not_mem_nil, or_false] at hc
  rcases hc with rfl | rfl
  · exact hexDigit_upper_mem _ h1
  · exact hexDigit_upper_mem _ h2

theorem Draw.orderNumber_format (d : Draw) :
    ∃ cs : List Char, cs.length = 8 ∧ (∀ c ∈ cs, c ∈ ("0123456789ABCDEF" : String).data) ∧
      d.orderNumber = "EM-" ++ ⟨cs⟩ := by
  refine ⟨(hexByte d.b0 ++ hexByte d.b1 ++ hexByte d.b2 ++ hexByte d.b3).map asciiUpper, ?_, ?_, rfl⟩
  · simp [hexByte]
  · intro c hc
    simp only [List.map_append, List.mem_append] at hc
    rcases hc with ((hc | hc) | hc) | hc <;> exact hexByte_upper_mem _ c hc

theorem allocateOrderNumber_some {os : List Order} {draws : List Draw} {n : String}
    (h : allocateOrderNumber os draws = some n) :
    (∃ d ∈ draws, d.orderNumber = n) ∧ ∀ o ∈ os, o.orderNumber ≠ n := by
  induction draws with
  | nil => simp [allocateOrderNumber] at h
  | cons d ds ih =>
    unfold allocateOrderNumber at h
    split at h
    · rename_i hnone
      simp only [Option.some.injEq] at h
      subst h
      refine ⟨⟨d, by simp, rfl⟩, ?_⟩
      intro o ho
      have := List.find?_eq_none.mp hnone o ho
      simpa [byNumber] using this
    · obtain ⟨⟨d', hd', he⟩, h2⟩ := ih h
      exact ⟨⟨d', by simp [hd'], he⟩, h2⟩

theorem allocateOrderNumber_isSome (os : List Order) (draws : List Draw) :
    (allocateOrderNumber os draws).isSome = true ↔
      ∃ d ∈ draws, ∀ o ∈ os, o.orderNumber ≠ d.orderNumber := by
  induction draws with
  | nil => simp [allocateOrderNumber]
  | cons d ds ih =>
    unfold allocateOrderNumber
    split
    · rename_i hnone
      simp only [Option.isSome_some, List.mem_cons, exists_eq_or_imp, true_iff]
      left
      intro o ho
      have := List.find?_eq_none.mp hnone o ho
      simpa [byNumber] using this
    · rename_i x hsome
      rw [ih]
      have hx := List.find?_some hsome
      have hmem := List.mem_of_find?_eq_some hsome
      simp only [byNumber, beq_iff_eq] at hx
      constructor
      · rintro ⟨d', hd', h⟩
        exact ⟨d', by simp [hd'], h⟩
      · rintro ⟨d', hd', h⟩
        rcases List.mem_cons.mp hd' with rfl | hd'
        · exact absurd hx (h x hmem)
        · exact ⟨d', hd', h⟩

theorem checkout_cases {lib : Lib} {cfg : Config} {catalog : List Product} {draws : List Draw}
    {newId : ObjectId} {now : Nat} {st : State} {body : CheckoutBody} {r : RouteResult}
    (h : checkout lib cfg catalog draws newId now st body = some r) :
    (r.state = st ∧ r.response.ok = false ∧ r.outbox = []) ∨
    ∃ n o, allocateOrderNumber st.orders draws = some n ∧ o.orderNumber = n ∧ o._id = newId ∧
      r.state = { st with orders := st.orders ++ [o] } ∧ r.response = .checkoutOk n := by
  unfold checkout at h
  simp only at h
  split at h
  · split at h
    · cases h; exact .inl ⟨rfl, rfl, rfl⟩
    · split at h
      · cases h; exact .inl ⟨rfl, rfl, rfl⟩
      · split at h
        · cases h; exact .inl ⟨rfl, rfl, rfl⟩
        · split at h
          · cases h; exact .inl ⟨rfl, rfl, rfl⟩
          · split at h
            · cases h; exact .inl ⟨rfl, rfl, rfl⟩
            · split at h
              · cases h
              · rename_i n hn
                split at h
                · cases h; exact .inl ⟨rfl, rfl, rfl⟩
                · cases h
                  exact .inr ⟨n, _, hn, rfl, rfl, rfl, rfl⟩
  · cases h; exact .inl ⟨rfl, rfl, rfl⟩

/-- C9. For every store and every sequence of random draws: when the
allocation loop of the checkout finishes (it does exactly when some draw of
the sequence gives a number no order carries), the allocated number is "EM-"
followed by exactly 8 characters from 0-9 and A-F and differs from the number
of every order in the store; a checkout that stores an order stores it under
that number, so a store with pairwise distinct order numbers still has
pairwise distinct order numbers after the checkout. -/
theorem C9_allocated_order_number (lib : Lib) (cfg : Config) (catalog : List Product)
    (draws : List Draw) (newId : ObjectId) (now : Nat) (st : State) (body : CheckoutBody) :
    (∀ n, allocateOrderNumber st.orders draws = some n →
      (∃ cs : List Char, cs.length = 8 ∧ (∀ c ∈ cs, c ∈ ("0123456789ABCDEF" : String).data) ∧
        n = "EM-" ++ ⟨cs⟩) ∧
      ∀ o ∈ st.orders, o.orderNumber ≠ n) ∧
    ((allocateOrderNumber st.orders draws).isSome = true ↔
      ∃ d ∈ draws, ∀ o ∈ st.orders, o.orderNumber ≠ d.orderNumber) ∧
    (∀ r, checkout lib cfg catalog draws newId now st body = some r →
      (∀ n, r.response = .checkoutOk n →
        allocateOrderNumber st.orders draws = some n ∧
        ∃ o, o.orderNumber = n ∧ r.state.orders = st.orders ++ [o]) ∧
      ((st.orders.map (·.orderNumber)).Nodup → (r.state.orders.map (·.orderNumber)).Nodup)) := by
  refine ⟨?_, allocateOrderNumber_isSome _ _, ?_⟩
  · intro n hn
    obtain ⟨⟨d, -, rfl⟩, h2⟩ := allocateOrderNumber_some hn
    exact ⟨d.orderNumber_format, h2⟩
  · intro r hr
    rcases checkout_cases hr with ⟨h1, h2, -⟩ | ⟨n, o, hn, ho, -, hst, hresp⟩
    · constructor
      · intro n hresp
        rw [hresp] at h2
        simp [Response.ok] at h2
      · intro hnd
        rw [h1]
        exact hnd
    · constructor
      · intro n' hresp'
        rw [hresp] at hresp'
        cases hresp'
        exact ⟨hn, o, ho, by rw [hst]⟩
      · intro hnd
        rw [hst]
        simp only [List.map_append, List.map_cons, List.map_nil]
        rw [List.nodup_append]
        refine ⟨hnd, by simp, ?_⟩
        intro x hx hx'
        simp only [List.mem_singleton] at hx'
        obtain ⟨y, hy, rfl⟩ := List.mem_map.mp hx
        exact (allocateOrderNumber_some hn).2 y hy (hx'.trans ho)

/-- C9, on a store that already holds EM-DEADBEEF: the first draw collides,
the second gives EM-0000002A. -/
theorem C9_allocated_order_number_witness :
    allocateOrderNumber [sampleCreated] [⟨0xDE, 0xAD, 0xBE, 0xEF⟩, ⟨0, 0, 0, 42⟩]
      = some "EM-0000002A" ∧
    ((∃ cs : List Char, cs.length = 8 ∧ (∀ c ∈ cs, c ∈ ("0123456789ABCDEF" : String).data) ∧
        "EM-0000002A" = "EM-" ++ ⟨cs⟩) ∧
      ∀ o ∈ [sampleCreated], o.orderNumber ≠ "EM-0000002A") :=
  ⟨rfl,
    (C9_allocated_order_number sampleLib sampleCfg sampleCatalog
      [⟨0xDE, 0xAD, 0xBE, 0xEF⟩, ⟨0, 0, 0, 42⟩] 2 6 ⟨[sampleCreated], fun _ => none⟩ sampleBody).1
      "EM-0000002A" rfl⟩

/-! ## C10: a malformed transaction id is refused -/

/-- C10. For every checkout request whose `transactionId`, after trimming,
does not match `^(0x[0-9a-fA-F]{64}|[0-9a-fA-F]{64})$`, whatever the other
fields, the catalog and the random draws are, the checkout answers with
status 400 and `success: false` and the state is unchanged: no order is
stored.  The message names the transaction id format when the field is not
the empty string. -/
theorem C10_malformed_transaction_id_is_rejected (lib : Lib) (cfg : Config)
    (catalog : List Product) (draws : List Draw) (newId : ObjectId) (now : Nat) (st : State)
    (body : CheckoutBody) (t : String) (ht : body.transactionId = some t)
    (hbad : txIdPattern (trim t) = false) :
    checkout lib cfg catalog draws newId now st body =
      some ⟨st, .json 400 false (checkoutErrMsg (some t)), []⟩ ∧
    (t ≠ "" → checkoutErrMsg (some t) = "Geçersiz Transaction ID formatı.") := by
  constructor
  · unfold checkout
    simp only [ht]
    split
    · rename_i h5
      cases h5
      split
      · rfl
      · simp [hbad]
    · rfl
  · intro hne
    simp [checkoutErrMsg, hne, hbad]

/-- C10, for the transaction id "not-a-hash" in the otherwise valid sample
body, on the sample store. -/
theorem C10_malformed_transaction_id_is_rejected_witness :
    (({ sampleBody with transactionId := some "not-a-hash" } : CheckoutBody).transactionId
        = some "not-a-hash" ∧
      txIdPattern (trim "not-a-hash") = false) ∧
    (checkout sampleLib sampleCfg sampleCatalog [⟨0xDE, 0xAD, 0xBE, 0xEF⟩] 3 6 sampleState
        { sampleBody with transactionId := some "not-a-hash" } =
      some ⟨sampleState, .json 400 false (checkoutErrMsg (some "not-a-hash")), []⟩ ∧
    ("not-a-hash" ≠ "" → checkoutErrMsg (some "not-a-hash") = "Geçersiz Transaction ID formatı.")) :=
  ⟨⟨rfl, by decide⟩,
    C10_malformed_transaction_id_is_rejected sampleLib sampleCfg sampleCatalog
      [⟨0xDE, 0xAD, 0xBE, 0xEF⟩] 3 6 sampleState
      { sampleBody with transactionId := some "not-a-hash" } "not-a-hash" rfl (by decide)⟩

/-! ## The checkout, case by case -/

theorem checkout_ok_inv {lib : Lib} {cfg : Config} {catalog : List Product} {draws : List Draw}
    {newId : ObjectId} {now : Nat} {st : State} {body : CheckoutBody} {r : RouteResult}
    (h : checkout lib cfg catalog draws newId now st body = some r)
    (hok : r.response.ok = true) :
    ∃ productId q paymentInfo crypto tx pid product n msgs,
      body.productId = some productId ∧ body.quantity.bind parseInt = some q ∧ 0 < q ∧
      body.paymentInfo = some paymentInfo ∧ body.selectedCryptoId = some crypto ∧
      body.transactionId = some tx ∧ txIdPattern (trim tx) = true ∧
      lib.castId productId = some pid ∧ catalog.find? (fun p => p._id == pid) = some product ∧
      allocateOrderNumber st.orders draws = some n ∧
      ((∃ note, body.note = some note ∧ trim note ≠ "" ∧ msgs = [⟨"user", note, now⟩]) ∨
        ((∀ note, body.note = some note → trim note = "") ∧ msgs = [])) ∧
      r.response = .checkoutOk n ∧
      r.state = { st with orders := st.orders ++
        [{ _id := newId, orderNumber := n, productName := product.name, quantity := q,
           paymentInfo := paymentInfo, messages := msgs, status := "Beklemede",
           isArchived := false, hasUnreadUserMessage := decide (msgs.length > 0),
           transactionId := trim tx, createdAt := now }] } := by
  unfold checkout at h
  simp only at h
  split at h
  · rename_i productId q paymentInfo crypto tx hpid hq hpay hcr htx
    split at h
    · cases h; simp [Response.ok] at hok
    · rename_i pid hcast
      split at h
      · cases h; simp [Response.ok] at hok
      · rename_i hguard
        split at h
        · cases h; simp [Response.ok] at hok
        · rename_i product hprod
          split at h
          · cases h; simp [Response.ok] at hok
          · split at h
            · cases h; simp [Response.ok] at hok
            · split at h
              · cases h
              · rename_i n hn
                split at h
                · cases h; simp [Response.ok] at hok
                · cases h
                  simp only [Bool.or_eq_true, beq_iff_eq, decide_eq_true_eq, Bool.not_eq_true',
                    not_or, Bool.not_eq_false] at hguard
                  refine ⟨productId, q, paymentInfo, crypto, tx, pid, product, n, _, hpid, hq,
                    by omega, hpay, hcr, htx, hguard.2, hcast, hprod, hn, ?_, rfl, rfl⟩
                  cases hnote : body.note with
                  | none => right; simp
                  | some note =>
                    by_cases ht : trim note = ""
                    · right
                      simp [ht]
                    · left
                      have : note ≠ "" := trim_ne_empty ht
                      exact ⟨note, rfl, ht, by simp [ht, this]⟩
  · cases h; simp [Response.ok] at hok
theorem checkout_missing_tx (lib : Lib) (cfg : Config) (catalog : List Product)
    (draws : List Draw) (newId : ObjectId) (now : Nat) (st : State) (body : CheckoutBody)
    (h : body.transactionId = none ∨ body.transactionId = some "") :
    checkout lib cfg catalog draws newId now st body =
      some ⟨st, .json 400 false "Geçersiz sipariş bilgisi. Tüm alanlar doldurulmalıdır.", []⟩ := by
  unfold checkout
  rcases h with h | h
  · simp only [h]
    split
    · rename_i h5; cases h5
    · rfl
  · simp only [h]
    split
    · rename_i h5
      cases h5
      split
      · rfl
      · simp [checkoutErrMsg]
    · rfl

theorem checkout_valid_eq (lib : Lib) (cfg : Config) (catalog : List Product)
    (draws : List Draw) (newId : ObjectId) (now : Nat) (st : State) (body : CheckoutBody)
    {productId paymentInfo crypto tx n : String} {q : Int} {pid : ObjectId} {product : Product}
    (hpid : body.productId = some productId) (hq : body.quantity.bind parseInt = some q)
    (hpay : body.paymentInfo = some paymentInfo) (hcr : body.selectedCryptoId = some crypto)
    (htx : body.transactionId = some tx) (hcast : lib.castId productId = some pid)
    (hpne : productId ≠ "") (hqpos : 0 < q) (hpayne : paymentInfo ≠ "") (hcrne : crypto ≠ "")
    (hpat : txIdPattern (trim tx) = true)
    (hprod : catalog.find? (fun p => p._id == pid) = some product)
    (hstock : product.inStock = true)
    (hallowed : product.availableCryptos.any (fun c => lib.idToString c == crypto) = true)
    (halloc : allocateOrderNumber st.orders draws = some n)
    (hfresh : ∀ o ∈ st.orders, o._id ≠ newId) :
    ∃ r, checkout lib cfg catalog draws newId now st body = some r ∧
      r.response = .checkoutOk n ∧
      ∃ o, r.state = { st with orders := st.orders ++ [o] } ∧ o.orderNumber = n ∧
        o._id = newId ∧ o.transactionId = trim tx := by
  have htrim : trim tx ≠ "" := by
    intro h
    rw [h] at hpat
    revert hpat
    decide
  have htxne : tx ≠ "" := trim_ne_empty htrim
  have hany : st.orders.any (byId newId) = false := by
    rw [Bool.eq_false_iff]
    intro h
    obtain ⟨o, ho, hb⟩ := List.any_eq_true.mp h
    exact hfresh o ho (by simpa [byId] using hb)
  have hq' : ¬ q ≤ 0 := by omega
  have hguard : (productId == "" || decide (q ≤ 0) || paymentInfo == "" || crypto == "" ||
      tx == "" || trim tx == "" || !txIdPattern (trim tx)) = false := by
    simp [hpne, hq', hpayne, hcrne, htxne, htrim, hpat]
  unfold checkout
  simp only [hpid, hq, hpay, hcr, htx, hcast, hprod, halloc, hany, hstock, hallowed, hguard,
    Bool.not_true, Bool.false_eq_true, if_false]
  exact ⟨_, rfl, rfl, _, rfl, rfl, rfl, rfl⟩

/-! ## C11: the transaction id at creation -/

/-- C11, as stated, fails: the sample request is accepted with its transaction
id and refused with status 400, storing nothing, once the transaction id is
left out, all other fields being the same. -/
theorem C11_missing_transaction_id_counterexample :
    (checkout sampleLib sampleCfg sampleCatalog [⟨0xDE, 0xAD, 0xBE, 0xEF⟩] 1 5 State.init
        sampleBody).map (fun r => (r.response, r.state.orders))
      = some (.checkoutOk "EM-DEADBEEF", [sampleCreated]) ∧
    (checkout sampleLib sampleCfg sampleCatalog [⟨0xDE, 0xAD, 0xBE, 0xEF⟩] 1 5 State.init
        { sampleBody with transactionId := none }).map (fun r => (r.response, r.state.orders))
      = some (.json 400 false "Geçersiz sipariş bilgisi. Tüm alanlar doldurulmalıdır.", []) := by
  decide

/-- C11 (amended). The transaction id is required at creation: every checkout
request that carries no `transactionId`, or an empty one, is answered with
status 400 and stores no order, whatever its other fields are; a request that
is otherwise valid (valid product in stock, positive quantity, payment info,
allowed crypto) and carries a `transactionId` that matches the format after
trimming succeeds and stores an order, provided the allocation loop finishes
and the new identifier is free. -/
theorem C11_transaction_id_is_required (lib : Lib) (cfg : Config) (catalog : List Product)
    (draws : List Draw) (newId : ObjectId) (now : Nat) (st : State) (body : CheckoutBody) :
    ((body.transactionId = none ∨ body.transactionId = some "") →
      checkout lib cfg catalog draws newId now st body =
        some ⟨st, .json 400 false "Geçersiz sipariş bilgisi. Tüm alanlar doldurulmalıdır.", []⟩) ∧
    (∀ (productId paymentInfo crypto tx n : String) (q : Int) (pid : ObjectId)
        (product : Product),
      body.productId = some productId → body.quantity.bind parseInt = some q →
      body.paymentInfo = some paymentInfo → body.selectedCryptoId = some crypto →
      body.transactionId = some tx → lib.castId productId = some pid → productId ≠ "" →
      0 < q → paymentInfo ≠ "" → crypto ≠ "" → txIdPattern (trim tx) = true →
      catalog.find? (fun p => p._id == pid) = some product → product.inStock = true →
      product.availableCryptos.any (fun c => lib.idToString c == crypto) = true →
      allocateOrderNumber st.orders draws = some n → (∀ o ∈ st.orders, o._id ≠ newId) →
      ∃ r, checkout lib cfg catalog draws newId now st body = some r ∧
        r.response = .checkoutOk n ∧
        ∃ o, r.state = { st with orders := st.orders ++ [o] } ∧ o.orderNumber = n ∧
          o._id = newId ∧ o.transactionId = trim tx) := by
  refine ⟨checkout_missing_tx lib cfg catalog draws newId now st body, ?_⟩
  intro productId paymentInfo crypto tx n q pid product hpid hq hpay hcr htx hcast hpne hqpos
    hpayne hcrne hpat hprod hstock hallowed halloc hfresh
  exact checkout_valid_eq lib cfg catalog draws newId now st body hpid hq hpay hcr htx hcast hpne
    hqpos hpayne hcrne hpat hprod hstock hallowed halloc hfresh

/-- C11 (amended), on the sample request without its transaction id. -/
theorem C11_transaction_id_is_required_witness :
    (({ sampleBody with transactionId := none } : CheckoutBody).transactionId = none ∨
      ({ sampleBody with transactionId := none } : CheckoutBody).transactionId = some "") ∧
    checkout sampleLib sampleCfg sampleCatalog [⟨0xDE, 0xAD, 0xBE, 0xEF⟩] 1 5 sampleState
        { sampleBody with transactionId := none } =
      some ⟨sampleState, .json 400 false "Geçersiz sipariş bilgisi. Tüm alanlar doldurulmalıdır.",
        []⟩ :=
  ⟨Or.inl rfl,
    (C11_transaction_id_is_required sampleLib sampleCfg sampleCatalog [⟨0xDE, 0xAD, 0xBE, 0xEF⟩]
      1 5 sampleState { sampleBody with transactionId := none }).1 (Or.inl rfl)⟩

/-! ## C12: the order a checkout stores -/

/-- C12. For every successful checkout, the state afterwards is the state
before with one order added; that order has status "Beklemede" (Pending) and
`isArchived = false`; if the request carries a note that is not empty after
trimming, its thread is exactly one customer message carrying the note and
`hasUnreadUserMessage = true`; otherwise its thread is empty and
`hasUnreadUserMessage = false`. -/
theorem C12_stored_order_is_pending (lib : Lib) (cfg : Config) (catalog : List Product)
    (draws : List Draw) (newId : ObjectId) (now : Nat) (st : State) (body : CheckoutBody)
    (r : RouteResult) (h : checkout lib cfg catalog draws newId now st body = some r)
    (hok : r.response.ok = true) :
    ∃ o, r.state = { st with orders := st.orders ++ [o] } ∧ o.status = "Beklemede" ∧
      o.isArchived = false ∧
      ((∃ note, body.note = some note ∧ trim note ≠ "" ∧
          o.messages = [⟨"user", note, now⟩] ∧ o.hasUnreadUserMessage = true) ∨
        ((∀ note, body.note = some note → trim note = "") ∧ o.messages = [] ∧
          o.hasUnreadUserMessage = false)) := by
  obtain ⟨productId, q, paymentInfo, crypto, tx, pid, product, n, msgs, -, -, -, -, -, -, -, -,
    -, -, hmsgs, -, hst⟩ := checkout_ok_inv h hok
  refine ⟨_, hst, rfl, rfl, ?_⟩
  rcases hmsgs with ⟨note, hn, ht, rfl⟩ | ⟨hn, rfl⟩
  · exact .inl ⟨note, hn, ht, rfl, rfl⟩
  · exact .inr ⟨hn, rfl, rfl⟩

/-- C12, on the sample checkout, whose note is "where is my item?". -/
theorem C12_stored_order_is_pending_witness :
    (checkout sampleLib sampleCfg sampleCatalog [⟨0xDE, 0xAD, 0xBE, 0xEF⟩] 1 5 State.init sampleBody
        = some ⟨⟨[sampleCreated], fun _ => none⟩, .checkoutOk "EM-DEADBEEF",
            sendNewOrderNotification sampleCfg sampleCreated⟩ ∧
      (Response.checkoutOk "EM-DEADBEEF").ok = true) ∧
    ∃ o, (⟨[sampleCreated], fun _ => none⟩ : State) =
        { State.init with orders := State.init.orders ++ [o] } ∧ o.status = "Beklemede" ∧
      o.isArchived = false ∧
      ((∃ note, sampleBody.note = some note ∧ trim note ≠ "" ∧
          o.messages = [⟨"user", note, 5⟩] ∧ o.hasUnreadUserMessage = true) ∨
        ((∀ note, sampleBody.note = some note → trim note = "") ∧ o.messages = [] ∧
          o.hasUnreadUserMessage = false)) :=
  ⟨⟨rfl, rfl⟩,
    C12_stored_order_is_pending sampleLib sampleCfg sampleCatalog [⟨0xDE, 0xAD, 0xBE, 0xEF⟩] 1 5
      State.init sampleBody
      ⟨⟨[sampleCreated], fun _ => none⟩, .checkoutOk "EM-DEADBEEF",
        sendNewOrderNotification sampleCfg sampleCreated⟩ rfl rfl⟩

/-! ## C13: what the operations leave alone -/

theorem updateFirst_same_id {p : Order → Bool} (f : Order → Order) (hf : ∀ o, (f o)._id = o._id)
    {os : List Order} (hnd : (os.map (·._id)).Nodup) {o o' : Order} (ho : o ∈ os)
    (ho' : o' ∈ updateFirst p f os) (hid : o'._id = o._id) : o' = o ∨ o' = f o := by
  obtain ⟨o₀, ho₀, h⟩ := mem_updateFirst ho'
  have hid₀ : o₀._id = o._id := by
    rcases h with rfl | rfl
    · exact hid
    · rw [← hid, hf]
  have : o₀ = o := List.inj_on_of_nodup_map hnd ho₀ ho hid₀
  subst this
  exact h

theorem updateOrderStatusRoute_orders (lib : Lib) (st : State) (orderId newStatus : Option String) :
    ∃ p s, (updateOrderStatusRoute lib st orderId newStatus).state.orders =
      updateFirst p (setStatus s) st.orders := by
  unfold updateOrderStatusRoute
  simp only
  have hsame : ∃ (p : Order → Bool) (s : String), st.orders = updateFirst p (setStatus s) st.orders :=
    ⟨fun _ => false, "", (updateFirst_of_find_none _ (by simp)).symm⟩
  split
  · exact hsame
  · split
    · exact hsame
    · split
      · exact hsame
      · split <;> rename_i h <;> obtain ⟨rfl, -⟩ := findOneAndUpdate_eq h <;> exact ⟨_, _, rfl⟩

theorem updateOrderStatus_orders (cfg : Config) (st : State) (chatId : Int) (n s : String) :
    ∃ p, (updateOrderStatus cfg st chatId n s).state.orders =
      updateFirst p (setStatus s) st.orders := by
  unfold updateOrderStatus
  split
  · exact ⟨fun _ => false, (updateFirst_of_find_none _ (by simp)).symm⟩
  · split <;> rename_i h <;> obtain ⟨rfl, -⟩ := findOneAndUpdate_eq h <;> exact ⟨_, rfl⟩

theorem archiveOrderRoute_orders (lib : Lib) (st : State) (orderId : String) :
    ∃ p, (archiveOrderRoute lib st orderId).state.orders =
      updateFirst p (setArchived true) st.orders := by
  unfold archiveOrderRoute
  split
  · exact ⟨fun _ => false, (updateFirst_of_find_none _ (by simp)).symm⟩
  · split <;> rename_i h <;> obtain ⟨rfl, -⟩ := findOneAndUpdate_eq h <;> exact ⟨_, rfl⟩

theorem updateOrderArchiveStatus_orders (cfg : Config) (st : State) (chatId : Int) (n : String)
    (b : Bool) :
    ∃ p, (updateOrderArchiveStatus cfg st chatId n b).state.orders =
      updateFirst p (setArchived b) st.orders := by
  unfold updateOrderArchiveStatus
  split
  · exact ⟨fun _ => false, (updateFirst_of_find_none _ (by simp)).symm⟩
  · split <;> rename_i h <;> obtain ⟨rfl, -⟩ := findOneAndUpdate_eq h <;> exact ⟨_, rfl⟩

theorem status_only {o o' : Order} {s : String} (h : o' = o ∨ o' = setStatus s o) :
    { o' with status := o.status } = o := by
  rcases h with rfl | rfl <;> rfl

theorem archived_only {o o' : Order} {b : Bool} (h : o' = o ∨ o' = setArchived b o) :
    { o' with isArchived := o.isArchived } = o := by
  rcases h with rfl | rfl <;> rfl

/-- C13. In a store whose documents have distinct identifiers, for every
existing order and every operation after which it still exists (status update,
archive and unarchive, customer and operator append, reply through the
reply-intent slot, every bot callback and text message, and the others), its
`orderNumber`, `productName`, `quantity`, `paymentInfo` and `transactionId`
are the same after the operation as before.  A status update (route or bot)
changes no field of it other than `status`, and an archive update (route or
bot) no field other than `isArchived`. -/
theorem C13_purchase_snapshot_is_immutable (lib : Lib) (cfg : Config) (st : State)
    (o o' : Order) (hnd : (st.orders.map (·._id)).Nodup) (ho : o ∈ st.orders)
    (hid : o'._id = o._id) :
    (∀ op st', step lib cfg st op = some st' → o' ∈ st'.orders →
      o'.orderNumber = o.orderNumber ∧ o'.productName = o.productName ∧
      o'.quantity = o.quantity ∧ o'.paymentInfo = o.paymentInfo ∧
      o'.transactionId = o.transactionId) ∧
    (∀ orderId newStatus, o' ∈ (updateOrderStatusRoute lib st orderId newStatus).state.orders →
      { o' with status := o.status } = o) ∧
    (∀ chatId n s, o' ∈ (updateOrderStatus cfg st chatId n s).state.orders →
      { o' with status := o.status } = o) ∧
    (∀ orderId, o' ∈ (archiveOrderRoute lib st orderId).state.orders →
      { o' with isArchived := o.isArchived } = o) ∧
    (∀ chatId n b, o' ∈ (updateOrderArchiveStatus cfg st chatId n b).state.orders →
      { o' with isArchived := o.isArchived } = o) := by
  refine ⟨?_, ?_, ?_, ?_, ?_⟩
  · intro op st' hstep ho'
    have he := (step_change hstep).change_evolves hnd ho ho' hid
    exact ⟨he.2.1, he.2.2.1, he.2.2.2.1, he.2.2.2.2.1, he.2.2.2.2.2.1⟩
  · intro orderId newStatus ho'
    obtain ⟨p, s, h⟩ := updateOrderStatusRoute_orders lib st orderId newStatus
    rw [h] at ho'
    exact status_only (updateFirst_same_id (setStatus s) (fun _ => rfl) hnd ho ho' hid)
  · intro chatId n s ho'
    obtain ⟨p, h⟩ := updateOrderStatus_orders cfg st chatId n s
    rw [h] at ho'
    exact status_only (updateFirst_same_id (setStatus s) (fun _ => rfl) hnd ho ho' hid)
  · intro orderId ho'
    obtain ⟨p, h⟩ := archiveOrderRoute_orders lib st orderId
    rw [h] at ho'
    exact archived_only (updateFirst_same_id (setArchived true) (fun _ => rfl) hnd ho ho' hid)
  · intro chatId n b ho'
    obtain ⟨p, h⟩ := updateOrderArchiveStatus_orders cfg st chatId n b
    rw [h] at ho'
    exact archived_only (updateFirst_same_id (setArchived b) (fun _ => rfl) hnd ho ho' hid)

/-- C13, on the sample store: the status update of the pending order to
"İptal" changes its status only. -/
theorem C13_purchase_snapshot_is_immutable_witness :
    ((sampleState.orders.map (·._id)).Nodup ∧ samplePending ∈ sampleState.orders ∧
      (setStatus "İptal" samplePending)._id = samplePending._id ∧
      setStatus "İptal" samplePending ∈
        (updateOrderStatusRoute sampleLib sampleState (some "id2") (some "İptal")).state.orders) ∧
    { setStatus "İptal" samplePending with status := samplePending.status } = samplePending :=
  ⟨⟨by decide, by decide, rfl, by decide⟩,
    (C13_purchase_snapshot_is_immutable sampleLib sampleCfg sampleState samplePending
      (setStatus "İptal" samplePending) (by decide) (by decide) rfl).2.1 (some "id2")
      (some "İptal") (by decide)⟩

/-! ## The callback payload -/

theorem splitChars_of_not_mem {sep : Char} {l : List Char} (h : sep ∉ l) :
    splitChars sep l = [l] := by
  induction l with
  | nil => rfl
  | cons c cs ih =>
    have hc : c ≠ sep := fun e => h (by simp [e])
    have hcs : sep ∉ cs := fun e => h (by simp [e])
    simp [splitChars, hc, ih hcs]

theorem splitChars_append {sep : Char} {a : List Char} (b : List Char) (h : sep ∉ a) :
    splitChars sep (a ++ sep :: b) = a :: splitChars sep b := by
  induction a with
  | nil => simp [splitChars]
  | cons c cs ih =>
    have hc : c ≠ sep := fun e => h (by simp [e])
    have hcs : sep ∉ cs := fun e => h (by simp [e])
    simp [splitChars, hc, ih hcs]

theorem splitColon_action (a n : String) (ha : ':' ∉ a.data) (hn : ':' ∉ n.data) :
    splitColon (a ++ ":" ++ n) = [a, n] := by
  have : (a ++ ":" ++ n).data = a.data ++ ':' :: n.data := by
    simp [String.data_append]
  simp [splitColon, this, splitChars_append _ ha, splitChars_of_not_mem hn]

theorem updateFirst_at {p : Order → Bool} (f : Order → Order) {l₁ l₂ : List Order} {o : Order}
    (h₁ : ∀ x ∈ l₁, p x = false) (ho : p o = true) :
    (l₁ ++ o :: l₂).find? p = some o ∧ updateFirst p f (l₁ ++ o :: l₂) = l₁ ++ f o :: l₂ := by
  induction l₁ with
  | nil => simp [updateFirst, ho]
  | cons a l ih =>
    have ha : p a = false := h₁ a (by simp)
    have hl : ∀ x ∈ l, p x = false := fun x hx => h₁ x (by simp [hx])
    obtain ⟨h1, h2⟩ := ih hl
    simp [updateFirst, ha, h1, h2]

theorem find_byNumber_none {os : List Order} {n : String} (h : ∀ o ∈ os, o.orderNumber ≠ n) :
    os.find? (byNumber n) = none := by
  rw [List.find?_eq_none]
  intro o ho
  simpa [byNumber] using h o ho

theorem onCallbackQuery_parsed (cfg : Config) (st : State) (chatId : Int) {data a n : String}
    {rest : List String} (hchat : toString chatId = cfg.adminChatId)
    (hsplit : splitColon data = a :: n :: rest) (hn : n ≠ "") :
    onCallbackQuery cfg st chatId data =
      if a == "confirm" then
        ⟨(updateOrderStatus cfg st chatId n "Tamamlandı").state,
          .answerCallbackQuery none :: (updateOrderStatus cfg st chatId n "Tamamlandı").outbox⟩
      else if a == "cancel" then
        ⟨(updateOrderStatus cfg st chatId n "İptal").state,
          .answerCallbackQuery none :: (updateOrderStatus cfg st chatId n "İptal").outbox⟩
      else if a == "archive" then
        ⟨(updateOrderArchiveStatus cfg st chatId n true).state,
          .answerCallbackQuery none :: (updateOrderArchiveStatus cfg st chatId n true).outbox⟩
      else if a == "view" then
        match findOne (byNumber n) st.orders with
        | none => ⟨st, [.answerCallbackQuery none, .sendMessage chatId (.orderNotFound n)]⟩
        | some order => ⟨st, [.answerCallbackQuery none, .sendMessage chatId (.orderView order)]⟩
      else if a == "reply_init" then
        ⟨armReply st chatId n,
          [.answerCallbackQuery none, .sendMessage chatId (.replyPrompt n)]⟩
      else ⟨st, [.answerCallbackQuery none, .sendMessage chatId .unknownButton]⟩ := by
  unfold onCallbackQuery
  simp only [hchat, hsplit, bne_self_eq_false, Bool.false_eq_true, if_false, List.headD_cons,
    List.get?_cons_succ, List.get?_cons_zero, beq_iff_eq, hn]

theorem onCallbackQuery_numberless (cfg : Config) (st : State) (chatId : Int) {data : String}
    (hchat : toString chatId = cfg.adminChatId)
    (h : truthy ((splitColon data).get? 1) = false) :
    onCallbackQuery cfg st chatId data =
      ⟨st, [.answerCallbackQuery (some "Hata: Sipariş Numarası bulunamadı.")]⟩ := by
  unfold onCallbackQuery
  simp only [hchat, bne_self_eq_false, Bool.false_eq_true, if_false]
  cases hg : (splitColon data).get? 1 with
  | none => rfl
  | some n =>
    rw [hg] at h
    have : n = "" := by simpa [truthy] using h
    simp [this]


theorem splitColon_empty_number (a : String) (ha : ':' ∉ a.data) :
    splitColon (a ++ ":") = [a, ""] := by
  have h := splitColon_action a "" ha (by simp)
  simpa using h

/-! ## C14: the buttons confirm, cancel and archive -/

/-- C14, as stated, fails for a payload with a third field: no order has the
number "EM-DEADBEEF:x", yet the callback `confirm:EM-DEADBEEF:x` from the
operator changes the store (the order EM-DEADBEEF is set to "Tamamlandı") and
no not-found text is sent. -/
theorem C14_callback_third_field_counterexample :
    (∀ o ∈ [sampleCreated], o.orderNumber ≠ "EM-DEADBEEF:x") ∧
    (onCallbackQuery sampleCfg ⟨[sampleCreated], fun _ => none⟩ 42
        "confirm:EM-DEADBEEF:x").state.orders = [{ sampleCreated with status := "Tamamlandı" }] ∧
    (onCallbackQuery sampleCfg ⟨[sampleCreated], fun _ => none⟩ 42
        "confirm:EM-DEADBEEF:x").outbox =
      [.answerCallbackQuery none, .sendMessage 42 (.statusUpdated "EM-DEADBEEF" "Tamamlandı")] := by
  decide

/-- C14 (amended). For every callback from the operator (the bot being
started) whose payload is `confirm:N`, `cancel:N` or `archive:N` where N
contains no colon: if N is not empty and is the number of an existing order,
the handler sets the status of the first order with that number to
"Tamamlandı", its status to "İptal", or its `isArchived` to true respectively,
and changes no other order and not the reply-intent slot; if N is not empty and
no order has number N, the state is unchanged and the not-found text is sent;
if N is empty, the state is unchanged and the callback is answered with the
error "Hata: Sipariş Numarası bulunamadı.". -/
theorem C14_callback_updates_one_order (cfg : Config) (st : State) (chatId : Int) (N : String)
    (hchat : toString chatId = cfg.adminChatId) (hbot : cfg.botStarted = true)
    (hcolon : ':' ∉ N.data) :
    (N ≠ "" → ∀ l₁ o l₂, st.orders = l₁ ++ o :: l₂ → o.orderNumber = N →
      (∀ x ∈ l₁, x.orderNumber ≠ N) →
      (onCallbackQuery cfg st chatId ("confirm:" ++ N)).state =
          ⟨l₁ ++ { o with status := "Tamamlandı" } :: l₂, st.replyIntent⟩ ∧
        (onCallbackQuery cfg st chatId ("cancel:" ++ N)).state =
          ⟨l₁ ++ { o with status := "İptal" } :: l₂, st.replyIntent⟩ ∧
        (onCallbackQuery cfg st chatId ("archive:" ++ N)).state =
          ⟨l₁ ++ { o with isArchived := true } :: l₂, st.replyIntent⟩) ∧
    (N ≠ "" → (∀ o ∈ st.orders, o.orderNumber ≠ N) →
      onCallbackQuery cfg st chatId ("confirm:" ++ N) =
          ⟨st, [.answerCallbackQuery none, .sendMessage chatId (.orderNotFound N)]⟩ ∧
        onCallbackQuery cfg st chatId ("cancel:" ++ N) =
          ⟨st, [.answerCallbackQuery none, .sendMessage chatId (.orderNotFound N)]⟩ ∧
        onCallbackQuery cfg st chatId ("archive:" ++ N) =
          ⟨st, [.answerCallbackQuery none, .sendMessage chatId (.orderNotFound N)]⟩) ∧
    (N = "" →
      onCallbackQuery cfg st chatId ("confirm:" ++ N) =
          ⟨st, [.answerCallbackQuery (some "Hata: Sipariş Numarası bulunamadı.")]⟩ ∧
        onCallbackQuery cfg st chatId ("cancel:" ++ N) =
          ⟨st, [.answerCallbackQuery (some "Hata: Sipariş Numarası bulunamadı.")]⟩ ∧
        onCallbackQuery cfg st chatId ("archive:" ++ N) =
          ⟨st, [.answerCallbackQuery (some "Hata: Sipariş Numarası bulunamadı.")]⟩) := by
  have h1 : splitColon ("confirm:" ++ N) = ["confirm", N] :=
    splitColon_action "confirm" N (by decide) hcolon
  have h2 : splitColon ("cancel:" ++ N) = ["cancel", N] :=
    splitColon_action "cancel" N (by decide) hcolon
  have h3 : splitColon ("archive:" ++ N) = ["archive", N] :=
    splitColon_action "archive" N (by decide) hcolon
  refine ⟨?_, ?_, ?_⟩
  · intro hne l₁ o l₂ hst hnum hl
    rw [onCallbackQuery_parsed cfg st chatId hchat h1 hne,
      onCallbackQuery_parsed cfg st chatId hchat h2 hne,
      onCallbackQuery_parsed cfg st chatId hchat h3 hne]
    simp only [updateOrderStatus_eq cfg st chatId N _ hbot,
      updateOrderArchiveStatus_eq cfg st chatId N true hbot]
    have hp : ∀ x ∈ l₁, byNumber N x = false := fun x hx => by simpa [byNumber] using hl x hx
    have ho : byNumber N o = true := by simp [byNumber, hnum]
    rw [hst]
    simp only [(updateFirst_at (setStatus "Tamamlandı") hp ho).1,
      (updateFirst_at (setStatus "Tamamlandı") hp ho).2,
      (updateFirst_at (setStatus "İptal") hp ho).2,
      (updateFirst_at (setArchived true) hp ho).2]
    refine ⟨?_, ?_, ?_⟩ <;> rfl
  · intro hne hnone
    rw [onCallbackQuery_parsed cfg st chatId hchat h1 hne,
      onCallbackQuery_parsed cfg st chatId hchat h2 hne,
      onCallbackQuery_parsed cfg st chatId hchat h3 hne]
    simp only [updateOrderStatus_eq cfg st chatId N _ hbot,
      updateOrderArchiveStatus_eq cfg st chatId N true hbot, find_byNumber_none hnone]
    refine ⟨?_, ?_, ?_⟩ <;> rfl
  · intro he
    subst he
    refine ⟨?_, ?_, ?_⟩ <;>
      exact onCallbackQuery_numberless cfg st chatId hchat (by decide)

/-- C14 (amended), on the store holding the sample order EM-DEADBEEF, for the
operator chat 42. -/
theorem C14_callback_updates_one_order_witness :
    (toString (42 : Int) = sampleCfg.adminChatId ∧ sampleCfg.botStarted = true ∧
      ':' ∉ ("EM-DEADBEEF" : String).data ∧ "EM-DEADBEEF" ≠ "" ∧
      (⟨[sampleCreated], fun _ => none⟩ : State).orders = [] ++ sampleCreated :: [] ∧
      sampleCreated.orderNumber = "EM-DEADBEEF" ∧
      (∀ x ∈ ([] : List Order), x.orderNumber ≠ "EM-DEADBEEF")) ∧
    ((onCallbackQuery sampleCfg ⟨[sampleCreated], fun _ => none⟩ 42
          ("confirm:" ++ "EM-DEADBEEF")).state =
        ⟨[] ++ { sampleCreated with status := "Tamamlandı" } :: [], fun _ => none⟩ ∧
      (onCallbackQuery sampleCfg ⟨[sampleCreated], fun _ => none⟩ 42
          ("cancel:" ++ "EM-DEADBEEF")).state =
        ⟨[] ++ { sampleCreated with status := "İptal" } :: [], fun _ => none⟩ ∧
      (onCallbackQuery sampleCfg ⟨[sampleCreated], fun _ => none⟩ 42
          ("archive:" ++ "EM-DEADBEEF")).state =
        ⟨[] ++ { sampleCreated with isArchived := true } :: [], fun _ => none⟩) :=
  ⟨⟨by decide, rfl, by decide, by decide, rfl, rfl, by simp⟩,
    (C14_callback_updates_one_order sampleCfg ⟨[sampleCreated], fun _ => none⟩ 42 "EM-DEADBEEF"
      (by decide) rfl (by decide)).1 (by decide) [] sampleCreated [] rfl rfl (by simp)⟩

/-! ## C15: the button reply_init -/

/-- C15, as stated, fails for a payload with a third field: after the callback
`reply_init:EM-DEADBEEF:x` from the operator the slot holds "EM-DEADBEEF", not
the non-empty text "EM-DEADBEEF:x" that follows `reply_init:`. -/
theorem C15_reply_init_third_field_counterexample :
    ("EM-DEADBEEF:x" : String) ≠ "" ∧
    (onCallbackQuery sampleCfg ⟨[sampleCreated], fun _ => none⟩ 42
        ("reply_init:" ++ "EM-DEADBEEF:x")).state.replyIntent 42 = some "EM-DEADBEEF" ∧
    (onCallbackQuery sampleCfg ⟨[sampleCreated], fun _ => none⟩ 42
        ("reply_init:" ++ "EM-DEADBEEF:x")).state.replyIntent 42 ≠ some "EM-DEADBEEF:x" := by
  decide

/-- C15 (amended). For every callback from the operator with payload
`reply_init:N`, N not empty and without a colon, the reply-intent slot of the
operator afterwards holds exactly N, whatever it held before (the slot holds
at most one order number), the slots of other chats and every order in the
store are unchanged, and the prompt for the reply is sent. -/
theorem C15_reply_init_arms_slot (cfg : Config) (st : State) (chatId : Int) (N : String)
    (hchat : toString chatId = cfg.adminChatId) (hne : N ≠ "") (hcolon : ':' ∉ N.data) :
    (onCallbackQuery cfg st chatId ("reply_init:" ++ N)).state.replyIntent chatId = some N ∧
    (∀ c, c ≠ chatId →
      (onCallbackQuery cfg st chatId ("reply_init:" ++ N)).state.replyIntent c =
        st.replyIntent c) ∧
    (onCallbackQuery cfg st chatId ("reply_init:" ++ N)).state.orders = st.orders ∧
    (onCallbackQuery cfg st chatId ("reply_init:" ++ N)).outbox =
      [.answerCallbackQuery none, .sendMessage chatId (.replyPrompt N)] := by
  have h1 : splitColon ("reply_init:" ++ N) = ["reply_init", N] :=
    splitColon_action "reply_init" N (by decide) hcolon
  rw [onCallbackQuery_parsed cfg st chatId hchat h1 hne]
  refine ⟨by simp [armReply], ?_, rfl, rfl⟩
  intro c hc
  simp [armReply, hc]

/-- C15 (amended), on the sample store, for the operator chat 42 and the
number EM-0000000B. -/
theorem C15_reply_init_arms_slot_witness :
    (toString (42 : Int) = sampleCfg.adminChatId ∧ ("EM-0000000B" : String) ≠ "" ∧
      ':' ∉ ("EM-0000000B" : String).data) ∧
    (onCallbackQuery sampleCfg sampleState 42 ("reply_init:" ++ "EM-0000000B")).state.replyIntent 42
      = some "EM-0000000B" :=
  ⟨⟨by decide, by decide, by decide⟩,
    (C15_reply_init_arms_slot sampleCfg sampleState 42 "EM-0000000B" (by decide) (by decide)
      (by decide)).1⟩

/-! ## C16: callbacks without effect -/

/-- C16. For every callback from the operator: when the payload has no order
number after the first colon (no second field, or an empty one; in particular
when it has no colon, or is `a:` or `a::rest` for a colon-free `a`), the state
is unchanged and the callback is answered with the error "Hata: Sipariş
Numarası bulunamadı."; when it has an order number and its action is `view`,
the state (store and reply-intent slot) is unchanged; when it has an order
number and its action is none of confirm, cancel, archive, view, reply_init,
the state is unchanged and the text "Bilinmeyen bir işlem butonu tıklandı." is
sent to the operator. -/
theorem C16_callbacks_without_effect (cfg : Config) (st : State) (chatId : Int) (data : String)
    (hchat : toString chatId = cfg.adminChatId) :
    (truthy ((splitColon data).get? 1) = false →
      onCallbackQuery cfg st chatId data =
        ⟨st, [.answerCallbackQuery (some "Hata: Sipariş Numarası bulunamadı.")]⟩) ∧
    (':' ∉ data.data → truthy ((splitColon data).get? 1) = false) ∧
    (∀ a rest : String, ':' ∉ a.data → (data = a ++ ":" ∨ data = a ++ "::" ++ rest) →
      truthy ((splitColon data).get? 1) = false) ∧
    (truthy ((splitColon data).get? 1) = true → (splitColon data).headD "" = "view" →
      (onCallbackQuery cfg st chatId data).state = st) ∧
    (truthy ((splitColon data).get? 1) = true →
      (splitColon data).headD "" ∉ ["confirm", "cancel", "archive", "view", "reply_init"] →
      onCallbackQuery cfg st chatId data =
        ⟨st, [.answerCallbackQuery none, .sendMessage chatId .unknownButton]⟩) := by
  have hparts : truthy ((splitColon data).get? 1) = true →
      ∃ a n rest, splitColon data = a :: n :: rest ∧ n ≠ "" ∧ (splitColon data).headD "" = a := by
    intro h
    obtain ⟨n, hn, hne⟩ := truthy_iff.mp h
    cases hs : splitColon data with
    | nil => rw [hs] at hn; simp at hn
    | cons a t =>
      cases t with
      | nil => rw [hs] at hn; simp at hn
      | cons m rest =>
        rw [hs] at hn
        simp only [List.get?_cons_succ, List.get?_cons_zero, Option.some.injEq] at hn
        subst hn
        exact ⟨a, m, rest, rfl, hne, rfl⟩
  refine ⟨onCallbackQuery_numberless cfg st chatId hchat, ?_, ?_, ?_, ?_⟩
  · intro h
    simp [splitColon, splitChars_of_not_mem h, truthy]
  · intro a rest ha h
    rcases h with rfl | rfl
    · simp [splitColon_empty_number a ha, truthy]
    · have : (a ++ "::" ++ rest).data = a.data ++ ':' :: (':' :: rest.data) := by
        simp [String.data_append]
      simp [splitColon, this, splitChars_append _ ha, splitChars, truthy]
  · intro h hview
    obtain ⟨a, n, rest, hs, hne, ha⟩ := hparts h
    rw [ha] at hview
    subst hview
    rw [onCallbackQuery_parsed cfg st chatId hchat hs hne]
    simp only [show ("view" == "confirm") = false by decide,
      show ("view" == "cancel") = false by decide, show ("view" == "archive") = false by decide,
      show ("view" == "view") = true by decide, Bool.false_eq_true, if_false, if_true]
    split <;> rfl
  · intro h hunknown
    obtain ⟨a, n, rest, hs, hne, ha⟩ := hparts h
    rw [ha] at hunknown
    simp only [List.mem_cons, List.mem_singleton, List.not_mem_nil, or_false, not_or] at hunknown
    rw [onCallbackQuery_parsed cfg st chatId hchat hs hne]
    simp [hunknown]

/-- C16, on the sample store, for the payload `refund:EM-0000000B`, whose
action is not a known one. -/
theorem C16_callbacks_without_effect_witness :
    (toString (42 : Int) = sampleCfg.adminChatId ∧
      truthy ((splitColon "refund:EM-0000000B").get? 1) = true ∧
      (splitColon "refund:EM-0000000B").headD "" ∉
        ["confirm", "cancel", "archive", "view", "reply_init"]) ∧
    onCallbackQuery sampleCfg sampleState 42 "refund:EM-0000000B" =
      ⟨sampleState, [.answerCallbackQuery none, .sendMessage 42 .unknownButton]⟩ :=
  ⟨⟨by decide, by decide, by decide⟩,
    (C16_callbacks_without_effect sampleCfg sampleState 42 "refund:EM-0000000B"
      (by decide)).2.2.2.2 (by decide) (by decide)⟩

/-! ## C17: other chats are ignored -/

theorem onMessage_stranger (cfg : Config) (fault : StoreFault) (now : Nat) (st : State)
    (chatId : Int) (text : Option String) (hchat : toString chatId ≠ cfg.adminChatId) :
    onMessage cfg fault now st chatId text = ⟨st, []⟩ := by
  have h : (toString chatId != cfg.adminChatId) = true := by simpa using hchat
  cases text with
  | none => rfl
  | some t => simp [onMessage, h]

theorem onText_stranger (cfg : Config) (st : State) (chatId : Int) (text : String)
    (hchat : toString chatId ≠ cfg.adminChatId) : onText cfg st chatId text = [] := by
  have h : (toString chatId != cfg.adminChatId) = true := by simpa using hchat
  have h' : (toString chatId == cfg.adminChatId) = false := by simpa using hchat
  unfold onText
  simp only [h, h', Bool.and_false, Bool.false_eq_true, if_false, if_true, List.nil_append]
  cases matchOrderCommand "goruntule" text <;> rfl

/-- C17. For every callback and every text message whose chat id is not the
configured operator chat id, whatever the payload or the text: the state (store
and reply-intent slot) is unchanged; a callback is acknowledged and nothing
else is sent, and a text message is answered with nothing at all. -/
theorem C17_strangers_are_ignored (cfg : Config) (st : State) (chatId : Int)
    (hchat : toString chatId ≠ cfg.adminChatId) :
    (∀ data, onCallbackQuery cfg st chatId data = ⟨st, [.answerCallbackQuery none]⟩) ∧
    (∀ fault now text, onTextMessage cfg fault now st chatId text = ⟨st, []⟩) := by
  constructor
  · intro data
    simp [onCallbackQuery, hchat]
  · intro fault now text
    unfold onTextMessage
    rw [onMessage_stranger cfg fault now st chatId text hchat]
    cases text with
    | none => rfl
    | some t => simp [onText_stranger cfg st chatId t hchat]

/-- C17, on the sample store, for the chat 7 while the operator chat is 42. -/
theorem C17_strangers_are_ignored_witness :
    toString (7 : Int) ≠ sampleCfg.adminChatId ∧
    onCallbackQuery sampleCfg sampleState 7 "confirm:EM-0000000B" =
      ⟨sampleState, [.answerCallbackQuery none]⟩ ∧
    onTextMessage sampleCfg .none 9 sampleState 7 (some "/goruntule EM-0000000B") =
      ⟨sampleState, []⟩ :=
  ⟨by decide,
    (C17_strangers_are_ignored sampleCfg sampleState 7 (by decide)).1 "confirm:EM-0000000B",
    (C17_strangers_are_ignored sampleCfg sampleState 7 (by decide)).2 .none 9
      (some "/goruntule EM-0000000B")⟩

/-! ## C18: a reply through the armed slot -/

theorem onMessage_reply_cases (cfg : Config) (fault : StoreFault) (now : Nat) (st : State)
    (chatId : Int) {text X : String} (hchat : toString chatId = cfg.adminChatId)
    (harm : st.replyIntent chatId = some X) (hX : X ≠ "") (htext : text ≠ "")
    (hslash : startsWithSlash text = false) :
    ((trim text = "" ∨ fault.onFind ≠ none ∨ fault.onUpdate ≠ none ∨
        st.orders.find? (byNumber X) = none) ∧
      (onMessage cfg fault now st chatId (some text)).state = clearReply st chatId) ∨
    (trim text ≠ "" ∧ fault.onFind = none ∧ fault.onUpdate = none ∧
      ∃ o, st.orders.find? (byNumber X) = some o ∧
        onMessage cfg fault now st chatId (some text) =
          ⟨{ clearReply st chatId with
              orders := updateFirst (byId o._id) (pushMessage ⟨"admin", trim text, now⟩ false) st.orders },
            [.sendMessage chatId (.replySent X)]⟩) := by
  by_cases htrim : trim text = ""
  · left
    refine ⟨.inl htrim, ?_⟩
    simp [onMessage, hchat, htext, harm, truthy, hX, hslash, htrim]
  · cases hf : fault.onFind with
    | some m =>
      left
      refine ⟨.inr (.inl (by simp)), ?_⟩
      simp [onMessage, hchat, htext, harm, truthy, hX, hslash, htrim, hf]
    | none =>
      cases hfind : st.orders.find? (byNumber X) with
      | none =>
        left
        refine ⟨.inr (.inr (.inr rfl)), ?_⟩
        simp [onMessage, hchat, htext, harm, truthy, hX, hslash, htrim, hf, findOne, clearReply,
          hfind]
      | some o =>
        cases hu : fault.onUpdate with
        | some m =>
          left
          refine ⟨.inr (.inr (.inl (by simp))), ?_⟩
          simp [onMessage, hchat, htext, harm, truthy, hX, hslash, htrim, hf, findOne, clearReply,
            hfind, hu]
        | none =>
          right
          refine ⟨htrim, rfl, rfl, o, rfl, ?_⟩
          rw [onMessage_reply_eq cfg fault now st chatId hchat harm hX hslash htrim hf hu, hfind]

theorem updateFirst_byId_at (f : Order → Order) {l₁ l₂ : List Order} {o : Order}
    (hnd : ((l₁ ++ o :: l₂).map (·._id)).Nodup) :
    updateFirst (byId o._id) f (l₁ ++ o :: l₂) = l₁ ++ f o :: l₂ := by
  refine (updateFirst_at f ?_ (by simp [byId])).2
  intro x hx
  simp only [List.map_append, List.map_cons, List.nodup_append] at hnd
  have hdisj := hnd.2.2
  have : x._id ≠ o._id := by
    intro he
    exact hdisj (List.mem_map.mpr ⟨x, hx, rfl⟩) (by simp [he])
  simpa [byId] using this

/-- C18. For every text message from the operator that is not a command (a
non-empty text that does not start with a slash) received while the
reply-intent slot is armed for the order number X, in a store with distinct
identifiers: the slot of the operator is empty afterwards in every case and
the slots of other chats are untouched; the store is unchanged when the
trimmed text is empty, when no order has number X, and when one of the two
store calls fails; otherwise the first order with number X gains exactly one
message of sender "admin" whose text is the trimmed body, its
`hasUnreadUserMessage` becomes false, and the rest of the store is as before. -/
theorem C18_armed_reply_consumes_slot (cfg : Config) (st : State) (chatId : Int) (text X : String)
    (hchat : toString chatId = cfg.adminChatId) (harm : st.replyIntent chatId = some X)
    (hX : X ≠ "") (htext : text ≠ "") (hslash : startsWithSlash text = false)
    (hnd : (st.orders.map (·._id)).Nodup) :
    (∀ fault now,
      (onTextMessage cfg fault now st chatId (some text)).state.replyIntent chatId = none ∧
      ∀ c, c ≠ chatId →
        (onTextMessage cfg fault now st chatId (some text)).state.replyIntent c =
          st.replyIntent c) ∧
    (∀ fault now, trim text = "" →
      (onTextMessage cfg fault now st chatId (some text)).state.orders = st.orders) ∧
    (∀ fault now, (∀ o ∈ st.orders, o.orderNumber ≠ X) →
      (onTextMessage cfg fault now st chatId (some text)).state.orders = st.orders) ∧
    (∀ fault now, (fault.onFind ≠ none ∨ fault.onUpdate ≠ none) →
      (onTextMessage cfg fault now st chatId (some text)).state.orders = st.orders) ∧
    (∀ now l₁ o l₂, trim text ≠ "" → st.orders = l₁ ++ o :: l₂ → o.orderNumber = X →
      (∀ x ∈ l₁, x.orderNumber ≠ X) →
      (onTextMessage cfg .none now st chatId (some text)).state.orders =
        l₁ ++ { o with messages := o.messages ++ [⟨"admin", trim text, now⟩],
                       hasUnreadUserMessage := false } :: l₂) := by
  have hstate : ∀ fault now, (onTextMessage cfg fault now st chatId (some text)).state =
      (onMessage cfg fault now st chatId (some text)).state := fun _ _ => rfl
  refine ⟨?_, ?_, ?_, ?_, ?_⟩
  · intro fault now
    rw [hstate]
    rcases onMessage_reply_cases cfg fault now st chatId hchat harm hX htext hslash with
      ⟨-, h⟩ | ⟨-, -, -, o, -, h⟩
    · rw [h]
      refine ⟨by simp [clearReply], fun c hc => by simp [clearReply, hc]⟩
    · rw [h]
      refine ⟨by simp [clearReply], fun c hc => by simp [clearReply, hc]⟩
  · intro fault now htrim
    rw [hstate]
    rcases onMessage_reply_cases cfg fault now st chatId hchat harm hX htext hslash with
      ⟨-, h⟩ | ⟨h, -⟩
    · rw [h]; rfl
    · exact absurd htrim h
  · intro fault now hnone
    rw [hstate]
    rcases onMessage_reply_cases cfg fault now st chatId hchat harm hX htext hslash with
      ⟨-, h⟩ | ⟨-, -, -, o, ho, -⟩
    · rw [h]; rfl
    · rw [find_byNumber_none hnone] at ho
      cases ho
  · intro fault now hfault
    rw [hstate]
    rcases onMessage_reply_cases cfg fault now st chatId hchat harm hX htext hslash with
      ⟨-, h⟩ | ⟨-, hf, hu, -⟩
    · rw [h]; rfl
    · rcases hfault with h | h
      · exact absurd hf h
      · exact absurd hu h
  · intro now l₁ o l₂ htrim hst hnum hl
    rw [hstate]
    have hp : ∀ x ∈ l₁, byNumber X x = false := fun x hx => by simpa [byNumber] using hl x hx
    have ho : byNumber X o = true := by simp [byNumber, hnum]
    have hfind : st.orders.find? (byNumber X) = some o := by
      rw [hst]
      exact (updateFirst_at id hp ho).1
    rw [onMessage_reply_eq cfg .none now st chatId hchat harm hX hslash htrim rfl rfl, hfind]
    simp only
    rw [hst] at hnd ⊢
    rw [updateFirst_byId_at _ hnd]
    rfl

/-- C18, on the sample store with the slot armed for EM-0000000B: the text
" shipped " is appended, trimmed, to the thread of the pending order. -/
theorem C18_armed_reply_consumes_slot_witness :
    (toString (42 : Int) = sampleCfg.adminChatId ∧
      (armReply sampleState 42 "EM-0000000B").replyIntent 42 = some "EM-0000000B" ∧
      ("EM-0000000B" : String) ≠ "" ∧ (" shipped " : String) ≠ "" ∧
      startsWithSlash " shipped " = false ∧
      ((armReply sampleState 42 "EM-0000000B").orders.map (·._id)).Nodup ∧
      trim " shipped " ≠ "" ∧
      (armReply sampleState 42 "EM-0000000B").orders = [sampleArchived] ++ samplePending :: [] ∧
      samplePending.orderNumber = "EM-0000000B" ∧
      (∀ x ∈ [sampleArchived], x.orderNumber ≠ "EM-0000000B")) ∧
    (onTextMessage sampleCfg .none 9 (armReply sampleState 42 "EM-0000000B") 42
        (some " shipped ")).state.orders =
      [sampleArchived] ++
        { samplePending with
          messages := samplePending.messages ++ [⟨"admin", trim " shipped ", 9⟩],
          hasUnreadUserMessage := false } :: [] :=
  ⟨⟨by decide, by decide, by decide, by decide, by decide, by decide, by decide, rfl, rfl,
      by decide⟩,
    (C18_armed_reply_consumes_slot sampleCfg (armReply sampleState 42 "EM-0000000B") 42
      " shipped " "EM-0000000B" (by decide) (by decide) (by decide) (by decide) (by decide)
      (by decide)).2.2.2.2 9 [sampleArchived] samplePending [] (by decide) rfl rfl (by decide)⟩

/-! ## C19: a command leaves the armed slot alone -/

theorem startsWithSlash_of_known {text : String} (h : knownCommandPrefix text = true) :
    startsWithSlash text = true := by
  unfold knownCommandPrefix at h
  unfold startsWithSlash
  split at h
  · rename_i rest heq
    simp [heq]
  · simp at h

theorem ne_empty_of_startsWithSlash {text : String} (h : startsWithSlash text = true) :
    text ≠ "" := by
  rintro rfl
  revert h
  decide

theorem onMessage_slash (cfg : Config) (fault : StoreFault) (now : Nat) (st : State)
    (chatId : Int) {text : String} (hchat : toString chatId = cfg.adminChatId)
    (hslash : startsWithSlash text = true) :
    onMessage cfg fault now st chatId (some text) =
      ⟨st, if knownCommandPrefix text then [] else [.sendMessage chatId .unrecognized]⟩ := by
  have hne := ne_empty_of_startsWithSlash hslash
  have hne' : (text == "") = false := by simpa using hne
  unfold onMessage
  simp only [hchat, bne_self_eq_false, hne', Bool.or_self, Bool.false_eq_true, if_false, hslash,
    Bool.not_true, Bool.and_false]
  cases knownCommandPrefix text <;> simp

/-- C19. For every text message from the operator that starts with a
recognized command prefix (a slash followed by one of the known verbs, such as
`/bekleyenler`) received while the reply-intent slot is armed for the order X:
the state is unchanged, so the slot is still armed for X and no message is
appended to the thread of X or of any other order; the `message` listener
sends nothing. -/
theorem C19_command_keeps_slot (cfg : Config) (st : State) (chatId : Int) (text X : String)
    (hchat : toString chatId = cfg.adminChatId) (harm : st.replyIntent chatId = some X)
    (hknown : knownCommandPrefix text = true) :
    ∀ fault now,
      (onTextMessage cfg fault now st chatId (some text)).state = st ∧
      (onTextMessage cfg fault now st chatId (some text)).state.replyIntent chatId = some X ∧
      (onTextMessage cfg fault now st chatId (some text)).state.orders = st.orders ∧
      (onMessage cfg fault now st chatId (some text)).outbox = [] := by
  intro fault now
  have hstate : (onTextMessage cfg fault now st chatId (some text)).state =
      (onMessage cfg fault now st chatId (some text)).state := rfl
  rw [hstate, onMessage_slash cfg fault now st chatId hchat (startsWithSlash_of_known hknown)]
  exact ⟨rfl, harm, rfl, by simp [hknown]⟩

/-- C19, on the sample store with the slot armed for EM-0000000B, for the
command `/bekleyenler`. -/
theorem C19_command_keeps_slot_witness :
    (toString (42 : Int) = sampleCfg.adminChatId ∧
      (armReply sampleState 42 "EM-0000000B").replyIntent 42 = some "EM-0000000B" ∧
      knownCommandPrefix "/bekleyenler" = true) ∧
    ((onTextMessage sampleCfg .none 9 (armReply sampleState 42 "EM-0000000B") 42
        (some "/bekleyenler")).state = armReply sampleState 42 "EM-0000000B" ∧
      (onTextMessage sampleCfg .none 9 (armReply sampleState 42 "EM-0000000B") 42
        (some "/bekleyenler")).state.replyIntent 42 = some "EM-0000000B" ∧
      (onTextMessage sampleCfg .none 9 (armReply sampleState 42 "EM-0000000B") 42
        (some "/bekleyenler")).state.orders = (armReply sampleState 42 "EM-0000000B").orders ∧
      (onMessage sampleCfg .none 9 (armReply sampleState 42 "EM-0000000B") 42
        (some "/bekleyenler")).outbox = []) :=
  ⟨⟨by decide, by decide, by decide⟩,
    C19_command_keeps_slot sampleCfg (armReply sampleState 42 "EM-0000000B") 42 "/bekleyenler"
      "EM-0000000B" (by decide) (by decide) (by decide) .none 9⟩

/-! ## C20: which texts clear the armed slot -/

/-- C20, as stated, fails: the text `/foo` starts with no recognized command
verb, yet after it the slot armed for EM-0000000B is still armed; the operator
is told that the text was not understood. -/
theorem C20_unknown_slash_text_counterexample :
    knownCommandPrefix "/foo" = false ∧
    (armReply sampleState 42 "EM-0000000B").replyIntent 42 = some "EM-0000000B" ∧
    (onTextMessage sampleCfg .none 9 (armReply sampleState 42 "EM-0000000B") 42
      (some "/foo")).state.replyIntent 42 = some "EM-0000000B" ∧
    (onTextMessage sampleCfg .none 9 (armReply sampleState 42 "EM-0000000B") 42
      (some "/foo")).outbox = [.sendMessage 42 .unrecognized] := by
  decide

/-- C20 (amended). The armed reply-intent slot survives an operator text
message only when the text starts with a slash: for every non-empty operator
text that does not start with a slash, if the slot is armed before the message
it is empty after it; a text such as `/foo`, which starts with a slash and
names no known verb, is not taken as reply text: it leaves the state unchanged
and the slot armed. -/
theorem C20_non_slash_text_clears_slot (cfg : Config) (st : State) (chatId : Int) (text X : String)
    (hchat : toString chatId = cfg.adminChatId) (harm : st.replyIntent chatId = some X)
    (hX : X ≠ "") (htext : text ≠ "") :
    (startsWithSlash text = false → ∀ fault now,
      (onTextMessage cfg fault now st chatId (some text)).state.replyIntent chatId = none) ∧
    (startsWithSlash text = true → knownCommandPrefix text = false → ∀ fault now,
      (onTextMessage cfg fault now st chatId (some text)).state = st ∧
      (onTextMessage cfg fault now st chatId (some text)).state.replyIntent chatId = some X) := by
  refine ⟨?_, ?_⟩
  · intro hslash fault now
    have hstate : (onTextMessage cfg fault now st chatId (some text)).state =
        (onMessage cfg fault now st chatId (some text)).state := rfl
    rw [hstate]
    rcases onMessage_reply_cases cfg fault now st chatId hchat harm hX htext hslash with
      ⟨-, h⟩ | ⟨-, -, -, o, -, h⟩ <;> rw [h] <;> simp [clearReply]
  · intro hslash _ fault now
    have hstate : (onTextMessage cfg fault now st chatId (some text)).state =
        (onMessage cfg fault now st chatId (some text)).state := rfl
    rw [hstate, onMessage_slash cfg fault now st chatId hchat hslash]
    exact ⟨rfl, harm⟩

/-- C20 (amended), on the sample store with the slot armed for EM-0000000B:
the text "shipped" clears the slot. -/
theorem C20_non_slash_text_clears_slot_witness :
    (toString (42 : Int) = sampleCfg.adminChatId ∧
      (armReply sampleState 42 "EM-0000000B").replyIntent 42 = some "EM-0000000B" ∧
      ("EM-0000000B" : String) ≠ "" ∧ ("shipped" : String) ≠ "" ∧
      startsWithSlash "shipped" = false) ∧
    (onTextMessage sampleCfg .none 9 (armReply sampleState 42 "EM-0000000B") 42
      (some "shipped")).state.replyIntent 42 = none :=
  ⟨⟨by decide, by decide, by decide, by decide, by decide⟩,
    (C20_non_slash_text_clears_slot sampleCfg (armReply sampleState 42 "EM-0000000B") 42 "shipped"
      "EM-0000000B" (by decide) (by decide) (by decide) (by decide)).1 (by decide) .none 9⟩

/-! ## C21: the reply command -/

theorem startsWithSlash_yanitla (X t : String) :
    startsWithSlash ("/yanitla " ++ X ++ " " ++ t) = true := by
  have : ("/yanitla " ++ X ++ " " ++ t).data = '/' :: ("yanitla ".data ++ X.data ++ ' ' :: t.data) := by
    simp [String.data_append]
  simp [startsWithSlash, this]

theorem onTextMessage_slash_state (cfg : Config) (fault : StoreFault) (now : Nat) (st : State)
    (chatId : Int) {text : String} (hslash : startsWithSlash text = true) :
    (onTextMessage cfg fault now st chatId (some text)).state = st := by
  have hstate : (onTextMessage cfg fault now st chatId (some text)).state =
      (onMessage cfg fault now st chatId (some text)).state := rfl
  rw [hstate]
  by_cases hchat : toString chatId = cfg.adminChatId
  · rw [onMessage_slash cfg fault now st chatId hchat hslash]
  · rw [onMessage_stranger cfg fault now st chatId (some text) hchat]

/-- C21, on the code: the listener registered for `/yanitla` has an empty
body, so the command changes nothing.  For every state, chat, order number X
and text t, the state after the text `/yanitla X t` is the state before it.  At
the input `/yanitla EM-DEADBEEF shipped` from the operator, with the order
EM-DEADBEEF holding one unread customer message, the pattern of the listener
matches (groups EM-DEADBEEF and shipped) and yet the store still holds the
order with its thread of length 1 and its unread flag set, and nothing is sent
to the operator. -/
theorem C21_reply_command_has_no_effect :
    (∀ (cfg : Config) (fault : StoreFault) (now : Nat) (st : State) (chatId : Int)
        (X t : String),
      (onTextMessage cfg fault now st chatId (some ("/yanitla " ++ X ++ " " ++ t))).state = st) ∧
    matchOrderTextCommand "yanitla" "/yanitla EM-DEADBEEF shipped"
      = some ("EM-DEADBEEF", "shipped") ∧
    sampleCreated.orderNumber = "EM-DEADBEEF" ∧ sampleCreated.messages.length = 1 ∧
    sampleCreated.hasUnreadUserMessage = true ∧
    (onTextMessage sampleCfg .none 9 ⟨[sampleCreated], fun _ => none⟩ 42
      (some "/yanitla EM-DEADBEEF shipped")).state.orders = [sampleCreated] ∧
    (onTextMessage sampleCfg .none 9 ⟨[sampleCreated], fun _ => none⟩ 42
      (some "/yanitla EM-DEADBEEF shipped")).outbox = [] := by
  refine ⟨?_, by decide, rfl, rfl, rfl, by decide, by decide⟩
  intro cfg fault now st chatId X t
  exact onTextMessage_slash_state cfg fault now st chatId (startsWithSlash_yanitla X t)

/-! ## C22: order numbers in commands -/

theorem matchOrderCommand_any_case (verb n : String) (e m : Char) (cs : List Char)
    (hverb : verb.data.map asciiLower = verb.data) (hn : n.data = e :: m :: '-' :: cs)
    (he : asciiLower e = 'e') (hm : asciiLower m = 'm') (hcs : cs ≠ [])
    (hall : ∀ c ∈ cs, isAlnumAnyCase c = true) :
    matchOrderCommand verb ("/" ++ verb ++ " " ++ n) = some n := by
  have hdata : ("/" ++ verb ++ " " ++ n).data = ('/' :: (verb.data ++ [' '])) ++ n.data := by
    simp [String.data_append]
  have hlen : ('/' :: (verb.data ++ [' '])).length = ('/' :: (verb.data ++ [' '])).length := rfl
  unfold matchOrderCommand
  simp only [hdata, List.take_left', List.drop_left', hn]
  have hpre : List.map asciiLower ('/' :: (verb.data ++ [' '])) = '/' :: (verb.data ++ [' ']) := by
    simp only [List.map_cons, List.map_append, hverb, List.map_nil]
    rfl
  have hall' : cs.all isAlnumAnyCase = true := List.all_eq_true.mpr hall
  have hne : cs.isEmpty = false := by
    cases cs with
    | nil => exact absurd rfl hcs
    | cons _ _ => rfl
  have hasc : asciiLower '-' = '-' := by decide
  simp only [hpre, beq_self_eq_true, List.take, List.map_cons, List.map_nil, he, hm, hasc,
    List.drop, hall', hne, Bool.not_false, Bool.and_self, if_true, Option.some.injEq]
  rw [← hn]

/-- C22, on the code: the patterns of `/yanitla` and `/mesajgonder` carry
flag `s` without flag `i`, unlike the six other order commands.  The texts
`/yanitla em-deadbeef shipped` and `/mesajgonder em-deadbeef shipped` match
no registered pattern (the same texts with EM-DEADBEEF do), and the state is
unchanged after them; `/goruntule em-deadbeef` is recognized and looks up
EM-DEADBEEF, and `/onayla`, `/iptal`, `/arsivle`, `/arsivdenkaldir`,
`/arsivlisil` are recognized with a lower-case number. -/
theorem C22_reply_command_is_case_sensitive :
    matchOrderTextCommand "yanitla" "/yanitla em-deadbeef shipped" = none ∧
    matchOrderTextCommand "mesajgonder" "/mesajgonder em-deadbeef shipped" = none ∧
    matchOrderTextCommand "yanitla" "/yanitla EM-DEADBEEF shipped"
      = some ("EM-DEADBEEF", "shipped") ∧
    matchOrderTextCommand "mesajgonder" "/mesajgonder EM-DEADBEEF shipped"
      = some ("EM-DEADBEEF", "shipped") ∧
    (onTextMessage sampleCfg .none 9 ⟨[sampleCreated], fun _ => none⟩ 42
      (some "/yanitla em-deadbeef shipped")).state.orders = [sampleCreated] ∧
    (onTextMessage sampleCfg .none 9 ⟨[sampleCreated], fun _ => none⟩ 42
      (some "/yanitla em-deadbeef shipped")).outbox = [] ∧
    matchOrderCommand "goruntule" "/goruntule em-deadbeef" = some "em-deadbeef" ∧
    toUpperCase "em-deadbeef" = "EM-DEADBEEF" ∧
    onText sampleCfg ⟨[sampleCreated], fun _ => none⟩ 42 "/goruntule em-deadbeef"
      = [.sendMessage 42 (.orderView sampleCreated)] ∧
    (["onayla", "iptal", "arsivle", "arsivdenkaldir", "arsivlisil"].map fun verb =>
        matchOrderCommand verb ("/" ++ verb ++ " " ++ "em-deadbeef"))
      = List.replicate 5 (some "em-deadbeef") := by
  decide

/-! ## C23: the stored transaction id -/

theorem dropWhile_eq_self {p : Char → Bool} {l : List Char}
    (h : ∀ c, l.head? = some c → p c = false) : l.dropWhile p = l := by
  cases l with
  | nil => rfl
  | cons a l => simp [List.dropWhile, h a rfl]

theorem trimChars_eq_self {l : List Char}
    (hfirst : ∀ c, l.head? = some c → isJsWhitespace c = false)
    (hlast : ∀ c, l.getLast? = some c → isJsWhitespace c = false) : trimChars l = l := by
  unfold trimChars
  rw [dropWhile_eq_self hfirst, dropWhile_eq_self (by simpa [List.head?_reverse] using hlast)]
  simp

/-- C23, as stated, fails: with a transaction id of a space followed by 64
hex digits the sample checkout succeeds, and the order it stores carries the 64
hex digits without the space, not the string of the request. -/
theorem C23_leading_space_counterexample :
    (checkout sampleLib sampleCfg sampleCatalog [⟨0xDE, 0xAD, 0xBE, 0xEF⟩] 1 5 State.init
        { sampleBody with transactionId := some ⟨' ' :: List.replicate 64 'a'⟩ }).map
      (fun r => (r.response, r.state.orders.map (·.transactionId)))
      = some (.checkoutOk "EM-DEADBEEF", [⟨List.replicate 64 'a'⟩]) ∧
    (⟨List.replicate 64 'a'⟩ : String) ≠ ⟨' ' :: List.replicate 64 'a'⟩ := by
  decide

/-- C23 (amended). For every successful checkout, the `transactionId` stored on
the persisted order is the `transactionId` string of the request with its
leading and trailing white space removed, and it matches the format; it is
character for character the string of the request whenever that string neither
starts nor ends with a white space character. -/
theorem C23_transaction_id_is_stored_trimmed (lib : Lib) (cfg : Config) (catalog : List Product)
    (draws : List Draw) (newId : ObjectId) (now : Nat) (st : State) (body : CheckoutBody)
    (r : RouteResult) (h : checkout lib cfg catalog draws newId now st body = some r)
    (hok : r.response.ok = true) :
    ∃ tx o, body.transactionId = some tx ∧ r.state.orders = st.orders ++ [o] ∧
      o.transactionId = trim tx ∧ txIdPattern o.transactionId = true ∧
      ((∀ c, tx.data.head? = some c → isJsWhitespace c = false) →
        (∀ c, tx.data.getLast? = some c → isJsWhitespace c = false) → o.transactionId = tx) := by
  obtain ⟨productId, q, paymentInfo, crypto, tx, pid, product, n, msgs, -, -, -, -, -, htx, hpat,
    -, -, -, -, -, hst⟩ := checkout_ok_inv h hok
  refine ⟨tx, _, htx, by rw [hst], rfl, hpat, ?_⟩
  intro hfirst hlast
  show trim tx = tx
  unfold trim
  rw [trimChars_eq_self hfirst hlast]

/-- C23 (amended), on the sample checkout. -/
theorem C23_transaction_id_is_stored_trimmed_witness :
    (checkout sampleLib sampleCfg sampleCatalog [⟨0xDE, 0xAD, 0xBE, 0xEF⟩] 1 5 State.init sampleBody
        = some ⟨⟨[sampleCreated], fun _ => none⟩, .checkoutOk "EM-DEADBEEF",
            sendNewOrderNotification sampleCfg sampleCreated⟩ ∧
      (Response.checkoutOk "EM-DEADBEEF").ok = true) ∧
    ∃ tx o, sampleBody.transactionId = some tx ∧
      (⟨[sampleCreated], fun _ => none⟩ : State).orders = State.init.orders ++ [o] ∧
      o.transactionId = trim tx ∧ txIdPattern o.transactionId = true ∧
      ((∀ c, tx.data.head? = some c → isJsWhitespace c = false) →
        (∀ c, tx.data.getLast? = some c → isJsWhitespace c = false) → o.transactionId = tx) :=
  ⟨⟨rfl, rfl⟩,
    C23_transaction_id_is_stored_trimmed sampleLib sampleCfg sampleCatalog
      [⟨0xDE, 0xAD, 0xBE, 0xEF⟩] 1 5 State.init sampleBody
      ⟨⟨[sampleCreated], fun _ => none⟩, .checkoutOk "EM-DEADBEEF",
        sendNewOrderNotification sampleCfg sampleCreated⟩ rfl rfl⟩

/-! ## C24: the buttons and the callback parser -/

theorem updateOrderStatus_outbox (cfg : Config) (st : State) (chatId : Int) (n s : String) :
    Outgoing.sendMessage chatId .unknownButton ∉ (updateOrderStatus cfg st chatId n s).outbox := by
  unfold updateOrderStatus
  split
  · simp
  · split <;> simp

theorem updateOrderArchiveStatus_outbox (cfg : Config) (st : State) (chatId : Int) (n : String)
    (b : Bool) :
    Outgoing.sendMessage chatId .unknownButton ∉
      (updateOrderArchiveStatus cfg st chatId n b).outbox := by
  unfold updateOrderArchiveStatus
  split
  · simp
  · split <;> simp

theorem onCallbackQuery_dispatched (cfg : Config) (st : State) (chatId : Int)
    {data a n : String} (hchat : toString chatId = cfg.adminChatId)
    (hsplit : splitColon data = [a, n]) (hn : n ≠ "")
    (ha : a ∈ ["confirm", "cancel", "view", "archive", "reply_init"]) :
    (onCallbackQuery cfg st chatId data).outbox.head? = some (.answerCallbackQuery none) ∧
    Outgoing.sendMessage chatId .unknownButton ∉ (onCallbackQuery cfg st chatId data).outbox := by
  rw [onCallbackQuery_parsed cfg st chatId hchat hsplit hn]
  simp only [List.mem_cons, List.mem_singleton, List.not_mem_nil, or_false] at ha
  rcases ha with rfl | rfl | rfl | rfl | rfl
  · simp [updateOrderStatus_outbox]
  · simp [updateOrderStatus_outbox]
  · simp only [show ("view" == "confirm") = false by decide,
      show ("view" == "cancel") = false by decide, show ("view" == "archive") = false by decide,
      show ("view" == "view") = true by decide, Bool.false_eq_true, if_false, if_true]
    split <;> simp
  · simp [updateOrderArchiveStatus_outbox]
  · simp

theorem notificationPayloads_eq (cfg : Config) (order : Order) (userMessageText : String) :
    notificationPayloads cfg order userMessageText =
      if !cfg.botStarted || cfg.adminChatId == "" then []
      else
        ["confirm:" ++ order.orderNumber, "cancel:" ++ order.orderNumber,
         "view:" ++ order.orderNumber, "archive:" ++ order.orderNumber,
         "reply_init:" ++ order.orderNumber, "view:" ++ order.orderNumber,
         "confirm:" ++ order.orderNumber, "cancel:" ++ order.orderNumber,
         "archive:" ++ order.orderNumber] := by
  unfold notificationPayloads sendNewOrderNotification sendNewUserMessageNotification
  split <;> simp [Outgoing.buttons]

theorem notification_buttons_parse (cfg : Config) (order : Order) (userMessageText : String)
    (hcolon : ':' ∉ order.orderNumber.data) (hne : order.orderNumber ≠ "") :
    (∀ p ∈ notificationPayloads cfg order userMessageText,
      ∃ a, a ∈ ["confirm", "cancel", "view", "archive", "reply_init"] ∧
        p = a ++ ":" ++ order.orderNumber ∧ splitColon p = [a, order.orderNumber] ∧
        (splitColon p).headD "" = a ∧ (splitColon p).get? 1 = some order.orderNumber ∧
        ∀ (cfg' : Config) (st : State) (chatId : Int), toString chatId = cfg'.adminChatId →
          (onCallbackQuery cfg' st chatId p).outbox.head? = some (.answerCallbackQuery none) ∧
          Outgoing.sendMessage chatId .unknownButton ∉ (onCallbackQuery cfg' st chatId p).outbox) ∧
    (cfg.botStarted = true → cfg.adminChatId ≠ "" →
      notificationPayloads cfg order userMessageText =
        ["confirm:" ++ order.orderNumber, "cancel:" ++ order.orderNumber,
         "view:" ++ order.orderNumber, "archive:" ++ order.orderNumber,
         "reply_init:" ++ order.orderNumber, "view:" ++ order.orderNumber,
         "confirm:" ++ order.orderNumber, "cancel:" ++ order.orderNumber,
         "archive:" ++ order.orderNumber]) := by
  have key : ∀ a, a ∈ ["confirm", "cancel", "view", "archive", "reply_init"] →
      ':' ∉ a.data →
      ∃ a', a' ∈ ["confirm", "cancel", "view", "archive", "reply_init"] ∧
        a ++ ":" ++ order.orderNumber = a' ++ ":" ++ order.orderNumber ∧
        splitColon (a ++ ":" ++ order.orderNumber) = [a', order.orderNumber] ∧
        (splitColon (a ++ ":" ++ order.orderNumber)).headD "" = a' ∧
        (splitColon (a ++ ":" ++ order.orderNumber)).get? 1 = some order.orderNumber ∧
        ∀ (cfg' : Config) (st : State) (chatId : Int), toString chatId = cfg'.adminChatId →
          (onCallbackQuery cfg' st chatId (a ++ ":" ++ order.orderNumber)).outbox.head? =
            some (.answerCallbackQuery none) ∧
          Outgoing.sendMessage chatId .unknownButton ∉
            (onCallbackQuery cfg' st chatId (a ++ ":" ++ order.orderNumber)).outbox := by
    intro a ha hac
    have hs := splitColon_action a order.orderNumber hac hcolon
    refine ⟨a, ha, rfl, hs, by rw [hs]; rfl, by rw [hs]; rfl, ?_⟩
    intro cfg' st chatId hchat
    exact onCallbackQuery_dispatched cfg' st chatId hchat hs hne ha
  constructor
  · intro p hp
    rw [notificationPayloads_eq] at hp
    split at hp
    · simp at hp
    · simp only [List.mem_cons, List.mem_singleton, List.not_mem_nil, or_false] at hp
      rcases hp with rfl | rfl | rfl | rfl | rfl | rfl | rfl | rfl | rfl
      · exact key "confirm" (by decide) (by decide)
      · exact key "cancel" (by decide) (by decide)
      · exact key "view" (by decide) (by decide)
      · exact key "archive" (by decide) (by decide)
      · exact key "reply_init" (by decide) (by decide)
      · exact key "view" (by decide) (by decide)
      · exact key "confirm" (by decide) (by decide)
      · exact key "cancel" (by decide) (by decide)
      · exact key "archive" (by decide) (by decide)
  · intro hbot hchat
    rw [notificationPayloads_eq]
    simp [hbot, hchat]

theorem Draw.orderNumber_plain (d : Draw) : ':' ∉ d.orderNumber.data ∧ d.orderNumber ≠ "" := by
  obtain ⟨cs, -, hcs, hd⟩ := d.orderNumber_format
  have hdata : d.orderNumber.data = 'E' :: 'M' :: '-' :: cs := by
    rw [hd]
    simp [String.data_append]
  constructor
  · rw [hdata]
    intro h
    simp only [List.mem_cons] at h
    rcases h with h | h | h | h
    · exact absurd h (by decide)
    · exact absurd h (by decide)
    · exact absurd h (by decide)
    · exact absurd (hcs _ h) (by decide)
  · intro h
    rw [h] at hdata
    simp at hdata


/-! ### The order numbers of the stored orders -/

theorem addMessage_edit (lib : Lib) (cfg : Config) (now : Nat) (st : State)
    (orderId userMessage : Option String) :
    StoreEdit st.orders (addMessage lib cfg now st orderId userMessage).state.orders := by
  unfold addMessage
  simp only
  split
  · split
    · exact .same rfl
    · split
      · exact .same rfl
      · rename_i id _
        split
        · rename_i h
          obtain ⟨rfl, -⟩ := findOneAndUpdate_eq h
          exact .update _ _ (.push _ _ rfl) rfl
        · rename_i h
          obtain ⟨rfl, -⟩ := findOneAndUpdate_eq h
          exact .update _ _ (.push _ _ rfl) rfl
  · exact .same rfl

theorem updateOrderStatusRoute_edit (lib : Lib) (st : State) (orderId newStatus : Option String) :
    StoreEdit st.orders (updateOrderStatusRoute lib st orderId newStatus).state.orders := by
  unfold updateOrderStatusRoute
  simp only
  split
  · exact .same rfl
  · split
    · exact .same rfl
    · split
      · exact .same rfl
      · split <;> rename_i h <;> obtain ⟨rfl, -⟩ := findOneAndUpdate_eq h <;>
          exact .update _ _ (.status _) rfl

theorem sendMessageRoute_edit (lib : Lib) (now : Nat) (st : State)
    (orderId adminReply : Option String) :
    StoreEdit st.orders (sendMessageRoute lib now st orderId adminReply).state.orders := by
  unfold sendMessageRoute
  simp only
  split
  · split
    · exact .same rfl
    · split
      · exact .same rfl
      · split <;> rename_i h <;> obtain ⟨rfl, -⟩ := findOneAndUpdate_eq h <;>
          exact .update _ _ (.push _ _ rfl) rfl
  · exact .same rfl

theorem archiveOrderRoute_edit (lib : Lib) (st : State) (orderId : String) :
    StoreEdit st.orders (archiveOrderRoute lib st orderId).state.orders := by
  unfold archiveOrderRoute
  split
  · exact .same rfl
  · split <;> rename_i h <;> obtain ⟨rfl, -⟩ := findOneAndUpdate_eq h <;>
      exact .update _ _ (.archived _) rfl

theorem deleteArchivedOrderRoute_edit (lib : Lib) (st : State) (orderId : String) :
    StoreEdit st.orders (deleteArchivedOrderRoute lib st orderId).state.orders := by
  unfold deleteArchivedOrderRoute
  split
  · exact .same rfl
  · split <;> rename_i h <;> obtain ⟨rfl, -⟩ := findOneAndDelete_eq h <;>
      exact .delete _ rfl

theorem updateOrderStatus_edit (cfg : Config) (st : State) (chatId : Int)
    (orderNumber newStatus : String) :
    StoreEdit st.orders (updateOrderStatus cfg st chatId orderNumber newStatus).state.orders := by
  unfold updateOrderStatus
  split
  · exact .same rfl
  · split <;> rename_i h <;> obtain ⟨rfl, -⟩ := findOneAndUpdate_eq h <;>
      exact .update _ _ (.status _) rfl

theorem updateOrderArchiveStatus_edit (cfg : Config) (st : State) (chatId : Int)
    (orderNumber : String) (isArchived : Bool) :
    StoreEdit st.orders
      (updateOrderArchiveStatus cfg st chatId orderNumber isArchived).state.orders := by
  unfold updateOrderArchiveStatus
  split
  · exact .same rfl
  · split <;> rename_i h <;> obtain ⟨rfl, -⟩ := findOneAndUpdate_eq h <;>
      exact .update _ _ (.archived _) rfl

theorem onCallbackQuery_edit (cfg : Config) (st : State) (chatId : Int) (data : String) :
    StoreEdit st.orders (onCallbackQuery cfg st chatId data).state.orders := by
  unfold onCallbackQuery
  simp only
  split
  · exact .same rfl
  · split
    · exact .same rfl
    · split
      · exact .same rfl
      · split
        · exact updateOrderStatus_edit ..
        · split
          · exact updateOrderStatus_edit ..
          · split
            · exact updateOrderArchiveStatus_edit ..
            · split
              · split <;> exact .same rfl
              · split
                · exact .same rfl
                · exact .same rfl

theorem onMessage_edit (cfg : Config) (fault : StoreFault) (now : Nat) (st : State)
    (chatId : Int) (text : Option String) :
    StoreEdit st.orders (onMessage cfg fault now st chatId text).state.orders := by
  unfold onMessage
  split
  · exact .same rfl
  · split
    · exact .same rfl
    · split
      · simp only
        split
        · exact .same rfl
        · split
          · exact .same rfl
          · split
            · exact .same rfl
            · split
              · exact .same rfl
              · split <;> rename_i h <;> obtain ⟨rfl, -⟩ := findOneAndUpdate_eq h <;>
                  exact .update _ _ (.push _ _ rfl) rfl
      · split <;> exact .same rfl

theorem StoreEdit.edit_origin {os os' : List Order} (h : StoreEdit os os') {o' : Order}
    (ho' : o' ∈ os') : ∃ o ∈ os, o'.orderNumber = o.orderNumber := by
  cases h with
  | same h => subst h; exact ⟨o', ho', rfl⟩
  | update p f hf h =>
    subst h
    obtain ⟨o, ho, h'⟩ := mem_updateFirst ho'
    rcases h' with rfl | rfl
    · exact ⟨_, ho, rfl⟩
    · exact ⟨_, ho, (hf.update_evolves o).2.1⟩
  | delete id h =>
    subst h
    exact ⟨o', List.mem_of_mem_eraseP ho', rfl⟩

theorem step_order_number {lib : Lib} {cfg : Config} {st st' : State} {op : Op}
    (h : step lib cfg st op = some st') {o' : Order} (ho' : o' ∈ st'.orders) :
    (∃ o ∈ st.orders, o'.orderNumber = o.orderNumber) ∨ ∃ d : Draw, d.orderNumber = o'.orderNumber := by
  cases op with
  | checkout catalog draws newId now body =>
    simp only [step, Option.map_eq_some'] at h
    obtain ⟨r, hr, rfl⟩ := h
    rcases checkout_cases hr with ⟨hst, -, -⟩ | ⟨n, o, hn, hon, -, hst, -⟩
    · rw [hst] at ho'; exact .inl ⟨o', ho', rfl⟩
    · rw [hst] at ho'
      rcases List.mem_append.mp ho' with h1 | h1
      · exact .inl ⟨o', h1, rfl⟩
      · simp only [List.mem_singleton] at h1
        subst h1
        obtain ⟨⟨d, -, hd⟩, -⟩ := allocateOrderNumber_some hn
        exact .inr ⟨d, by rw [hd, hon]⟩
  | addMessage now orderId userMessage =>
    simp only [step, Option.some.injEq] at h; subst h
    exact .inl ((addMessage_edit ..).edit_origin ho')
  | updateOrderStatusRoute orderId newStatus =>
    simp only [step, Option.some.injEq] at h; subst h
    exact .inl ((updateOrderStatusRoute_edit ..).edit_origin ho')
  | sendMessageRoute now orderId adminReply =>
    simp only [step, Option.some.injEq] at h; subst h
    exact .inl ((sendMessageRoute_edit ..).edit_origin ho')
  | archiveOrderRoute orderId =>
    simp only [step, Option.some.injEq] at h; subst h
    exact .inl ((archiveOrderRoute_edit ..).edit_origin ho')
  | deleteArchivedOrderRoute orderId =>
    simp only [step, Option.some.injEq] at h; subst h
    exact .inl ((deleteArchivedOrderRoute_edit ..).edit_origin ho')
  | updateOrderStatus chatId orderNumber newStatus =>
    simp only [step, Option.some.injEq] at h; subst h
    exact .inl ((updateOrderStatus_edit ..).edit_origin ho')
  | updateOrderArchiveStatus chatId orderNumber isArchived =>
    simp only [step, Option.some.injEq] at h; subst h
    exact .inl ((updateOrderArchiveStatus_edit ..).edit_origin ho')
  | callbackQuery chatId data =>
    simp only [step, Option.some.injEq] at h; subst h
    exact .inl ((onCallbackQuery_edit ..).edit_origin ho')
  | textMessage fault now chatId text =>
    simp only [step, Option.some.injEq] at h; subst h
    exact .inl ((onMessage_edit cfg fault now st chatId text).edit_origin ho')

theorem Reachable.reachable_order_numbers {lib : Lib} {cfg : Config} {st : State}
    (h : Reachable lib cfg st) : ∀ o ∈ st.orders, ∃ d : Draw, d.orderNumber = o.orderNumber := by
  induction h with
  | init => intro o ho; simp [State.init] at ho
  | step op _ hstep ih =>
    intro o' ho'
    rcases step_order_number hstep ho' with ⟨o, ho, he⟩ | hd
    · obtain ⟨d, hd⟩ := ih o ho
      exact ⟨d, by rw [hd, he]⟩
    · exact hd

/-- C24. Round trip between the notification buttons and the callback parser:
for every order held by the store in a state reached from a fresh deployment
whose `orderNumber` contains no colon (the number is "EM-" plus 8 hex digits,
and every such number is without a colon and not empty), each `callback_data`
attached by `sendNewOrderNotification` and by `sendNewUserMessageNotification`
is `action:orderNumber` with an action among confirm, cancel, view, archive,
reply_init, and splitting it at the colons as the callback handler does yields
exactly that action and that order number; so the handler, for the operator,
acknowledges the callback instead of rejecting it as order-number-less and
never reports it as an unknown button.  When the bot is started and the chat
id is set, the nine buttons are the listed ones. -/
theorem C24_buttons_round_trip (lib : Lib) (cfg : Config) (st : State)
    (hreach : Reachable lib cfg st)
    (order : Order) (hmem : order ∈ st.orders) (userMessageText : String)
    (hcolon : ':' ∉ order.orderNumber.data) :
    (∀ p ∈ notificationPayloads cfg order userMessageText,
      ∃ a, a ∈ ["confirm", "cancel", "view", "archive", "reply_init"] ∧
        p = a ++ ":" ++ order.orderNumber ∧ splitColon p = [a, order.orderNumber] ∧
        (splitColon p).headD "" = a ∧ (splitColon p).get? 1 = some order.orderNumber ∧
        ∀ (cfg' : Config) (st' : State) (chatId : Int), toString chatId = cfg'.adminChatId →
          (onCallbackQuery cfg' st' chatId p).outbox.head? = some (.answerCallbackQuery none) ∧
          Outgoing.sendMessage chatId .unknownButton ∉ (onCallbackQuery cfg' st' chatId p).outbox) ∧
    (cfg.botStarted = true → cfg.adminChatId ≠ "" →
      notificationPayloads cfg order userMessageText =
        ["confirm:" ++ order.orderNumber, "cancel:" ++ order.orderNumber,
         "view:" ++ order.orderNumber, "archive:" ++ order.orderNumber,
         "reply_init:" ++ order.orderNumber, "view:" ++ order.orderNumber,
         "confirm:" ++ order.orderNumber, "cancel:" ++ order.orderNumber,
         "archive:" ++ order.orderNumber]) ∧
    (∃ d : Draw, d.orderNumber = order.orderNumber) ∧
    (∀ d : Draw, ':' ∉ d.orderNumber.data ∧ d.orderNumber ≠ "") := by
  obtain ⟨d, hd⟩ := hreach.reachable_order_numbers order hmem
  have hne : order.orderNumber ≠ "" := hd ▸ d.orderNumber_plain.2
  exact ⟨(notification_buttons_parse cfg order userMessageText hcolon hne).1,
    (notification_buttons_parse cfg order userMessageText hcolon hne).2, ⟨d, hd⟩,
    Draw.orderNumber_plain⟩

/-- C24, for the order EM-DEADBEEF in the state after the sample checkout. -/
theorem C24_buttons_round_trip_witness :
    (Reachable sampleLib sampleCfg ⟨[sampleCreated], fun _ => none⟩ ∧
      sampleCreated ∈ (⟨[sampleCreated], fun _ => none⟩ : State).orders ∧
      ':' ∉ sampleCreated.orderNumber.data ∧
      sampleCfg.botStarted = true ∧ sampleCfg.adminChatId ≠ "") ∧
    notificationPayloads sampleCfg sampleCreated "hi" =
      ["confirm:" ++ sampleCreated.orderNumber, "cancel:" ++ sampleCreated.orderNumber,
       "view:" ++ sampleCreated.orderNumber, "archive:" ++ sampleCreated.orderNumber,
       "reply_init:" ++ sampleCreated.orderNumber, "view:" ++ sampleCreated.orderNumber,
       "confirm:" ++ sampleCreated.orderNumber, "cancel:" ++ sampleCreated.orderNumber,
       "archive:" ++ sampleCreated.orderNumber] :=
  ⟨⟨.step (.checkout sampleCatalog [⟨0xDE, 0xAD, 0xBE, 0xEF⟩] 1 5 sampleBody) .init rfl,
      by simp, by decide, rfl, by decide⟩,
    (C24_buttons_round_trip sampleLib sampleCfg ⟨[sampleCreated], fun _ => none⟩
      (.step (.checkout sampleCatalog [⟨0xDE, 0xAD, 0xBE, 0xEF⟩] 1 5 sampleBody) .init rfl)
      sampleCreated (by simp) "hi" (by decide)).2.1 rfl (by decide)⟩

end OrderDesk
